import Mathlib

/-!
# pinstart.cpp: creating a start shape from manually pinned points

A shallow embedding of `src/jni/stasm/pinstart.cpp`.  Coordinates live in an
arbitrary linear ordered field `K` (the reals for the mathematics, the
rationals when a definition has to be evaluated).  Functions that the source
calls but does not define are fields of `Env`.  Where the rounding of the C
type `double` decides a property, the arithmetic of the source is followed a
second time on a model of IEEE 754 binary64 numbers (section *Double
precision*).
-/

namespace Stasm

/-! ## Data model -/

/-- The ways a call can stop without a result: a failed `CV_Assert`, a call
of `Err`, and an access outside a vector, whose behaviour is not defined. -/
inductive Failure where
  | assertion (expr : String)
  | err (msg : String)
  | undefined (what : String)
  deriving DecidableEq

/-- A shape is a matrix with one row per landmark and the two columns
`IX`, `IY`; the list holds the rows in order. -/
abbrev Shape (K : Type) := List (K × K)

/-- A similarity or rotation matrix: the two rows `a00 a01 a02` and
`a10 a11 a12` that act on a column `(x, y, 1)`. -/
structure MAT (K : Type) where
  a00 : K
  a01 : K
  a02 : K
  a10 : K
  a11 : K
  a12 : K
  deriving DecidableEq

/-- The fields of `DetectorParameter` that the source reads or writes. -/
structure DetectorParameter (K : Type) where
  x : K
  y : K
  width : K
  height : K
  lex : K
  ley : K
  rex : K
  rey : K
  mouthx : K
  mouthy : K
  rot : K
  eyaw : Int
  yaw : K
  deriving DecidableEq

/-- Pixel values of a grayscale image, row by row. -/
abbrev Pixels := List (List Nat)

/-- An `Image` object is a matrix header: the identity of the pixel buffer it
refers to and its size.  Several headers may refer to one buffer. -/
structure Image where
  data : Nat
  rows : Nat
  cols : Nat
  deriving DecidableEq

/-- The pixel buffers, by identity. -/
abbrev Heap := Nat → Pixels

/-- An image returned by value: its size and its pixels. -/
structure ImageValue where
  rows : Nat
  cols : Nat
  pixels : Pixels
  deriving DecidableEq

/-- A shape model `Mod`, as far as the source uses it. -/
structure Mod (K : Type) where
  MeanShape_ : Shape K
  ConformShapeToMod_Pinned_ : Shape K → Shape K → Shape K

/-- The functions and constants used by the source and declared elsewhere
(`stasm.h`, the C library, OpenCV). -/
structure Env (K : Type) where
  /-- The C library `atan2(y, x)`. -/
  atan2 : K → K → K
  /-- The C library `sqrt`. -/
  sqrt : K → K
  /-- Cosine of an angle given in degrees, as `getRotationMatrix2D` uses it. -/
  cosDeg : K → K
  /-- Sine of an angle given in degrees. -/
  sinDeg : K → K
  /-- The conversion `float(x)`. -/
  toFloat : K → K
  RadsToDegrees : K → K
  PossiblySetRotToZero : K → K
  PointUsed : K → K → Bool
  Shape17 : Shape K → Shape K
  AlignmentMat : Shape K → Shape K → MAT K
  JitterPointsAt00 : Shape K → Shape K
  L17_LPupil : Nat
  L17_RPupil : Nat
  L17_LMouthCorner : Nat
  L17_RMouthCorner : Nat
  L17_LEyeOuter : Nat
  L17_REyeOuter : Nat
  L17_CNoseTip : Nat
  L17_CBotOfBotLip : Nat
  DegreesAsEyaw : K → Int → Int
  EyawAsModIndex : Int → List (Mod K) → Int
  IsLeftFacing : Int → Bool
  FlipShape : Shape K → Nat → Shape K
  /-- The call `FaceRoiAndDetectorParameter(face_roi, detpar_roi, img, detpar, flip)`
  as a function of the pixels and size of `img`, of `detpar` and of `flip`,
  returning `face_roi` and `detpar_roi`. -/
  FaceRoiAndDetectorParameter :
    ImageValue → DetectorParameter K → Bool → ImageValue × DetectorParameter K
  ImgShapeToRoiFrame : Shape K → DetectorParameter K → DetectorParameter K → Shape K
  FlipDetPar : DetectorParameter K → Nat → DetectorParameter K

variable {K : Type} [LinearOrderedField K]

/-- Element access `shape(i, IX)`; a row outside the matrix reads as `(0, 0)`. -/
def Shape.x (shape : Shape K) (i : Nat) : K := (shape.getD i (0, 0)).1

/-- Element access `shape(i, IY)`; a row outside the matrix reads as `(0, 0)`. -/
def Shape.y (shape : Shape K) (i : Nat) : K := (shape.getD i (0, 0)).2

/-- The assignment `shape(i, IX) = v`. -/
def Shape.setX (shape : Shape K) (i : Nat) (v : K) : Shape K :=
  shape.set i (v, shape.y i)

/-- The assignment `shape(i, IY) = v`. -/
def Shape.setY (shape : Shape K) (i : Nat) (v : K) : Shape K :=
  shape.set i (shape.x i, v)

/-- A freshly constructed `Shape(rows, 2)`. -/
def Shape.create (rows : Nat) : Shape K := List.replicate rows (0, 0)

/-- Modelled from the spec: a point of a shape is used when its coordinate
pair is, the test of `PointUsed(x, y)` on the coordinates of row `ipoint`.  For
the overload `PointUsed(shape, ipoint)`, which the source calls and does not
define. -/
def PointUsedAt (env : Env K) (shape : Shape K) (ipoint : Nat) : Bool :=
  env.PointUsed (shape.x ipoint) (shape.y ipoint)

/-- Modelled from the spec: `ApplyTransform(shape, Transform) -> Shape`, the
transform applied to every point of the shape, for `TransformShape` and
`TransformShapeInPlace`, which the source calls and does not define. -/
def TransformShape (shape : Shape K) (mat : MAT K) : Shape K :=
  shape.map fun p =>
    (mat.a00 * p.1 + mat.a01 * p.2 + mat.a02, mat.a10 * p.1 + mat.a11 * p.2 + mat.a12)

/-! ## PinMeanShape -/

/-- The first loop of `PinMeanShape`: the number of rows `ipoint < rows`
with `PointUsed(pinned, ipoint)`. -/
def PinMeanShape.countUsed (env : Env K) (pinned : Shape K) (rows : Nat) : Nat :=
  (List.range rows).foldl
    (fun nused ipoint => if PointUsedAt env pinned ipoint then nused + 1 else nused) 0

/-- The second loop of `PinMeanShape`: starting from `pinned_used`,
`mean_used` and `i`, copy the used rows of `pinned` and the rows of
`meanshape` with the same index to row `i`, incrementing `i`. -/
def PinMeanShape.copyUsed (env : Env K) (pinned meanshape : Shape K)
    (init : Shape K × Shape K × Nat) : Shape K × Shape K × Nat :=
  (List.range meanshape.length).foldl
    (fun acc ipoint =>
      if PointUsedAt env pinned ipoint then
        let pinned_used := (acc.1.setX acc.2.2 (pinned.x ipoint)).setY acc.2.2 (pinned.y ipoint)
        let mean_used := (acc.2.1.setX acc.2.2 (meanshape.x ipoint)).setY acc.2.2
          (meanshape.y ipoint)
        (pinned_used, mean_used, acc.2.2 + 1)
      else acc)
    init

/-- Align the mean shape to the pinned points (`PinMeanShape`). -/
def PinMeanShape (env : Env K) (pinned meanshape : Shape K) : Except Failure (Shape K) :=
  if pinned.length ≠ meanshape.length then
    .error (.assertion "pinned.rows == meanshape.rows")
  else
    let nused := PinMeanShape.countUsed env pinned meanshape.length
    if nused < 2 then
      .error (.err "Need at least two pinned landmarks")
    else
      let r := PinMeanShape.copyUsed env pinned meanshape
        (Shape.create nused, Shape.create nused, 0)
      if r.2.2 ≠ nused then
        .error (.assertion "i == nused")
      else
        let TransformedShape := TransformShape meanshape (env.AlignmentMat r.2.1 r.1)
        .ok (env.JitterPointsAt00 TransformedShape)

/-! ## The pose estimator -/

/-- Element access `x[i]` into the buffer of a matrix. -/
def Buf.at (x : List K) (i : Nat) : K := x.getD i 0

/-- The yaw regression `EstYawFrom5PointShape`; `x` has 10 elements. -/
def EstYawFrom5PointShape (x : List K) : K :=
  34.342
    - 7.0267 * max 0 (Buf.at x 3 - -0.34708)
    + 10.739 * max 0 (-0.34708 - Buf.at x 3)
    + 116.29 * max 0 (Buf.at x 4 - 0.21454)
    - 159.56 * max 0 (0.21454 - Buf.at x 4)
    + 12.513 * max 0 (Buf.at x 7 - 0.3384)
    + 7.2764 * max 0 (0.3384 - Buf.at x 7)
    + 260.14 * max 0 (Buf.at x 3 - -0.34708) * max 0 (Buf.at x 5 - -0.010838)
    - 160.64 * max 0 (Buf.at x 3 - -0.34708) * max 0 (-0.010838 - Buf.at x 5)
    - 284.88 * max 0 (-0.34708 - Buf.at x 3) * max 0 (Buf.at x 5 - -0.055581)
    + 654.54 * max 0 (-0.34708 - Buf.at x 3) * max 0 (-0.055581 - Buf.at x 5)

/-- Modelled from the spec: `RotationMatrix(center, angleDeg) -> Transform`,
the rotation by `angle` degrees about `(cx, cy)` with uniform `scale`, for
OpenCV's `getRotationMatrix2D`, which the source calls and does not define. -/
def getRotationMatrix2D (env : Env K) (cx cy angle scale : K) : MAT K :=
  let alpha := scale * env.cosDeg angle
  let beta := scale * env.sinDeg angle
  { a00 := alpha, a01 := beta, a02 := (1 - alpha) * cx - beta * cy,
    a10 := -beta, a11 := alpha, a12 := beta * cx + (1 - alpha) * cy }

/-- Rotate `shape` by `rot` degrees about `(x, y)` (`RotShapeInPlace`); the
result is the new value of `shape`. -/
def RotShapeInPlace (env : Env K) (shape : Shape K) (rot x y : K) :
    Except Failure (Shape K) :=
  if rot ≥ -360 ∧ rot ≤ 360 then
    let rotmat := getRotationMatrix2D env (env.toFloat x) (env.toFloat y) rot 1
    .ok (TransformShape shape rotmat)
  else
    .error (.assertion "rot >= -360 && rot <= 360")

/-- Modelled from the spec: the sum of the x coordinates, by which the points
are mean-centred.  For `SumElems(shape.col(IX))`; `SumElems` is called by the
source and not defined there. -/
def SumElemsX (shape : Shape K) : K := (shape.map Prod.fst).sum

/-- Modelled from the spec: the sum of the y coordinates.  For
`SumElems(shape.col(IY))`. -/
def SumElemsY (shape : Shape K) : K := (shape.map Prod.snd).sum

/-- The value `rot` receives in `EstRotAndYawFrom5PointShape` (lines 66 to 69). -/
def EstRotAndYawFrom5PointShape.rot (env : Env K) (workshape : Shape K) : K :=
  env.PossiblySetRotToZero
    (env.RadsToDegrees
      (-env.atan2 (workshape.y 1 - workshape.y 0) (workshape.x 1 - workshape.x 0)))

/-- The conditional derotation of `workshape` about its centroid (lines 71 to 75). -/
def EstRotAndYawFrom5PointShape.derotate (env : Env K) (workshape : Shape K) (rot : K) :
    Except Failure (Shape K) :=
  if rot ≠ 0 then
    RotShapeInPlace env workshape (-rot) (SumElemsX workshape / 5) (SumElemsY workshape / 5)
  else
    .ok workshape

/-- Mean-centre the columns of `workshape` through the column headers `X` and
`Y`, which share its data (lines 78 and 79). -/
def EstRotAndYawFrom5PointShape.center (workshape : Shape K) : Shape K :=
  let workshape := workshape.map fun p => (p.1 - SumElemsX workshape / 5, p.2)
  workshape.map fun p => (p.1, p.2 - SumElemsY workshape / 5)

/-- The loop that accumulates `norm` (lines 82 to 84). -/
def EstRotAndYawFrom5PointShape.norm (workshape : Shape K) : K :=
  (List.range 5).foldl
    (fun norm i => norm + (workshape.x i * workshape.x i + workshape.y i * workshape.y i)) 0

/-- The statement `workshape /= sqrt(norm)` (line 85). -/
def EstRotAndYawFrom5PointShape.normalize (env : Env K) (workshape : Shape K) : Shape K :=
  let norm := EstRotAndYawFrom5PointShape.norm workshape
  workshape.map fun p => (p.1 / env.sqrt norm, p.2 / env.sqrt norm)

/-- Modelled from the spec: the flattened vector of the coordinates of a
shape, row by row.  For `Buf(shape)`, which the source calls and does not
define. -/
def Buf (shape : Shape K) : List K := shape.flatMap fun p => [p.1, p.2]

/-- The 10 values that `EstRotAndYawFrom5PointShape` passes to
`EstYawFrom5PointShape` (lines 59 to 87), given the value of `rot`. -/
def EstRotAndYawFrom5PointShape.yawInput (env : Env K) (shape5 : Shape K) (rot : K) :
    Except Failure (List K) :=
  match EstRotAndYawFrom5PointShape.derotate env shape5 rot with
  | .error e => .error e
  | .ok workshape =>
    .ok (Buf (EstRotAndYawFrom5PointShape.normalize env
      (EstRotAndYawFrom5PointShape.center workshape)))

/-- Estimate `(rot, yaw)` from a five point shape (`EstRotAndYawFrom5PointShape`). -/
def EstRotAndYawFrom5PointShape (env : Env K) (shape5 : Shape K) : Except Failure (K × K) :=
  if shape5.length ≠ 5 then
    .error (.assertion "shape5.rows == 5")
  else
    let rot := EstRotAndYawFrom5PointShape.rot env shape5
    match EstRotAndYawFrom5PointShape.yawInput env shape5 rot with
    | .error e => .error e
    | .ok x => .ok (rot, EstYawFrom5PointShape x)

/-! ## The canonical five points -/

/-- Are the five canonical points pinned (`HaveCanonical5Points`)? -/
def HaveCanonical5Points (env : Env K) (pinned17 : Shape K) : Except Failure Bool :=
  if pinned17.length ≠ 17 then
    .error (.assertion "pinned17.rows == 17")
  else
    .ok (PointUsedAt env pinned17 env.L17_LEyeOuter &&
         PointUsedAt env pinned17 env.L17_REyeOuter &&
         PointUsedAt env pinned17 env.L17_CNoseTip &&
         PointUsedAt env pinned17 env.L17_LMouthCorner &&
         PointUsedAt env pinned17 env.L17_RMouthCorner)

/-- Copy point `iold` of `oldshape` to point `i` of `shape` (`CopyPoint`). -/
def CopyPoint (shape oldshape : Shape K) (i iold : Nat) : Shape K :=
  (shape.setX i (oldshape.x iold)).setY i (oldshape.y iold)

/-- Return a five point shape (`Shape5`). -/
def Shape5 (env : Env K) (pinned meanshape : Shape K) : Except Failure (Shape K) :=
  let pinned17 := env.Shape17 pinned
  let meanshape17 := env.Shape17 meanshape
  match HaveCanonical5Points env pinned17 with
  | .error e => .error e
  | .ok have5 =>
    match (if !have5 then PinMeanShape env pinned17 meanshape17 else .ok pinned17) with
    | .error e => .error e
    | .ok newpinned17 =>
      let shape5 : Shape K := Shape.create 5
      let shape5 := CopyPoint shape5 newpinned17 0 env.L17_LEyeOuter
      let shape5 := CopyPoint shape5 newpinned17 1 env.L17_REyeOuter
      let shape5 := CopyPoint shape5 newpinned17 2 env.L17_CNoseTip
      let shape5 := CopyPoint shape5 newpinned17 3 env.L17_LMouthCorner
      let shape5 := CopyPoint shape5 newpinned17 4 env.L17_RMouthCorner
      .ok shape5

/-! ## Detector parameters -/

/-- Fill in the eye and mouth fields of `detpar` (`InitDetParEyeMouthFromShape`);
the result is the new value of `detpar`. -/
def InitDetParEyeMouthFromShape (env : Env K) (detpar : DetectorParameter K)
    (shape : Shape K) : DetectorParameter K :=
  let shape17 := env.Shape17 shape
  let detpar :=
    if PointUsedAt env shape17 env.L17_LPupil then
      { detpar with lex := shape17.x env.L17_LPupil, ley := shape17.y env.L17_LPupil }
    else detpar
  let detpar :=
    if PointUsedAt env shape17 env.L17_RPupil then
      { detpar with rex := shape17.x env.L17_RPupil, rey := shape17.y env.L17_RPupil }
    else detpar
  let detpar :=
    if PointUsedAt env shape17 env.L17_CBotOfBotLip then
      { detpar with mouthx := shape17.x env.L17_CBotOfBotLip,
                    mouthy := shape17.y env.L17_CBotOfBotLip }
    else detpar
  detpar

/-- Modelled from the spec: the eye-midpoint-to-mouth distance, the Euclidean
distance between two points, for `PointDist`, which the source calls and does
not define. -/
def PointDist (env : Env K) (x1 y1 x2 y2 : K) : K :=
  env.sqrt ((x1 - x2) * (x1 - x2) + (y1 - y2) * (y1 - y2))

/-- Generate the detector parameter of a start shape back from the shape
(`PseudoDetParFromStartShape`). -/
def PseudoDetParFromStartShape (env : Env K) (startshape : Shape K) (rot yaw : K)
    (nmods : Int) : Except Failure (DetectorParameter K) :=
  let shape17 := env.Shape17 startshape
  let lex := shape17.x env.L17_LPupil
  let ley := shape17.y env.L17_LPupil
  let rex := shape17.x env.L17_RPupil
  let rey := shape17.y env.L17_RPupil
  let mouthx := shape17.x env.L17_CBotOfBotLip
  let mouthy := shape17.y env.L17_CBotOfBotLip
  if !env.PointUsed lex ley then .error (.assertion "PointUsed(lex, ley)")
  else if !env.PointUsed rex rey then .error (.assertion "PointUsed(rex, rey)")
  else if !env.PointUsed mouthx mouthy then .error (.assertion "PointUsed(mouthx, mouthy)")
  else
    let xeye := (lex + rex) / 2
    let yeye := (ley + rey) / 2
    let eyemouth := PointDist env xeye yeye mouthx mouthy
    .ok { x := 0.7 * xeye + 0.3 * mouthx,
          y := 0.7 * yeye + 0.3 * mouthy,
          width := 2.0 * eyemouth,
          height := 2.0 * eyemouth,
          lex := lex, ley := ley, rex := rex, rey := rey,
          mouthx := mouthx, mouthy := mouthy,
          rot := rot,
          eyaw := env.DegreesAsEyaw yaw nmods,
          yaw := yaw }

/-- Lines 222 to 240 of `PseudoDetParFromStartShape`: the detector parameter
built once the three assertions have passed. -/
def PseudoDetParFromStartShape.detpar (env : Env K) (startshape : Shape K) (rot yaw : K)
    (nmods : Int) : DetectorParameter K :=
  let shape17 := env.Shape17 startshape
  let lex := shape17.x env.L17_LPupil
  let ley := shape17.y env.L17_LPupil
  let rex := shape17.x env.L17_RPupil
  let rey := shape17.y env.L17_RPupil
  let mouthx := shape17.x env.L17_CBotOfBotLip
  let mouthy := shape17.y env.L17_CBotOfBotLip
  let xeye := (lex + rex) / 2
  let yeye := (ley + rey) / 2
  let eyemouth := PointDist env xeye yeye mouthx mouthy
  { x := 0.7 * xeye + 0.3 * mouthx,
    y := 0.7 * yeye + 0.3 * mouthy,
    width := 2.0 * eyemouth,
    height := 2.0 * eyemouth,
    lex := lex, ley := ley, rex := rex, rey := rey,
    mouthx := mouthx, mouthy := mouthy,
    rot := rot,
    eyaw := env.DegreesAsEyaw yaw nmods,
    yaw := yaw }

/-! ## PinnedStartShapeAndRoi -/

/-- The image a header stands for: its size and the pixels of its buffer. -/
def Image.value (heap : Heap) (img : Image) : ImageValue :=
  { rows := img.rows, cols := img.cols, pixels := heap img.data }

/-- Modelled from the spec: `FlipHorizontal(image) -> Image` (in place), the
mirror image written over the pixel buffer of `img`, for `FlipImgInPlace`, which
the source calls and does not define. -/
def FlipImgInPlace (heap : Heap) (img : Image) : Heap :=
  Function.update heap img.data ((heap img.data).map List.reverse)

/-- The output parameters of `PinnedStartShapeAndRoi`. -/
structure PinnedStartShapeAndRoi.Out (K : Type) where
  startshape : Shape K
  face_roi : ImageValue
  detpar_roi : DetectorParameter K
  detpar : DetectorParameter K
  pinned_roi : Shape K

/-- Lines 275 to 291 of `PinnedStartShapeAndRoi`, after the image and the
pinned shape have possibly been flipped. -/
def PinnedStartShapeAndRoi.finish (env : Env K) (heap : Heap) (img workimg : Image)
    (mods : List (Mod K)) (pinned_roi : Shape K) (rot yaw : K) (eyaw imod : Int) :
    Except Failure (PinnedStartShapeAndRoi.Out K) :=
  match mods.get? imod.natAbs with
  | none => .error (.undefined "mods[ABS(imod)]")
  | some mod =>
    match PinMeanShape env pinned_roi mod.MeanShape_ with
    | .error e => .error e
    | .ok startshape =>
      let startshape := mod.ConformShapeToMod_Pinned_ startshape pinned_roi
      match PseudoDetParFromStartShape env startshape rot yaw mods.length with
      | .error e => .error e
      | .ok detpar =>
        let detpar :=
          if env.IsLeftFacing eyaw then { detpar with rot := detpar.rot * -1 } else detpar
        let roi := env.FaceRoiAndDetectorParameter (workimg.value heap) detpar false
        let face_roi := roi.1
        let detpar_roi := roi.2
        let startshape := env.ImgShapeToRoiFrame startshape detpar_roi detpar
        let pinned_roi := env.ImgShapeToRoiFrame pinned_roi detpar_roi detpar
        let detpar_roi := InitDetParEyeMouthFromShape env detpar_roi startshape
        if env.IsLeftFacing eyaw then
          let detpar := env.FlipDetPar detpar img.cols
          let detpar := { detpar with rot := -detpar.rot }
          let detpar_roi :=
            { detpar_roi with x := detpar_roi.x + 2 * ((face_roi.cols : K) / 2 - detpar_roi.x) }
          .ok { startshape := startshape, face_roi := face_roi, detpar_roi := detpar_roi,
                detpar := detpar, pinned_roi := pinned_roi }
        else
          .ok { startshape := startshape, face_roi := face_roi, detpar_roi := detpar_roi,
                detpar := detpar, pinned_roi := pinned_roi }

/-- Use the pinned landmarks to initialise the start shape
(`PinnedStartShapeAndRoi`).  The result pairs the outcome of the call with the
pixel buffers as the call leaves them.  `Image workimg(img)` constructs a
second header for the buffer of `img`; the trace output is left out. -/
def PinnedStartShapeAndRoi (env : Env K) (heap : Heap) (img : Image) (mods : List (Mod K))
    (pinned : Shape K) : Except Failure (PinnedStartShapeAndRoi.Out K) × Heap :=
  match mods.get? 0 with
  | none => (.error (.undefined "mods[0]"), heap)
  | some mod0 =>
    match Shape5 env pinned mod0.MeanShape_ with
    | .error e => (.error e, heap)
    | .ok shape5 =>
      match EstRotAndYawFrom5PointShape env shape5 with
      | .error e => (.error e, heap)
      | .ok (rot, yaw) =>
        let eyaw := env.DegreesAsEyaw yaw mods.length
        let imod := env.EyawAsModIndex eyaw mods
        let pinned_roi := pinned
        let workimg : Image := img
        if env.IsLeftFacing eyaw then
          let pinned_roi := env.FlipShape pinned_roi workimg.cols
          let heap := FlipImgInPlace heap workimg
          (PinnedStartShapeAndRoi.finish env heap img workimg mods pinned_roi rot yaw eyaw imod,
            heap)
        else
          (PinnedStartShapeAndRoi.finish env heap img workimg mods pinned_roi rot yaw eyaw imod,
            heap)

/-- Lines 279 to 281 of `PinnedStartShapeAndRoi`: the ROI step, applied to
the working image and to `detpar` with its rotation negated for a left-facing
pose; the result is `(face_roi, detpar_roi)`. -/
def PinnedStartShapeAndRoi.roi (env : Env K) (heap : Heap) (workimg : Image)
    (detpar : DetectorParameter K) (eyaw : Int) : ImageValue × DetectorParameter K :=
  env.FaceRoiAndDetectorParameter (workimg.value heap)
    (if env.IsLeftFacing eyaw then { detpar with rot := detpar.rot * -1 } else detpar) false

/-! ## Collaborators modelled from the spec

The functions below stand for code that the source calls and does not define.
They are the values of the fields of `refEnv`. -/

/-- Modelled from the spec: a point may be "unused", a sentinel coordinate
pair meaning "not supplied"; the sentinel is the origin.  For `PointUsed(x, y)`,
which the source calls and does not define. -/
def PointUsed (x y : K) : Bool := !decide (x = 0 ∧ y = 0)

/-- Modelled from the spec: a small deterministic perturbation applied to the
points that land exactly at the origin; the perturbation sets the x coordinate
to `XJITTER`.  For `JitterPointsAt00`, which the source calls and does not define. -/
def JitterPointsAt00 (XJITTER : K) (shape : Shape K) : Shape K :=
  shape.map fun p => if PointUsed p.1 p.2 then p else (XJITTER, p.2)

/-- The sums over corresponding rows of `shape` and `anchorshape` that
determine the least-squares similarity fit. -/
structure AlignmentMat.Sums (K : Type) where
  W : K
  X1 : K
  Y1 : K
  X2 : K
  Y2 : K
  Z : K
  C1 : K
  C2 : K

/-- Modelled from the spec: the sums of `AlignmentTransform`, accumulated row by row. -/
def AlignmentMat.sums (shape anchorshape : Shape K) : AlignmentMat.Sums K :=
  (List.zip shape anchorshape).foldl
    (fun s r =>
      { W := s.W + 1,
        X1 := s.X1 + r.1.1,
        Y1 := s.Y1 + r.1.2,
        X2 := s.X2 + r.2.1,
        Y2 := s.Y2 + r.2.2,
        Z := s.Z + (r.1.1 * r.1.1 + r.1.2 * r.1.2),
        C1 := s.C1 + (r.2.1 * r.1.1 + r.2.2 * r.1.2),
        C2 := s.C2 + (r.2.2 * r.1.1 - r.2.1 * r.1.2) })
    { W := 0, X1 := 0, Y1 := 0, X2 := 0, Y2 := 0, Z := 0, C1 := 0, C2 := 0 }

/-- Modelled from the spec: `AlignmentTransform(sourcePoints, targetPoints) ->
Transform`, the least-squares similarity fit (rotation, uniform scale and
translation) of `shape` onto `anchorshape`: the solution `a, b, tx, ty` of the
normal equations of `sum |(a x - b y + tx, b x + a y + ty) - (x', y')|^2`.  For
`AlignmentMat`, which the source calls and does not define. -/
def AlignmentMat (shape anchorshape : Shape K) : MAT K :=
  let s := AlignmentMat.sums shape anchorshape
  let d := s.W * s.Z - s.X1 * s.X1 - s.Y1 * s.Y1
  let a := (s.W * s.C1 - s.X1 * s.X2 - s.Y1 * s.Y2) / d
  let b := (s.W * s.C2 + s.Y1 * s.X2 - s.X1 * s.Y2) / d
  let tx := (s.X2 - a * s.X1 + b * s.Y1) / s.W
  let ty := (s.Y2 - b * s.X1 - a * s.Y1) / s.W
  { a00 := a, a01 := -b, a02 := tx, a10 := b, a11 := a, a12 := ty }

/-- The similarity `(x, y) ↦ (a x - b y + tx, b x + a y + ty)`. -/
def similarity (a b tx ty : K) (p : K × K) : K × K :=
  (a * p.1 + -b * p.2 + tx, b * p.1 + a * p.2 + ty)

/-- The spread `W * Z - X1^2 - Y1^2` of a point list: the determinant of the
normal equations of the fit. -/
def spread (l : Shape K) : K :=
  l.length * (l.map fun p => p.1 * p.1 + p.2 * p.2).sum
    - (l.map fun p => p.1).sum * (l.map fun p => p.1).sum
    - (l.map fun p => p.2).sum * (l.map fun p => p.2).sum

/-- Modelled from the spec: the rows of the 77 point scheme that fill the 17
canonical slots, in the order of the slots. -/
def Shape17.table77 : List Nat :=
  [38, 39, 59, 65, 18, 21, 22, 25, 34, 30, 40, 44, 52, 51, 53, 62, 74]

/-- Modelled from the spec: `ToCanonical17(shape) -> Shape17`, a total
landmark-scheme mapping by table: a shape of the 77 point scheme is read through
`Shape17.table77`, any other shape slot by slot, and a slot whose row the
source shape does not have is marked unused.  For `Shape17`, which the source
calls and does not define. -/
def Shape17 (shape : Shape K) : Shape K :=
  if shape.length = 77 then Shape17.table77.map fun i => shape.getD i (0, 0)
  else (List.range 17).map fun i => shape.getD i (0, 0)

/-- Modelled from the spec: rotation snapping, a rotation estimate within the
epsilon `ROT_TREAT_AS_ZERO` of zero is reported as exactly 0.  For
`PossiblySetRotToZero`, which the source calls and does not define. -/
def PossiblySetRotToZero (ROT_TREAT_AS_ZERO rot : K) : K :=
  if -ROT_TREAT_AS_ZERO ≤ rot ∧ rot ≤ ROT_TREAT_AS_ZERO then 0 else rot

/-- Modelled from the spec: the radians to degrees conversion.  For
`RadsToDegrees`, which the source calls and does not define. -/
def RadsToDegrees (pi rads : K) : K := 180 / pi * rads

/-- Modelled from the spec: yaw discretization, a monotonic function of yaw
with bucket boundaries symmetric around 0; a negative bucket is a left-facing
pose and a single model is always the frontal one.  For `DegreesAsEyaw`, which
the source calls and does not define. -/
def DegreesAsEyaw (bound1 bound2 yaw : K) (nmods : Int) : Int :=
  if nmods = 1 then 1
  else if yaw < -bound2 then -3
  else if yaw < -bound1 then -2
  else if yaw ≤ bound1 then 1
  else if yaw ≤ bound2 then 2
  else 3

/-- Modelled from the spec: a bucket is left-facing when it lies on the
negative side of frontal.  For `IsLeftFacing`, which the source calls and does
not define. -/
def IsLeftFacing (eyaw : Int) : Bool := decide (eyaw < 0)

/-- Modelled from the spec: the index of the right-facing counterpart model,
with the sign flipped for a left-facing bucket.  For `EyawAsModIndex`, which
the source calls and does not define. -/
def EyawAsModIndex (eyaw : Int) (mods : List (Mod K)) : Int :=
  if mods.length ≤ 1 then 0
  else if eyaw < 0 then eyaw + 1
  else eyaw - 1

/-- Modelled from the spec: the x coordinate reflected about the image
centre, unused points staying unused.  For `FlipShape`, which the source calls
and does not define. -/
def FlipShape (shape : Shape K) (imgwidth : Nat) : Shape K :=
  shape.map fun p => if PointUsed p.1 p.2 then ((imgwidth : K) - p.1, p.2) else p

/-- Modelled from the spec: the detector parameter mirrored about the image
centre.  For `FlipDetPar`, which the source calls and does not define. -/
def FlipDetPar (detpar : DetectorParameter K) (imgwidth : Nat) : DetectorParameter K :=
  { detpar with
    x := (imgwidth : K) - detpar.x,
    lex := (imgwidth : K) - detpar.rex, ley := detpar.rey,
    rex := (imgwidth : K) - detpar.lex, rey := detpar.ley,
    mouthx := (imgwidth : K) - detpar.mouthx }

/-- Modelled from the spec: `ComputeRoi(image, detpar, bool)`, here the whole
image as region of interest, so that the ROI frame is the image frame.  For
`FaceRoiAndDetectorParameter`, which the source calls and does not define. -/
def FaceRoiAndDetectorParameter (img : ImageValue) (detpar : DetectorParameter K)
    (_flip : Bool) : ImageValue × DetectorParameter K :=
  (img, detpar)

/-- Modelled from the spec: `ToRoiFrame(shape, detparRoi, detparImage)`, the
translation that takes the position of `detpar` to that of `detpar_roi`.  For
`ImgShapeToRoiFrame`, which the source calls and does not define. -/
def ImgShapeToRoiFrame (shape : Shape K) (detpar_roi detpar : DetectorParameter K) :
    Shape K :=
  shape.map fun p =>
    if PointUsed p.1 p.2 then (p.1 + (detpar_roi.x - detpar.x), p.2 + (detpar_roi.y - detpar.y))
    else p

/-- Modelled from the spec: `ConformShapeToConstraints(shape, pinnedConstraints)`,
here the shape with every pinned point put at its pinned position. -/
def ConformShapeToMod_Pinned_ (shape pinned : Shape K) : Shape K :=
  List.zipWith (fun s p => if PointUsed p.1 p.2 then p else s) shape pinned

/-- The C library functions and the calibration constants that `refEnv` needs. -/
structure Calibration (K : Type) where
  atan2 : K → K → K
  sqrt : K → K
  cosDeg : K → K
  sinDeg : K → K
  pi : K
  ROT_TREAT_AS_ZERO : K
  XJITTER : K
  yawBound1 : K
  yawBound2 : K

/-- The environment made of the collaborators modelled from the spec.  The
conversion to `float` is taken to be exact; the canonical slots are numbered in
the order of `Shape17.table77`. -/
def refEnv (c : Calibration K) : Env K :=
  { atan2 := c.atan2,
    sqrt := c.sqrt,
    cosDeg := c.cosDeg,
    sinDeg := c.sinDeg,
    toFloat := id,
    RadsToDegrees := RadsToDegrees c.pi,
    PossiblySetRotToZero := PossiblySetRotToZero c.ROT_TREAT_AS_ZERO,
    PointUsed := PointUsed,
    Shape17 := Shape17,
    AlignmentMat := AlignmentMat,
    JitterPointsAt00 := JitterPointsAt00 c.XJITTER,
    L17_LPupil := 0,
    L17_RPupil := 1,
    L17_LMouthCorner := 2,
    L17_RMouthCorner := 3,
    L17_LEyeOuter := 8,
    L17_REyeOuter := 11,
    L17_CNoseTip := 12,
    L17_CBotOfBotLip := 16,
    DegreesAsEyaw := DegreesAsEyaw c.yawBound1 c.yawBound2,
    EyawAsModIndex := EyawAsModIndex,
    IsLeftFacing := IsLeftFacing,
    FlipShape := FlipShape,
    FaceRoiAndDetectorParameter := FaceRoiAndDetectorParameter,
    ImgShapeToRoiFrame := ImgShapeToRoiFrame,
    FlipDetPar := FlipDetPar }

/-- A model with the given mean shape and the conform step modelled from the spec. -/
def refMod (meanshape : Shape K) : Mod K :=
  { MeanShape_ := meanshape, ConformShapeToMod_Pinned_ := ConformShapeToMod_Pinned_ }

/-- The calibration over the rationals used where `PinMeanShape` and `Shape5`
are evaluated: no rational function is `atan2`, `sqrt`, `cos` or `sin`, and
these two functions do not call them. -/
def evalCalibration : Calibration ℚ :=
  { atan2 := fun _ _ => 0,
    sqrt := fun v => v,
    cosDeg := fun _ => 1,
    sinDeg := fun _ => 0,
    pi := 355 / 113,
    ROT_TREAT_AS_ZERO := 5,
    XJITTER := 0.1,
    yawBound1 := 14,
    yawBound2 := 35 }

/-- The calibration with the given C library functions and value of pi, and
example values of the policy constants. -/
def Calibration.standard (atan2 : K → K → K) (sqrt cosDeg sinDeg : K → K) (pi : K) :
    Calibration K :=
  { atan2 := atan2,
    sqrt := sqrt,
    cosDeg := cosDeg,
    sinDeg := sinDeg,
    pi := pi,
    ROT_TREAT_AS_ZERO := 5,
    XJITTER := 0.1,
    yawBound1 := 14,
    yawBound2 := 35 }

/-- An example mean shape in the 17 point scheme. -/
def exampleMeanShape17 : Shape K :=
  [(35, 40), (65, 40), (38, 70), (62, 70), (25, 30), (42, 30), (58, 30), (75, 30), (28, 40),
    (42, 40), (58, 40), (72, 40), (50, 55), (45, 58), (55, 58), (50, 66), (50, 75)]

/-- An example pinned shape in the 17 point scheme: only the two outer eye
corners, slots 8 and 11, are pinned. -/
def examplePinnedEyes17 : Shape K :=
  [(0, 0), (0, 0), (0, 0), (0, 0), (0, 0), (0, 0), (0, 0), (0, 0), (128, 140),
    (0, 0), (0, 0), (172, 140), (0, 0), (0, 0), (0, 0), (0, 0), (0, 0)]

/-- An example pinned shape in the 77 point scheme: only rows 0 and 1, two
points of the jaw line, are pinned. -/
def examplePinnedJaw77 : Shape ℚ := (10, 50) :: (12, 70) :: List.replicate 75 (0, 0)

/-- An example mean shape in the 77 point scheme. -/
def exampleMeanShape77 : Shape ℚ := (List.range 77).map fun i => ((i : ℚ) + 1, 2 * (i : ℚ) + 1)

/-- An example pinned shape in the 17 point scheme: the five canonical points
of a face turned to the left are pinned, with level outer eye corners. -/
def examplePinnedLeft17 : Shape K :=
  [(0, 0), (0, 0), (40, 70), (60, 70), (0, 0), (0, 0), (0, 0), (0, 0), (20, 40),
    (0, 0), (0, 0), (70, 40), (35, 55), (0, 0), (0, 0), (0, 0), (0, 0)]

/-- An example image of 100 rows and 100 columns in buffer 0: every row holds
the pixel values 0 to 99. -/
def exampleImage : Image := { data := 0, rows := 100, cols := 100 }

/-- The pixel buffers before the example call. -/
def exampleHeap : Heap := fun _ => List.replicate 100 (List.range 100)

/-! ## Double precision

The definitions above compute in an exact field.  The source computes in the C
type `double`; the definitions below follow the arithmetic of
`EstYawFrom5PointShape`, of lines 78 to 87 and of line 290 with every constant
and every operation rounded as IEEE 754 binary64 arithmetic rounds it (to
nearest, ties to even, each operation on its own). -/

/-- A finite value of the C type `double` (IEEE 754 binary64): the number
`m * 2 ^ e`.  Results of the operations below carry a mantissa `m` of exactly 53
bits, or are `0 * 2 ^ 0`.  The exponent is not bounded: infinities, NaN,
subnormal numbers and the sign of zero are not part of the model. -/
structure Double where
  m : Int
  e : Int
  deriving DecidableEq

/-- The rational number a double stands for. -/
def Double.toRat (d : Double) : ℚ := (d.m : ℚ) * (2 : ℚ) ^ d.e

/-- The number of binary digits of `n`, counted in at most `fuel` steps. -/
def Double.bitsAux : Nat → Nat → Nat
  | 0, _ => 0
  | fuel + 1, n => if n = 0 then 0 else Double.bitsAux fuel (n / 2) + 1

/-- The number of binary digits of `n`. -/
def Double.bits (n : Nat) : Nat := Double.bitsAux n n

/-- The integer nearest to `a / 2 ^ sh`, ties to even: `a` loses its low `sh`
bits and is rounded up when they exceed one half, or equal one half and the
kept part is odd. -/
def Double.nearest (a sh : Nat) : Nat :=
  if 2 ^ (sh - 1) < a % 2 ^ sh ∨ (a % 2 ^ sh = 2 ^ (sh - 1) ∧ a / 2 ^ sh % 2 = 1) then
    a / 2 ^ sh + 1
  else
    a / 2 ^ sh

/-- Round the number `m * 2 ^ e` to a mantissa of 53 bits, to nearest and
ties to even. -/
def Double.round (m e : Int) : Double :=
  if m = 0 then
    { m := 0, e := 0 }
  else
    let n := Double.bits m.natAbs
    if n ≤ 53 then
      { m := m * 2 ^ (53 - n), e := e - ((53 - n : Nat) : Int) }
    else if Double.nearest m.natAbs (n - 53) = 2 ^ 53 then
      { m := m.sign * 2 ^ 52, e := e + ((n - 53 : Nat) : Int) + 1 }
    else
      { m := m.sign * Double.nearest m.natAbs (n - 53), e := e + ((n - 53 : Nat) : Int) }

/-- The double nearest to `p / q * 2 ^ e`, for `q ≠ 0`: the quotient is
computed to more than 64 bits and a last bit records whether a remainder is
left. -/
def Double.ratio (p q e : Int) : Double :=
  let k := 64 + Double.bits q.natAbs
  let num := p.natAbs * 2 ^ k
  let s := 2 * (num / q.natAbs) + (if num % q.natAbs = 0 then 0 else 1)
  Double.round (p.sign * q.sign * s) (e - k - 1)

/-- The bits `b - 1, ..., 0` of the integer square root of `n`, given the
higher bits `r`. -/
def Double.isqrtAux (n : Nat) : Nat → Nat → Nat
  | 0, r => r
  | b + 1, r => Double.isqrtAux n b (if (r + 2 ^ b) * (r + 2 ^ b) ≤ n then r + 2 ^ b else r)

/-- The integer square root: the largest `r` with `r * r ≤ n`. -/
def Double.isqrt (n : Nat) : Nat := Double.isqrtAux n (Double.bits n / 2 + 1) 0

/-- The negation `-a`, which is exact. -/
def Double.neg (a : Double) : Double := { m := -a.m, e := a.e }

/-- The sum `a + b`: the exact sum, rounded. -/
def Double.add (a b : Double) : Double :=
  Double.round (a.m * 2 ^ (a.e - min a.e b.e).toNat + b.m * 2 ^ (b.e - min a.e b.e).toNat)
    (min a.e b.e)

/-- The difference `a - b`: the exact difference, rounded. -/
def Double.sub (a b : Double) : Double := Double.add a (Double.neg b)

/-- The product `a * b`: the exact product, rounded. -/
def Double.mul (a b : Double) : Double := Double.round (a.m * b.m) (a.e + b.e)

/-- The quotient `a / b` for `b` other than 0: the exact quotient, rounded. -/
def Double.div (a b : Double) : Double := Double.ratio a.m b.m (a.e - b.e)

/-- The C library `sqrt` on a double that is not negative: the exact square
root, rounded.  The integer square root is taken of the mantissa scaled by an
even power of two to more than 128 bits, and a last bit records whether it is
exact. -/
def Double.sqrt (a : Double) : Double :=
  let j := 128 + a.e % 2
  let n := a.m.natAbs * 2 ^ j.toNat
  let r := Double.isqrt n
  Double.round (2 * r + (if r * r = n then 0 else 1)) ((a.e - j) / 2 - 1)

/-- The operators and literals of C on doubles; an integer literal or `int`
converts without rounding, a decimal literal is the nearest double. -/
instance : Neg Double := ⟨Double.neg⟩
instance : Add Double := ⟨Double.add⟩
instance : Sub Double := ⟨Double.sub⟩
instance : Mul Double := ⟨Double.mul⟩
instance : Div Double := ⟨Double.div⟩
instance (n : Nat) : OfNat Double n := ⟨Double.round n 0⟩
instance : OfScientific Double :=
  ⟨fun mantissa exponentSign decimalExponent =>
    if exponentSign then Double.ratio mantissa (10 ^ decimalExponent) 0
    else Double.round (mantissa * 10 ^ decimalExponent) 0⟩

/-- The macro call `MAX(0, v)`: the larger of 0 and `v`. -/
def Double.MAX0 (v : Double) : Double := if v.m < 0 then 0 else v

/-- Element access `x[i]` into a buffer of doubles. -/
def Buf.at.double (x : List Double) (i : Nat) : Double := x.getD i 0

/-- The yaw regression `EstYawFrom5PointShape` in double arithmetic: each
constant is the double nearest to the decimal of the source and each
operation is rounded, in the order of evaluation of the C expression. -/
def EstYawFrom5PointShape.double (x : List Double) : Double :=
  34.342
    - 7.0267 * Double.MAX0 (Buf.at.double x 3 - -0.34708)
    + 10.739 * Double.MAX0 (-0.34708 - Buf.at.double x 3)
    + 116.29 * Double.MAX0 (Buf.at.double x 4 - 0.21454)
    - 159.56 * Double.MAX0 (0.21454 - Buf.at.double x 4)
    + 12.513 * Double.MAX0 (Buf.at.double x 7 - 0.3384)
    + 7.2764 * Double.MAX0 (0.3384 - Buf.at.double x 7)
    + 260.14 * Double.MAX0 (Buf.at.double x 3 - -0.34708)
        * Double.MAX0 (Buf.at.double x 5 - -0.010838)
    - 160.64 * Double.MAX0 (Buf.at.double x 3 - -0.34708)
        * Double.MAX0 (-0.010838 - Buf.at.double x 5)
    - 284.88 * Double.MAX0 (-0.34708 - Buf.at.double x 3)
        * Double.MAX0 (Buf.at.double x 5 - -0.055581)
    + 654.54 * Double.MAX0 (-0.34708 - Buf.at.double x 3)
        * Double.MAX0 (-0.055581 - Buf.at.double x 5)

/-- Modelled from the spec: the sum of a column of coordinates, for
`SumElems`, which the source calls and does not define; the doubles are added
one after the other. -/
def SumElems.double (col : List Double) : Double := col.foldl (fun sum v => sum + v) 0

/-- Lines 78 and 79 in double arithmetic: the mean `SumElems(X) / 5` is
subtracted from every element of the column. -/
def EstRotAndYawFrom5PointShape.center.double (workshape : List (Double × Double)) :
    List (Double × Double) :=
  let workshape :=
    workshape.map fun p => (p.1 - SumElems.double (workshape.map Prod.fst) / 5, p.2)
  workshape.map fun p => (p.1, p.2 - SumElems.double (workshape.map Prod.snd) / 5)

/-- Lines 82 to 84 in double arithmetic: `norm += SQ(X(i)) + SQ(Y(i))`. -/
def EstRotAndYawFrom5PointShape.norm.double (workshape : List (Double × Double)) : Double :=
  (List.range 5).foldl
    (fun norm i => norm +
      ((workshape.getD i (0, 0)).1 * (workshape.getD i (0, 0)).1
        + (workshape.getD i (0, 0)).2 * (workshape.getD i (0, 0)).2)) 0

/-- Line 85 in double arithmetic: every element is divided by `sqrt(norm)`. -/
def EstRotAndYawFrom5PointShape.normalize.double (workshape : List (Double × Double)) :
    List (Double × Double) :=
  let norm := EstRotAndYawFrom5PointShape.norm.double workshape
  workshape.map fun p => (p.1 / Double.sqrt norm, p.2 / Double.sqrt norm)

/-- Modelled from the spec: the flattened vector of the coordinates of a
shape, row by row, for `Buf(shape)`, which the source calls and does not
define. -/
def Buf.double (shape : List (Double × Double)) : List Double :=
  shape.flatMap fun p => [p.1, p.2]

/-- Lines 78 to 87 in double arithmetic: the 10 values passed to the yaw
regression for a `workshape` that the derotation step has left as it was
(`rot` is 0, lines 71 to 75 are skipped). -/
def EstRotAndYawFrom5PointShape.yawInput.double (workshape : List (Double × Double)) :
    List Double :=
  Buf.double (EstRotAndYawFrom5PointShape.normalize.double
    (EstRotAndYawFrom5PointShape.center.double workshape))

/-- Line 290 in double arithmetic,
`detpar_roi.x += 2. * (face_roi.cols/2. - detpar_roi.x)`: the new value of
`detpar_roi.x` for `face_roi.cols = cols` and `detpar_roi.x = x`. -/
def PinnedStartShapeAndRoi.detpar_roi_x.double (cols : Nat) (x : Double) : Double :=
  x + 2 * (Double.round cols 0 / 2 - x)

/-! ## Facts about double precision

The operations of the model of `double` are correctly rounded: the result of
`round`, and with it of `+`, `-`, `*`, `/` and of a decimal literal, has a
mantissa of 53 bits and lies within half a unit of its last place of the exact
result. -/

theorem Double.round_zero (e : Int) : Double.round 0 e = { m := 0, e := 0 } := by
  simp [Double.round]

/-- A number whose mantissa has at most 53 bits is a double: rounding does not
change its value. -/
theorem Double.toRat_round_of_bits_le (m e : Int) (h : Double.bits m.natAbs ≤ 53) :
    (Double.round m e).toRat = (m : ℚ) * (2 : ℚ) ^ e := by
  unfold Double.round
  by_cases hm : m = 0
  · simp [hm, Double.toRat]
  · simp only [hm, if_false, h, if_true, Double.toRat]
    push_cast
    rw [zpow_sub₀ (by norm_num : (2 : ℚ) ≠ 0), zpow_natCast]
    field_simp
    ring

theorem Double.bitsAux_spec (fuel n : Nat) (h : n ≤ fuel) (hn : 0 < n) :
    2 ^ (Double.bitsAux fuel n - 1) ≤ n ∧ n < 2 ^ Double.bitsAux fuel n := by
  induction fuel generalizing n with
  | zero => omega
  | succ fuel ih =>
    unfold Double.bitsAux
    rw [if_neg (by omega)]
    by_cases h1 : n / 2 = 0
    · have : n = 1 := by omega
      subst this
      cases fuel <;> simp [Double.bitsAux]
    · have hpos : 0 < n / 2 := Nat.pos_of_ne_zero h1
      obtain ⟨l, u⟩ := ih (n / 2) (by omega) hpos
      have hb : 0 < Double.bitsAux fuel (n / 2) := by
        by_contra hc
        have : Double.bitsAux fuel (n / 2) = 0 := by omega
        rw [this] at u
        omega
      constructor
      · have e1 : Double.bitsAux fuel (n / 2) + 1 - 1
            = (Double.bitsAux fuel (n / 2) - 1) + 1 := by omega
        rw [e1, pow_succ]
        omega
      · rw [pow_succ]
        omega

/-- The number of binary digits: `2 ^ (bits n - 1) ≤ n < 2 ^ bits n`. -/
theorem Double.bits_spec (n : Nat) (hn : 0 < n) :
    2 ^ (Double.bits n - 1) ≤ n ∧ n < 2 ^ Double.bits n :=
  Double.bitsAux_spec n n le_rfl hn

/-- The result of `nearest` is within one half of `a / 2 ^ sh`, and is even
when it is exactly one half away. -/
theorem Double.nearest_spec (a sh : Nat) (hsh : 0 < sh) :
    2 * (Double.nearest a sh * 2 ^ sh) ≤ 2 * a + 2 ^ sh ∧
    2 * a ≤ 2 * (Double.nearest a sh * 2 ^ sh) + 2 ^ sh ∧
    a / 2 ^ sh ≤ Double.nearest a sh ∧ Double.nearest a sh ≤ a / 2 ^ sh + 1 ∧
    ((2 * (Double.nearest a sh * 2 ^ sh) = 2 * a + 2 ^ sh ∨
        2 * a = 2 * (Double.nearest a sh * 2 ^ sh) + 2 ^ sh) →
      Double.nearest a sh % 2 = 0) := by
  have hP : 2 ^ sh = 2 * 2 ^ (sh - 1) := by
    conv_lhs => rw [show sh = (sh - 1) + 1 by omega]
    rw [pow_succ]
    ring
  have hdm := Nat.div_add_mod a (2 ^ sh)
  have hr := Nat.mod_lt a (Nat.two_pow_pos sh)
  have hmul : (a / 2 ^ sh + 1) * 2 ^ sh = 2 ^ sh * (a / 2 ^ sh) + 2 ^ sh := by ring
  have hmul0 : a / 2 ^ sh * 2 ^ sh = 2 ^ sh * (a / 2 ^ sh) := by ring
  have hpar := Nat.mod_two_eq_zero_or_one (a / 2 ^ sh)
  unfold Double.nearest
  split_ifs with hc
  · rw [hmul]
    refine ⟨by omega, by omega, by omega, by omega, ?_⟩
    intro ht
    rcases hc with hc | hc
    · omega
    · omega
  · rw [hmul0]
    rw [not_or] at hc
    refine ⟨by omega, by omega, by omega, by omega, ?_⟩
    intro ht
    have h1 : a % 2 ^ sh = 2 ^ (sh - 1) := by omega
    have h2 := hc.2
    rw [not_and] at h2
    have := h2 h1
    omega

theorem Double.sign_cases (m : Int) (hm : m ≠ 0) :
    (m.sign = 1 ∨ m.sign = -1) ∧ (m : ℚ) = (m.sign : ℚ) * (m.natAbs : ℚ) := by
  refine ⟨?_, ?_⟩
  · rcases lt_or_gt_of_ne hm with h | h
    · right; exact Int.sign_eq_neg_one_of_neg h
    · left; exact Int.sign_eq_one_of_pos h
  · have h : ((m.sign * (m.natAbs : Int) : Int) : ℚ) = (m : ℚ) := by
      rw [Int.sign_mul_natAbs]
    rw [Int.cast_mul, Int.cast_natCast] at h
    exact h.symm

/-- The rounding of a number other than 0 has a mantissa of exactly 53 bits,
differs from the number by at most half a unit of its last place, and has an
even mantissa when the difference is exactly that half. -/
theorem Double.round_spec (m e : Int) (hm : m ≠ 0) :
    2 ^ 52 ≤ (Double.round m e).m.natAbs ∧ (Double.round m e).m.natAbs < 2 ^ 53 ∧
    2 * |(Double.round m e).toRat - (m : ℚ) * (2 : ℚ) ^ e| ≤ (2 : ℚ) ^ (Double.round m e).e ∧
    (2 * |(Double.round m e).toRat - (m : ℚ) * (2 : ℚ) ^ e| = (2 : ℚ) ^ (Double.round m e).e →
      (Double.round m e).m % 2 = 0) := by
  have ha : 0 < m.natAbs := Int.natAbs_pos.mpr hm
  obtain ⟨hlo, hhi⟩ := Double.bits_spec m.natAbs ha
  obtain ⟨hs, hsa⟩ := Double.sign_cases m hm
  have h2 : (2 : ℚ) ≠ 0 := by norm_num
  by_cases hn : Double.bits m.natAbs ≤ 53
  · have hexact := Double.toRat_round_of_bits_le m e hn
    have hpos : (0 : ℚ) < (2 : ℚ) ^ (Double.round m e).e := zpow_pos (by norm_num) _
    have hm' : (Double.round m e).m = m * 2 ^ (53 - Double.bits m.natAbs) := by
      unfold Double.round
      simp only [hm, if_false, hn, if_true]
    have hn1 : 1 ≤ Double.bits m.natAbs := by
      by_contra hc
      have h0 : Double.bits m.natAbs = 0 := by omega
      rw [h0] at hhi
      omega
    have hnat : (Double.round m e).m.natAbs = m.natAbs * 2 ^ (53 - Double.bits m.natAbs) := by
      rw [hm', Int.natAbs_mul, Int.natAbs_pow]
      rfl
    have e52 : 2 ^ 52 = 2 ^ (Double.bits m.natAbs - 1) * 2 ^ (53 - Double.bits m.natAbs) := by
      rw [← pow_add]
      congr 1
      omega
    have e53 : 2 ^ 53 = 2 ^ Double.bits m.natAbs * 2 ^ (53 - Double.bits m.natAbs) := by
      rw [← pow_add]
      congr 1
      omega
    refine ⟨?_, ?_, ?_, ?_⟩
    · rw [hnat, e52]
      exact Nat.mul_le_mul_right _ hlo
    · rw [hnat, e53]
      exact Nat.mul_lt_mul_of_pos_right hhi (Nat.two_pow_pos _)
    · rw [hexact, sub_self, abs_zero, mul_zero]
      exact hpos.le
    · intro ht
      rw [hexact, sub_self, abs_zero, mul_zero] at ht
      exact absurd ht hpos.ne
  · have hsh : 0 < Double.bits m.natAbs - 53 := by omega
    obtain ⟨n1, n2, n3, n4, n5⟩ := Double.nearest_spec m.natAbs (Double.bits m.natAbs - 53) hsh
    have e52 : 2 ^ (Double.bits m.natAbs - 1) = 2 ^ 52 * 2 ^ (Double.bits m.natAbs - 53) := by
      rw [← pow_add]
      congr 1
      omega
    have e53 : 2 ^ Double.bits m.natAbs = 2 ^ 53 * 2 ^ (Double.bits m.natAbs - 53) := by
      rw [← pow_add]
      congr 1
      omega
    have q1 : 2 ^ 52 ≤ m.natAbs / 2 ^ (Double.bits m.natAbs - 53) := by
      rw [Nat.le_div_iff_mul_le (Nat.two_pow_pos _), ← e52]
      exact hlo
    have q2 : m.natAbs / 2 ^ (Double.bits m.natAbs - 53) < 2 ^ 53 := by
      rw [Nat.div_lt_iff_lt_mul (Nat.two_pow_pos _), ← e53]
      exact hhi
    have c1 : (2 : ℚ) * ((Double.nearest m.natAbs (Double.bits m.natAbs - 53) : ℚ)
        * (2 : ℚ) ^ (Double.bits m.natAbs - 53)) ≤ 2 * (m.natAbs : ℚ)
          + (2 : ℚ) ^ (Double.bits m.natAbs - 53) := by exact_mod_cast n1
    have c2 : (2 : ℚ) * (m.natAbs : ℚ) ≤ 2 * ((Double.nearest m.natAbs
        (Double.bits m.natAbs - 53) : ℚ) * (2 : ℚ) ^ (Double.bits m.natAbs - 53))
          + (2 : ℚ) ^ (Double.bits m.natAbs - 53) := by exact_mod_cast n2
    have hepos : (0 : ℚ) < (2 : ℚ) ^ e := zpow_pos (by norm_num) _
    have hshpos : (0 : ℚ) < (2 : ℚ) ^ (Double.bits m.natAbs - 53) := pow_pos (by norm_num) _
    have habs : ∀ x : ℚ, |(m.sign : ℚ) * x| = |x| := by
      intro x
      rcases hs with h | h <;> simp [h]
    -- the value `sign * nearest * 2 ^ (e + sh)` and its distance from `m * 2 ^ e`
    have herr : 2 * |((m.sign : ℚ) * (Double.nearest m.natAbs (Double.bits m.natAbs - 53) : ℚ)
        * (2 : ℚ) ^ (e + ((Double.bits m.natAbs - 53 : Nat) : Int)) - (m : ℚ) * (2 : ℚ) ^ e)|
        = |(Double.nearest m.natAbs (Double.bits m.natAbs - 53) : ℚ)
          * (2 : ℚ) ^ (Double.bits m.natAbs - 53) - (m.natAbs : ℚ)| * 2 * (2 : ℚ) ^ e := by
      have hval : (m.sign : ℚ) * (Double.nearest m.natAbs (Double.bits m.natAbs - 53) : ℚ)
          * (2 : ℚ) ^ (e + ((Double.bits m.natAbs - 53 : Nat) : Int)) - (m : ℚ) * (2 : ℚ) ^ e
          = (m.sign : ℚ) * (((Double.nearest m.natAbs (Double.bits m.natAbs - 53) : ℚ)
            * (2 : ℚ) ^ (Double.bits m.natAbs - 53) - (m.natAbs : ℚ)) * (2 : ℚ) ^ e) := by
        rw [zpow_add₀ h2, zpow_natCast]
        conv_lhs => rw [hsa]
        ring
      rw [hval, habs, abs_mul, abs_of_pos hepos]
      ring
    have hhalf : |(Double.nearest m.natAbs (Double.bits m.natAbs - 53) : ℚ)
        * (2 : ℚ) ^ (Double.bits m.natAbs - 53) - (m.natAbs : ℚ)| * 2
        ≤ (2 : ℚ) ^ (Double.bits m.natAbs - 53) := by
      have : |(Double.nearest m.natAbs (Double.bits m.natAbs - 53) : ℚ)
          * (2 : ℚ) ^ (Double.bits m.natAbs - 53) - (m.natAbs : ℚ)|
          ≤ (2 : ℚ) ^ (Double.bits m.natAbs - 53) / 2 :=
        abs_le.mpr ⟨by linarith, by linarith⟩
      linarith
    have hpow : (2 : ℚ) ^ (e + ((Double.bits m.natAbs - 53 : Nat) : Int))
        = (2 : ℚ) ^ (Double.bits m.natAbs - 53) * (2 : ℚ) ^ e := by
      rw [zpow_add₀ h2, zpow_natCast]
      ring
    have hsnat : m.sign.natAbs = 1 := by
      rcases hs with h | h <;> rw [h] <;> rfl
    by_cases hc : Double.nearest m.natAbs (Double.bits m.natAbs - 53) = 2 ^ 53
    · have hd : Double.round m e
          = ⟨m.sign * 2 ^ 52, e + ((Double.bits m.natAbs - 53 : Nat) : Int) + 1⟩ := by
        unfold Double.round
        simp only [hm, if_false, hn, hc, if_true]
      have hv : (Double.round m e).toRat
          = (m.sign : ℚ) * (Double.nearest m.natAbs (Double.bits m.natAbs - 53) : ℚ)
            * (2 : ℚ) ^ (e + ((Double.bits m.natAbs - 53 : Nat) : Int)) := by
        rw [hd, hc]
        simp only [Double.toRat]
        push_cast
        rw [zpow_add₀ h2, zpow_one]
        ring
      have hlt : (2 : ℚ) ^ (e + ((Double.bits m.natAbs - 53 : Nat) : Int))
          < (2 : ℚ) ^ (Double.round m e).e := by
        rw [hd]
        show (2 : ℚ) ^ (e + ((Double.bits m.natAbs - 53 : Nat) : Int))
          < (2 : ℚ) ^ (e + ((Double.bits m.natAbs - 53 : Nat) : Int) + 1)
        rw [zpow_add₀ h2 _ 1, zpow_one]
        have := zpow_pos (by norm_num : (0 : ℚ) < 2) (e + ((Double.bits m.natAbs - 53 : Nat) : Int))
        linarith
      have hle : 2 * |(Double.round m e).toRat - (m : ℚ) * (2 : ℚ) ^ e|
          ≤ (2 : ℚ) ^ (e + ((Double.bits m.natAbs - 53 : Nat) : Int)) := by
        rw [hv, herr, hpow]
        exact mul_le_mul_of_nonneg_right hhalf hepos.le
      refine ⟨?_, ?_, by linarith, fun ht => by linarith⟩
      · rw [hd]
        show 2 ^ 52 ≤ (m.sign * 2 ^ 52).natAbs
        rw [Int.natAbs_mul, hsnat]
        norm_num
      · rw [hd]
        show (m.sign * 2 ^ 52).natAbs < 2 ^ 53
        rw [Int.natAbs_mul, hsnat]
        norm_num
    · have hd : Double.round m e
          = ⟨m.sign * Double.nearest m.natAbs (Double.bits m.natAbs - 53),
              e + ((Double.bits m.natAbs - 53 : Nat) : Int)⟩ := by
        unfold Double.round
        simp only [hm, if_false, hn, hc]
      have hv : (Double.round m e).toRat
          = (m.sign : ℚ) * (Double.nearest m.natAbs (Double.bits m.natAbs - 53) : ℚ)
            * (2 : ℚ) ^ (e + ((Double.bits m.natAbs - 53 : Nat) : Int)) := by
        rw [hd]
        simp only [Double.toRat]
        push_cast
        ring
      have hnat : (Double.round m e).m.natAbs
          = Double.nearest m.natAbs (Double.bits m.natAbs - 53) := by
        rw [hd]
        show (m.sign * (Double.nearest m.natAbs (Double.bits m.natAbs - 53) : Int)).natAbs = _
        rw [Int.natAbs_mul, hsnat, Int.natAbs_ofNat, one_mul]
      have hde : (Double.round m e).e = e + ((Double.bits m.natAbs - 53 : Nat) : Int) := by
        rw [hd]
      refine ⟨?_, ?_, ?_, ?_⟩
      · rw [hnat]; omega
      · rw [hnat]; omega
      · rw [hv, herr, hde, hpow]
        exact mul_le_mul_of_nonneg_right hhalf hepos.le
      · intro ht
        rw [hv, herr, hde, hpow] at ht
        have ht' : |(Double.nearest m.natAbs (Double.bits m.natAbs - 53) : ℚ)
            * (2 : ℚ) ^ (Double.bits m.natAbs - 53) - (m.natAbs : ℚ)| * 2
            = (2 : ℚ) ^ (Double.bits m.natAbs - 53) := mul_right_cancel₀ hepos.ne' ht
        have hpar : Double.nearest m.natAbs (Double.bits m.natAbs - 53) % 2 = 0 := by
          apply n5
          rcases abs_cases ((Double.nearest m.natAbs (Double.bits m.natAbs - 53) : ℚ)
            * (2 : ℚ) ^ (Double.bits m.natAbs - 53) - (m.natAbs : ℚ)) with ⟨hab, -⟩ | ⟨hab, -⟩
          · left
            rw [hab] at ht'
            have : (2 : ℚ) * ((Double.nearest m.natAbs (Double.bits m.natAbs - 53) : ℚ)
                * (2 : ℚ) ^ (Double.bits m.natAbs - 53))
                = 2 * (m.natAbs : ℚ) + (2 : ℚ) ^ (Double.bits m.natAbs - 53) := by linarith
            exact_mod_cast this
          · right
            rw [hab] at ht'
            have : (2 : ℚ) * (m.natAbs : ℚ)
                = 2 * ((Double.nearest m.natAbs (Double.bits m.natAbs - 53) : ℚ)
                  * (2 : ℚ) ^ (Double.bits m.natAbs - 53))
                  + (2 : ℚ) ^ (Double.bits m.natAbs - 53) := by linarith
            exact_mod_cast this
        rw [hd]
        show (m.sign * (Double.nearest m.natAbs (Double.bits m.natAbs - 53) : Int)) % 2 = 0
        have hdvd : (2 : Int) ∣ (Double.nearest m.natAbs (Double.bits m.natAbs - 53) : Int) := by
          exact_mod_cast Nat.dvd_of_mod_eq_zero hpar
        exact Int.emod_eq_zero_of_dvd (Dvd.dvd.mul_left hdvd _)

theorem Double.toRat_neg (a : Double) : (-a).toRat = -a.toRat := by
  show (Double.neg a).toRat = -a.toRat
  simp [Double.neg, Double.toRat]

theorem Double.zpow_toNat (x y : Int) (h : y ≤ x) :
    (2 : ℚ) ^ (x - y).toNat * (2 : ℚ) ^ y = (2 : ℚ) ^ x := by
  rw [← zpow_natCast, Int.toNat_of_nonneg (by omega), ← zpow_add₀ (by norm_num : (2 : ℚ) ≠ 0)]
  congr 1
  omega

/-- The number that `add` rounds is the exact sum. -/
theorem Double.add_exact (a b : Double) :
    ((a.m * 2 ^ (a.e - min a.e b.e).toNat + b.m * 2 ^ (b.e - min a.e b.e).toNat : Int) : ℚ)
        * (2 : ℚ) ^ (min a.e b.e)
      = a.toRat + b.toRat := by
  push_cast
  rw [add_mul, mul_assoc, mul_assoc, Double.zpow_toNat a.e _ (min_le_left _ _),
    Double.zpow_toNat b.e _ (min_le_right _ _)]
  rfl

/-- The number that `mul` rounds is the exact product. -/
theorem Double.mul_exact (a b : Double) :
    ((a.m * b.m : Int) : ℚ) * (2 : ℚ) ^ (a.e + b.e) = a.toRat * b.toRat := by
  push_cast
  rw [zpow_add₀ (by norm_num : (2 : ℚ) ≠ 0)]
  simp only [Double.toRat]
  ring

/-- Addition, subtraction and multiplication of doubles are correctly
rounded: a result other than 0 has a mantissa of 53 bits and differs from the
exact result by at most half a unit of its last place. -/
theorem Double.add_sub_mul_spec (a b : Double) :
    (a.toRat + b.toRat ≠ 0 →
      2 ^ 52 ≤ (a + b).m.natAbs ∧ (a + b).m.natAbs < 2 ^ 53 ∧
      2 * |(a + b).toRat - (a.toRat + b.toRat)| ≤ (2 : ℚ) ^ (a + b).e) ∧
    (a.toRat - b.toRat ≠ 0 →
      2 ^ 52 ≤ (a - b).m.natAbs ∧ (a - b).m.natAbs < 2 ^ 53 ∧
      2 * |(a - b).toRat - (a.toRat - b.toRat)| ≤ (2 : ℚ) ^ (a - b).e) ∧
    (a.toRat * b.toRat ≠ 0 →
      2 ^ 52 ≤ (a * b).m.natAbs ∧ (a * b).m.natAbs < 2 ^ 53 ∧
      2 * |(a * b).toRat - a.toRat * b.toRat| ≤ (2 : ℚ) ^ (a * b).e) := by
  have hadd : ∀ a b : Double, a.toRat + b.toRat ≠ 0 →
      2 ^ 52 ≤ (a + b).m.natAbs ∧ (a + b).m.natAbs < 2 ^ 53 ∧
      2 * |(a + b).toRat - (a.toRat + b.toRat)| ≤ (2 : ℚ) ^ (a + b).e := by
    intro a b h
    have hx := Double.add_exact a b
    have hm : a.m * 2 ^ (a.e - min a.e b.e).toNat + b.m * 2 ^ (b.e - min a.e b.e).toNat ≠ 0 := by
      intro h0
      rw [h0] at hx
      apply h
      rw [← hx]
      simp
    obtain ⟨h1, h2, h3, -⟩ := Double.round_spec _ (min a.e b.e) hm
    rw [hx] at h3
    exact ⟨h1, h2, h3⟩
  refine ⟨hadd a b, ?_, ?_⟩
  · intro h
    have hs : a.toRat + (-b).toRat ≠ 0 := by
      rw [Double.toRat_neg, ← sub_eq_add_neg]
      exact h
    have hsub : a - b = a + -b := rfl
    have := hadd a (-b) hs
    rw [Double.toRat_neg, ← sub_eq_add_neg, ← hsub] at this
    exact this
  · intro h
    have hx := Double.mul_exact a b
    have hm : a.m * b.m ≠ 0 := by
      intro h0
      rw [h0] at hx
      apply h
      rw [← hx]
      simp
    obtain ⟨h1, h2, h3, -⟩ := Double.round_spec _ (a.e + b.e) hm
    rw [hx] at h3
    exact ⟨h1, h2, h3⟩

set_option maxRecDepth 100000 in
/-- Values of the model that are known from IEEE 754 arithmetic: the literal
`0.1` is `0x1.999999999999ap-4`, `0.1 + 0.2` is the double after `0.3`,
`1 / 3` is `0x1.5555555555555p-2`, and the square root of 2 is
`0x1.6a09e667f3bcdp+0`. -/
theorem Double.known_values :
    (0.1 : Double) = { m := 0x1999999999999a, e := -56 } ∧
    (0.1 : Double) + 0.2 = { m := 0x13333333333334, e := -54 } ∧
    (0.3 : Double) = { m := 0x13333333333333, e := -54 } ∧
    (1 : Double) / 3 = { m := 0x15555555555555, e := -54 } ∧
    Double.sqrt 2 = { m := 0x16a09e667f3bcd, e := -52 } := by
  decide

/-- Rounding a mantissa of more than 53 bits, compared with any number `y`
that the nearest integer of the shifted mantissa is within one half of: the
result has a mantissa of 53 bits and is within half a unit of its last place
of `sign * y * 2 ^ e`. -/
theorem Double.round_near (m e : Int) (hm : m ≠ 0) (hn : ¬ Double.bits m.natAbs ≤ 53) (y : ℚ)
    (hy : |(Double.nearest m.natAbs (Double.bits m.natAbs - 53) : ℚ)
        * (2 : ℚ) ^ (Double.bits m.natAbs - 53) - y| * 2
      ≤ (2 : ℚ) ^ (Double.bits m.natAbs - 53)) :
    2 ^ 52 ≤ (Double.round m e).m.natAbs ∧ (Double.round m e).m.natAbs < 2 ^ 53 ∧
    2 * |(Double.round m e).toRat - (m.sign : ℚ) * y * (2 : ℚ) ^ e|
      ≤ (2 : ℚ) ^ (Double.round m e).e := by
  have ha : 0 < m.natAbs := Int.natAbs_pos.mpr hm
  obtain ⟨hlo, hhi⟩ := Double.bits_spec m.natAbs ha
  obtain ⟨hs, -⟩ := Double.sign_cases m hm
  have h2 : (2 : ℚ) ≠ 0 := by norm_num
  have hsh : 0 < Double.bits m.natAbs - 53 := by omega
  obtain ⟨-, -, n3, n4, -⟩ := Double.nearest_spec m.natAbs (Double.bits m.natAbs - 53) hsh
  have e52 : 2 ^ (Double.bits m.natAbs - 1) = 2 ^ 52 * 2 ^ (Double.bits m.natAbs - 53) := by
    rw [← pow_add]
    congr 1
    omega
  have e53 : 2 ^ Double.bits m.natAbs = 2 ^ 53 * 2 ^ (Double.bits m.natAbs - 53) := by
    rw [← pow_add]
    congr 1
    omega
  have q1 : 2 ^ 52 ≤ m.natAbs / 2 ^ (Double.bits m.natAbs - 53) := by
    rw [Nat.le_div_iff_mul_le (Nat.two_pow_pos _), ← e52]
    exact hlo
  have q2 : m.natAbs / 2 ^ (Double.bits m.natAbs - 53) < 2 ^ 53 := by
    rw [Nat.div_lt_iff_lt_mul (Nat.two_pow_pos _), ← e53]
    exact hhi
  have hepos : (0 : ℚ) < (2 : ℚ) ^ e := zpow_pos (by norm_num) _
  have habs : ∀ x : ℚ, |(m.sign : ℚ) * x| = |x| := by
    intro x
    rcases hs with h | h <;> simp [h]
  have herr : 2 * |((m.sign : ℚ) * (Double.nearest m.natAbs (Double.bits m.natAbs - 53) : ℚ)
      * (2 : ℚ) ^ (e + ((Double.bits m.natAbs - 53 : Nat) : Int))
        - (m.sign : ℚ) * y * (2 : ℚ) ^ e)|
      = |(Double.nearest m.natAbs (Double.bits m.natAbs - 53) : ℚ)
        * (2 : ℚ) ^ (Double.bits m.natAbs - 53) - y| * 2 * (2 : ℚ) ^ e := by
    have hval : (m.sign : ℚ) * (Double.nearest m.natAbs (Double.bits m.natAbs - 53) : ℚ)
        * (2 : ℚ) ^ (e + ((Double.bits m.natAbs - 53 : Nat) : Int))
          - (m.sign : ℚ) * y * (2 : ℚ) ^ e
        = (m.sign : ℚ) * (((Double.nearest m.natAbs (Double.bits m.natAbs - 53) : ℚ)
          * (2 : ℚ) ^ (Double.bits m.natAbs - 53) - y) * (2 : ℚ) ^ e) := by
      rw [zpow_add₀ h2, zpow_natCast]
      ring
    rw [hval, habs, abs_mul, abs_of_pos hepos]
    ring
  have hpow : (2 : ℚ) ^ (e + ((Double.bits m.natAbs - 53 : Nat) : Int))
      = (2 : ℚ) ^ (Double.bits m.natAbs - 53) * (2 : ℚ) ^ e := by
    rw [zpow_add₀ h2, zpow_natCast]
    ring
  have hsnat : m.sign.natAbs = 1 := by
    rcases hs with h | h <;> rw [h] <;> rfl
  by_cases hc : Double.nearest m.natAbs (Double.bits m.natAbs - 53) = 2 ^ 53
  · have hd : Double.round m e
        = ⟨m.sign * 2 ^ 52, e + ((Double.bits m.natAbs - 53 : Nat) : Int) + 1⟩ := by
      unfold Double.round
      simp only [hm, if_false, hn, hc, if_true]
    have hv : (Double.round m e).toRat
        = (m.sign : ℚ) * (Double.nearest m.natAbs (Double.bits m.natAbs - 53) : ℚ)
          * (2 : ℚ) ^ (e + ((Double.bits m.natAbs - 53 : Nat) : Int)) := by
      rw [hd, hc]
      simp only [Double.toRat]
      push_cast
      rw [zpow_add₀ h2, zpow_one]
      ring
    have hlt : (2 : ℚ) ^ (e + ((Double.bits m.natAbs - 53 : Nat) : Int))
        < (2 : ℚ) ^ (Double.round m e).e := by
      rw [hd]
      show (2 : ℚ) ^ (e + ((Double.bits m.natAbs - 53 : Nat) : Int))
        < (2 : ℚ) ^ (e + ((Double.bits m.natAbs - 53 : Nat) : Int) + 1)
      rw [zpow_add₀ h2 _ 1, zpow_one]
      have := zpow_pos (by norm_num : (0 : ℚ) < 2) (e + ((Double.bits m.natAbs - 53 : Nat) : Int))
      linarith
    have hle : 2 * |(Double.round m e).toRat - (m.sign : ℚ) * y * (2 : ℚ) ^ e|
        ≤ (2 : ℚ) ^ (e + ((Double.bits m.natAbs - 53 : Nat) : Int)) := by
      rw [hv, herr, hpow]
      exact mul_le_mul_of_nonneg_right hy hepos.le
    refine ⟨?_, ?_, by linarith⟩
    · rw [hd]
      show 2 ^ 52 ≤ (m.sign * 2 ^ 52).natAbs
      rw [Int.natAbs_mul, hsnat]
      norm_num
    · rw [hd]
      show (m.sign * 2 ^ 52).natAbs < 2 ^ 53
      rw [Int.natAbs_mul, hsnat]
      norm_num
  · have hd : Double.round m e
        = ⟨m.sign * Double.nearest m.natAbs (Double.bits m.natAbs - 53),
            e + ((Double.bits m.natAbs - 53 : Nat) : Int)⟩ := by
      unfold Double.round
      simp only [hm, if_false, hn, hc]
    have hv : (Double.round m e).toRat
        = (m.sign : ℚ) * (Double.nearest m.natAbs (Double.bits m.natAbs - 53) : ℚ)
          * (2 : ℚ) ^ (e + ((Double.bits m.natAbs - 53 : Nat) : Int)) := by
      rw [hd]
      simp only [Double.toRat]
      push_cast
      ring
    have hnat : (Double.round m e).m.natAbs
        = Double.nearest m.natAbs (Double.bits m.natAbs - 53) := by
      rw [hd]
      show (m.sign * (Double.nearest m.natAbs (Double.bits m.natAbs - 53) : Int)).natAbs = _
      rw [Int.natAbs_mul, hsnat, Int.natAbs_ofNat, one_mul]
    have hde : (Double.round m e).e = e + ((Double.bits m.natAbs - 53 : Nat) : Int) := by
      rw [hd]
    refine ⟨?_, ?_, ?_⟩
    · rw [hnat]; omega
    · rw [hnat]; omega
    · rw [hv, herr, hde, hpow]
      exact mul_le_mul_of_nonneg_right hy hepos.le

/-- The nearest integer of a shifted mantissa `s = 2 * Q + sticky`, where `Q`
is the integer part of `x` and `sticky` is 1 exactly when `x` has a fractional
part, is within one half of the shifted `2 * x`: the last bit stands for the
bits that were not computed. -/
theorem Double.nearest_sticky (Q st sh : Nat) (x : ℚ) (hsh : 2 ≤ sh)
    (hst : st = 0 ∨ st = 1) (hx : x < (Q : ℚ) + 1)
    (h0 : st = 0 → x = (Q : ℚ)) (h1 : st = 1 → (Q : ℚ) < x) :
    |(Double.nearest (2 * Q + st) sh : ℚ) * (2 : ℚ) ^ sh - 2 * x| * 2 ≤ (2 : ℚ) ^ sh := by
  obtain ⟨n1, n2, -, -, -⟩ := Double.nearest_spec (2 * Q + st) sh (by omega)
  have hP : 2 ^ sh = 4 * 2 ^ (sh - 2) := by
    conv_lhs => rw [show sh = (sh - 2) + 2 by omega]
    rw [pow_add]
    ring
  have hmul : Double.nearest (2 * Q + st) sh * 2 ^ sh
      = 4 * (Double.nearest (2 * Q + st) sh * 2 ^ (sh - 2)) := by
    rw [hP]
    ring
  have hw : 0 < 2 ^ (sh - 2) := Nat.two_pow_pos _
  have c1 : (2 : ℚ) * ((Double.nearest (2 * Q + st) sh : ℚ) * (2 : ℚ) ^ sh)
      ≤ 2 * (2 * (Q : ℚ) + (st : ℚ)) + (2 : ℚ) ^ sh := by exact_mod_cast n1
  have c2 : (2 : ℚ) * (2 * (Q : ℚ) + (st : ℚ))
      ≤ 2 * ((Double.nearest (2 * Q + st) sh : ℚ) * (2 : ℚ) ^ sh) + (2 : ℚ) ^ sh := by
    exact_mod_cast n2
  rcases hst with hst | hst
  · have hxq := h0 hst
    subst hst
    rw [hxq]
    have : |(Double.nearest (2 * Q + 0) sh : ℚ) * (2 : ℚ) ^ sh - 2 * (Q : ℚ)|
        ≤ (2 : ℚ) ^ sh / 2 := by
      push_cast at c1 c2
      exact abs_le.mpr ⟨by linarith, by linarith⟩
    linarith
  · have hxq := h1 hst
    subst hst
    -- the mantissa is odd, so it is not half way between two results
    have m1 : 2 * (Double.nearest (2 * Q + 1) sh * 2 ^ sh) + 2 ≤ 2 * (2 * Q + 1) + 2 ^ sh := by
      rw [hmul] at n1 ⊢
      omega
    have m2 : 2 * (2 * Q + 1) + 2 ≤ 2 * (Double.nearest (2 * Q + 1) sh * 2 ^ sh) + 2 ^ sh := by
      rw [hmul] at n2 ⊢
      omega
    have d1 : (2 : ℚ) * ((Double.nearest (2 * Q + 1) sh : ℚ) * (2 : ℚ) ^ sh) + 2
        ≤ 2 * (2 * (Q : ℚ) + 1) + (2 : ℚ) ^ sh := by exact_mod_cast m1
    have d2 : (2 : ℚ) * (2 * (Q : ℚ) + 1) + 2
        ≤ 2 * ((Double.nearest (2 * Q + 1) sh : ℚ) * (2 : ℚ) ^ sh) + (2 : ℚ) ^ sh := by
      exact_mod_cast m2
    have : |(Double.nearest (2 * Q + 1) sh : ℚ) * (2 : ℚ) ^ sh - 2 * x|
        ≤ (2 : ℚ) ^ sh / 2 :=
      abs_le.mpr ⟨by linarith, by linarith⟩
    linarith

/-- Division, and with it the conversion of a decimal literal, is correctly
rounded: for `p` and `q` other than 0 the result of `ratio` has a mantissa of 53
bits and differs from `p / q * 2 ^ e` by at most half a unit of its last
place. -/
theorem Double.ratio_spec (p q e : Int) (hp : p ≠ 0) (hq : q ≠ 0) :
    2 ^ 52 ≤ (Double.ratio p q e).m.natAbs ∧ (Double.ratio p q e).m.natAbs < 2 ^ 53 ∧
    2 * |(Double.ratio p q e).toRat - (p : ℚ) / (q : ℚ) * (2 : ℚ) ^ e|
      ≤ (2 : ℚ) ^ (Double.ratio p q e).e := by
  have hpa : 0 < p.natAbs := Int.natAbs_pos.mpr hp
  have hqa : 0 < q.natAbs := Int.natAbs_pos.mpr hq
  obtain ⟨hsp, hpv⟩ := Double.sign_cases p hp
  obtain ⟨hsq, hqv⟩ := Double.sign_cases q hq
  obtain ⟨-, hqhi⟩ := Double.bits_spec q.natAbs hqa
  have h2 : (2 : ℚ) ≠ 0 := by norm_num
  -- the quotient and its last bit
  obtain ⟨k, hk⟩ : ∃ k, k = 64 + Double.bits q.natAbs := ⟨_, rfl⟩
  obtain ⟨num, hnum⟩ : ∃ num, num = p.natAbs * 2 ^ k := ⟨_, rfl⟩
  obtain ⟨st, hstd⟩ : ∃ st : Nat, st = if num % q.natAbs = 0 then 0 else 1 := ⟨_, rfl⟩
  obtain ⟨σ, hσ⟩ : ∃ σ : Int, σ = p.sign * q.sign := ⟨_, rfl⟩
  have hdef : Double.ratio p q e
      = Double.round (σ * ((2 * (num / q.natAbs) + st : Nat) : Int)) (e - k - 1) := by
    unfold Double.ratio
    simp only [← hk, ← hnum, hstd, hσ]
  have hσ1 : σ = 1 ∨ σ = -1 := by
    rcases hsp with h | h <;> rcases hsq with h' | h' <;> simp [hσ, h, h']
  have hdm := Nat.div_add_mod num q.natAbs
  have hr := Nat.mod_lt num hqa
  have hnum_ge : 2 ^ 64 * q.natAbs ≤ num := by
    rw [hnum, hk, pow_add]
    calc 2 ^ 64 * q.natAbs ≤ 2 ^ 64 * 2 ^ Double.bits q.natAbs :=
          Nat.mul_le_mul_left _ hqhi.le
      _ ≤ p.natAbs * (2 ^ 64 * 2 ^ Double.bits q.natAbs) := Nat.le_mul_of_pos_left _ hpa
  have hQ : 2 ^ 64 ≤ num / q.natAbs := (Nat.le_div_iff_mul_le hqa).mpr hnum_ge
  have hst : st = 0 ∨ st = 1 := by
    rw [hstd]
    split_ifs
    · left; rfl
    · right; rfl
  have hs65 : 2 ^ 65 ≤ 2 * (num / q.natAbs) + st := by omega
  have hspos : 0 < 2 * (num / q.natAbs) + st := by omega
  obtain ⟨-, hshi⟩ := Double.bits_spec _ hspos
  have hbits : 66 ≤ Double.bits (2 * (num / q.natAbs) + st) := by
    by_contra hc
    have h65 : Double.bits (2 * (num / q.natAbs) + st) ≤ 65 := by omega
    have := Nat.pow_le_pow_right (by norm_num : 0 < 2) h65
    omega
  have hm : σ * ((2 * (num / q.natAbs) + st : Nat) : Int) ≠ 0 := by
    rcases hσ1 with h | h <;> rw [h] <;> omega
  have hnat : (σ * ((2 * (num / q.natAbs) + st : Nat) : Int)).natAbs
      = 2 * (num / q.natAbs) + st := by
    rw [Int.natAbs_mul, Int.natAbs_ofNat]
    rcases hσ1 with h | h <;> rw [h] <;> simp
  have hsign : (σ * ((2 * (num / q.natAbs) + st : Nat) : Int)).sign = σ := by
    have hpos : (0 : Int) < ((2 * (num / q.natAbs) + st : Nat) : Int) := by
      exact_mod_cast hspos
    rw [Int.sign_mul, Int.sign_eq_one_of_pos hpos, mul_one]
    rcases hσ1 with h | h <;> rw [h] <;> rfl
  -- the exact quotient lies between the computed quotient and its successor
  have hqpos : (0 : ℚ) < (q.natAbs : ℚ) := by exact_mod_cast hqa
  have hx : (num : ℚ) / (q.natAbs : ℚ)
      = (num / q.natAbs : Nat) + ((num % q.natAbs : Nat) : ℚ) / (q.natAbs : ℚ) := by
    have : (num : ℚ) = (q.natAbs : ℚ) * (num / q.natAbs : Nat) + ((num % q.natAbs : Nat) : ℚ) := by
      exact_mod_cast hdm.symm
    rw [this]
    field_simp
    ring
  have hfrac_lt : ((num % q.natAbs : Nat) : ℚ) / (q.natAbs : ℚ) < 1 := by
    rw [div_lt_one hqpos]
    exact_mod_cast hr
  have hy := Double.nearest_sticky (num / q.natAbs) st
    (Double.bits (2 * (num / q.natAbs) + st) - 53) ((num : ℚ) / (q.natAbs : ℚ)) (by omega) hst
    (by rw [hx]; linarith)
    (by
      intro h0
      have hz : num % q.natAbs = 0 := by
        by_contra hne
        rw [hstd, if_neg hne] at h0
        omega
      rw [hx, hz]
      simp)
    (by
      intro h1
      have hz : num % q.natAbs ≠ 0 := by
        intro hz
        rw [hstd, if_pos hz] at h1
        omega
      rw [hx]
      have : (0 : ℚ) < ((num % q.natAbs : Nat) : ℚ) / (q.natAbs : ℚ) :=
        div_pos (by exact_mod_cast Nat.pos_of_ne_zero hz) hqpos
      linarith)
  have hn : ¬ Double.bits (σ * ((2 * (num / q.natAbs) + st : Nat) : Int)).natAbs ≤ 53 := by
    rw [hnat]
    omega
  have key := Double.round_near (σ * ((2 * (num / q.natAbs) + st : Nat) : Int)) (e - k - 1) hm hn
    (2 * ((num : ℚ) / (q.natAbs : ℚ))) (by rw [hnat]; exact hy)
  rw [hsign] at key
  -- the number compared with is `p / q * 2 ^ e`
  have hval : (σ : ℚ) * (2 * ((num : ℚ) / (q.natAbs : ℚ))) * (2 : ℚ) ^ (e - k - 1)
      = (p : ℚ) / (q : ℚ) * (2 : ℚ) ^ e := by
    have hpow : (2 : ℚ) ^ (e - k - 1) = (2 : ℚ) ^ e / ((2 : ℚ) ^ k * 2) := by
      rw [zpow_sub₀ h2, zpow_sub₀ h2, zpow_natCast, zpow_one]
      field_simp
    have hσq : (σ : ℚ) = (p.sign : ℚ) * (q.sign : ℚ) := by
      rw [hσ]
      push_cast
      rfl
    have hk0 : (2 : ℚ) ^ k ≠ 0 := pow_ne_zero _ h2
    have hq0 : (q.natAbs : ℚ) ≠ 0 := hqpos.ne'
    rw [hpow, hσq, hnum, hpv, hqv]
    push_cast
    rcases hsq with h | h
    · rw [h]
      push_cast
      field_simp
      ring
    · rw [h]
      simp only [Int.cast_neg, Int.cast_one, neg_mul, one_mul, mul_neg, mul_one, div_neg,
        neg_div]
      field_simp
      ring
  rw [hval, ← hdef] at key
  exact key

/-- The quotient of doubles other than 0 is correctly rounded. -/
theorem Double.div_spec (a b : Double) (ha : a.m ≠ 0) (hb : b.m ≠ 0) :
    2 ^ 52 ≤ (a / b).m.natAbs ∧ (a / b).m.natAbs < 2 ^ 53 ∧
    2 * |(a / b).toRat - a.toRat / b.toRat| ≤ (2 : ℚ) ^ (a / b).e := by
  have h := Double.ratio_spec a.m b.m (a.e - b.e) ha hb
  have hv : (a.m : ℚ) / (b.m : ℚ) * (2 : ℚ) ^ (a.e - b.e) = a.toRat / b.toRat := by
    have hb' : (b.m : ℚ) ≠ 0 := by exact_mod_cast hb
    have hz : (2 : ℚ) ^ b.e ≠ 0 := zpow_ne_zero _ (by norm_num)
    rw [zpow_sub₀ (by norm_num : (2 : ℚ) ≠ 0)]
    simp only [Double.toRat]
    field_simp
  rw [hv] at h
  exact h

/-- A decimal literal `mantissa / 10 ^ k` other than 0 denotes the double
nearest to it. -/
theorem Double.literal_spec (mantissa k : Nat) (hm : mantissa ≠ 0) :
    2 ^ 52 ≤ (OfScientific.ofScientific mantissa true k : Double).m.natAbs ∧
    (OfScientific.ofScientific mantissa true k : Double).m.natAbs < 2 ^ 53 ∧
    2 * |(OfScientific.ofScientific mantissa true k : Double).toRat
        - (mantissa : ℚ) / (10 : ℚ) ^ k|
      ≤ (2 : ℚ) ^ (OfScientific.ofScientific mantissa true k : Double).e := by
  have hof : (OfScientific.ofScientific mantissa true k : Double)
      = Double.ratio (mantissa : Int) ((10 : Int) ^ k) 0 := rfl
  have h := Double.ratio_spec (mantissa : Int) ((10 : Int) ^ k) 0
    (by exact_mod_cast hm) (pow_ne_zero _ (by norm_num))
  have hv : (((mantissa : Int) : ℚ)) / ((((10 : Int) ^ k : Int)) : ℚ) * (2 : ℚ) ^ (0 : Int)
      = (mantissa : ℚ) / (10 : ℚ) ^ k := by
    push_cast
    simp
  rw [hv, ← hof] at h
  exact h

theorem Double.isqrtAux_spec (n b r : Nat) (h1 : r * r ≤ n) (h2 : n < (r + 2 ^ b) * (r + 2 ^ b)) :
    Double.isqrtAux n b r * Double.isqrtAux n b r ≤ n ∧
    n < (Double.isqrtAux n b r + 1) * (Double.isqrtAux n b r + 1) := by
  induction b generalizing r with
  | zero => exact ⟨h1, by simpa using h2⟩
  | succ b ih =>
    unfold Double.isqrtAux
    have hp : r + 2 ^ (b + 1) = r + 2 ^ b + 2 ^ b := by rw [pow_succ]; omega
    split_ifs with hc
    · exact ih _ hc (by rw [← hp]; exact h2)
    · exact ih _ h1 (by omega)

/-- The integer square root: `isqrt n` is the largest number whose square is
at most `n`. -/
theorem Double.isqrt_spec (n : Nat) :
    Double.isqrt n * Double.isqrt n ≤ n ∧ n < (Double.isqrt n + 1) * (Double.isqrt n + 1) := by
  apply Double.isqrtAux_spec
  · omega
  · rcases Nat.eq_zero_or_pos n with h0 | hpos
    · subst h0
      positivity
    · obtain ⟨-, hhi⟩ := Double.bits_spec n hpos
      have hle : 2 ^ Double.bits n ≤ 2 ^ (Double.bits n / 2 + 1) * 2 ^ (Double.bits n / 2 + 1) := by
        rw [← pow_add]
        exact Nat.pow_le_pow_right (by norm_num) (by omega)
      simp only [zero_add]
      omega

/-! ## Facts about the loops of PinMeanShape -/

theorem foldl_count_eq {α : Type} (p : α → Bool) (l : List α) (a : Nat) :
    l.foldl (fun n i => if p i then n + 1 else n) a = a + l.countP p := by
  induction l generalizing a with
  | nil => simp
  | cons i l ih =>
    rw [List.foldl_cons, ih, List.countP_cons]
    by_cases h : p i <;> simp [h]; omega

theorem shape_eq_map_range (shape : Shape K) :
    shape = (List.range shape.length).map (fun i => (shape.x i, shape.y i)) := by
  apply List.ext_getElem
  · simp
  · intro n h₁ h₂
    simp [Shape.x, Shape.y, List.getElem?_eq_getElem h₁]

theorem countP_range_eq (env : Env K) (pinned : Shape K) :
    (List.range pinned.length).countP (PointUsedAt env pinned)
      = pinned.countP (fun p => env.PointUsed p.1 p.2) := by
  conv_rhs => rw [shape_eq_map_range pinned]
  rw [List.countP_map]
  rfl

theorem countUsed_eq (env : Env K) (pinned : Shape K) :
    PinMeanShape.countUsed env pinned pinned.length
      = pinned.countP (fun p => env.PointUsed p.1 p.2) := by
  unfold PinMeanShape.countUsed
  rw [foldl_count_eq, countP_range_eq]
  simp

theorem copyUsed_index_aux (env : Env K) (pinned meanshape : Shape K) (l : List Nat)
    (init : Shape K × Shape K × Nat) :
    (l.foldl
      (fun (acc : Shape K × Shape K × Nat) ipoint =>
        if PointUsedAt env pinned ipoint then
          ((acc.1.setX acc.2.2 (pinned.x ipoint)).setY acc.2.2 (pinned.y ipoint),
            (acc.2.1.setX acc.2.2 (meanshape.x ipoint)).setY acc.2.2 (meanshape.y ipoint),
            acc.2.2 + 1)
        else acc)
      init).2.2 = init.2.2 + l.countP (PointUsedAt env pinned) := by
  induction l generalizing init with
  | nil => simp
  | cons i l ih =>
    rw [List.foldl_cons, ih, List.countP_cons]
    by_cases h : PointUsedAt env pinned i <;> simp [h]; omega

theorem copyUsed_index (env : Env K) (pinned meanshape : Shape K)
    (hrows : pinned.length = meanshape.length) (init : Shape K × Shape K × Nat) :
    (PinMeanShape.copyUsed env pinned meanshape init).2.2
      = init.2.2 + pinned.countP (fun p => env.PointUsed p.1 p.2) := by
  unfold PinMeanShape.copyUsed
  rw [copyUsed_index_aux, ← hrows, countP_range_eq]

theorem setX_setY_append (A R : Shape K) (r : K × K) (v w : K) :
    ((A ++ r :: R).setX A.length v).setY A.length w = A ++ (v, w) :: R := by
  simp [Shape.setX, Shape.setY, Shape.x, Shape.y, List.getElem_append_right]

theorem copyUsed_rows_aux (env : Env K) (pinned meanshape : Shape K) (l : List Nat) :
    ∀ (A B R R' : Shape K), A.length = B.length →
      l.countP (PointUsedAt env pinned) ≤ R.length →
      l.countP (PointUsedAt env pinned) ≤ R'.length →
      l.foldl
        (fun (acc : Shape K × Shape K × Nat) ipoint =>
          if PointUsedAt env pinned ipoint then
            ((acc.1.setX acc.2.2 (pinned.x ipoint)).setY acc.2.2 (pinned.y ipoint),
              (acc.2.1.setX acc.2.2 (meanshape.x ipoint)).setY acc.2.2 (meanshape.y ipoint),
              acc.2.2 + 1)
          else acc)
        (A ++ R, B ++ R', A.length)
      = (A ++ (l.filter (PointUsedAt env pinned)).map (fun i => (pinned.x i, pinned.y i))
            ++ R.drop (l.countP (PointUsedAt env pinned)),
          B ++ (l.filter (PointUsedAt env pinned)).map (fun i => (meanshape.x i, meanshape.y i))
            ++ R'.drop (l.countP (PointUsedAt env pinned)),
          A.length + l.countP (PointUsedAt env pinned)) := by
  induction l with
  | nil => intro A B R R' _ _ _; simp
  | cons i l ih =>
    intro A B R R' hAB hR hR'
    rw [List.foldl_cons]
    by_cases h : PointUsedAt env pinned i
    · simp only [h, if_true, List.countP_cons_of_pos, List.filter_cons_of_pos] at hR hR' ⊢
      obtain ⟨r, R₀, rfl⟩ : ∃ r R₀, R = r :: R₀ := by
        cases R with
        | nil => simp at hR
        | cons r R₀ => exact ⟨r, R₀, rfl⟩
      obtain ⟨r', R₀', rfl⟩ : ∃ r R₀, R' = r :: R₀ := by
        cases R' with
        | nil => simp at hR'
        | cons r R₀ => exact ⟨r, R₀, rfl⟩
      rw [setX_setY_append]
      conv_lhs => rw [hAB, setX_setY_append, ← hAB]
      have e1 : A ++ (pinned.x i, pinned.y i) :: R₀ = (A ++ [(pinned.x i, pinned.y i)]) ++ R₀ := by
        simp
      have e2 : B ++ (meanshape.x i, meanshape.y i) :: R₀'
          = (B ++ [(meanshape.x i, meanshape.y i)]) ++ R₀' := by simp
      have e3 : A.length + 1 = (A ++ [(pinned.x i, pinned.y i)]).length := by simp
      rw [e1, e2, e3, ih _ _ _ _ (by simp [hAB]) (by simpa using hR) (by simpa using hR')]
      simp [Nat.add_assoc, Nat.add_comm 1]
    · simp only [h, Bool.false_eq_true, if_false, not_false_eq_true, List.countP_cons_of_neg,
        List.filter_cons_of_neg] at hR hR' ⊢
      exact ih A B R R' hAB hR hR'

theorem filter_range_map (env : Env K) (pinned : Shape K) :
    ((List.range pinned.length).filter (PointUsedAt env pinned)).map
        (fun i => (pinned.x i, pinned.y i))
      = pinned.filter (fun p => env.PointUsed p.1 p.2) := by
  conv_rhs => rw [shape_eq_map_range pinned]
  rw [List.filter_map]
  rfl

/-- The rows that the second loop of `PinMeanShape` leaves in `pinned_used`
and `mean_used`, and the final value of `i`. -/
theorem copyUsed_eq (env : Env K) (pinned meanshape : Shape K)
    (hrows : pinned.length = meanshape.length) :
    PinMeanShape.copyUsed env pinned meanshape
        (Shape.create (pinned.countP (fun p => env.PointUsed p.1 p.2)),
          Shape.create (pinned.countP (fun p => env.PointUsed p.1 p.2)), 0)
      = (pinned.filter (fun p => env.PointUsed p.1 p.2),
          ((List.range pinned.length).filter (PointUsedAt env pinned)).map
            (fun i => (meanshape.x i, meanshape.y i)),
          pinned.countP (fun p => env.PointUsed p.1 p.2)) := by
  have h := copyUsed_rows_aux env pinned meanshape (List.range meanshape.length) [] []
    (Shape.create (pinned.countP (fun p => env.PointUsed p.1 p.2)))
    (Shape.create (pinned.countP (fun p => env.PointUsed p.1 p.2))) rfl
    (by rw [← hrows, countP_range_eq]; simp [Shape.create])
    (by rw [← hrows, countP_range_eq]; simp [Shape.create])
  unfold PinMeanShape.copyUsed
  simp only [List.nil_append, List.length_nil, Nat.zero_add] at h
  rw [h, ← hrows, countP_range_eq, filter_range_map]
  simp [Shape.create]

/-- The rows of `meanshape` at the indices of the used rows of `pinned`, in
increasing index order: the final value of `mean_used`. -/
theorem mean_used_eq (env : Env K) (pinned meanshape : Shape K)
    (hrows : pinned.length = meanshape.length) :
    ((List.range pinned.length).filter (PointUsedAt env pinned)).map
        (fun i => (meanshape.x i, meanshape.y i))
      = ((pinned.zip meanshape).filter (fun r => env.PointUsed r.1.1 r.1.2)).map Prod.snd := by
  have hz : pinned.zip meanshape
      = (List.range pinned.length).map
          (fun i => ((pinned.x i, pinned.y i), (meanshape.x i, meanshape.y i))) := by
    apply List.ext_getElem
    · simp [hrows]
    · intro n h₁ h₂
      have hp : n < pinned.length := by simpa [hrows] using h₁
      have hm : n < meanshape.length := by simpa [hrows] using h₁
      simp [Shape.x, Shape.y, List.getElem?_eq_getElem hp, List.getElem?_eq_getElem hm]
  rw [hz, List.filter_map, List.map_map]
  rfl

/-- What `PinMeanShape` returns when the shapes have the same number of rows
and at least two points are pinned: the mean shape transformed by the
alignment of its rows at the pinned indices to the pinned rows, jittered. -/
theorem PinMeanShape_eq (env : Env K) (pinned meanshape : Shape K)
    (hrows : pinned.length = meanshape.length)
    (hused : 2 ≤ pinned.countP (fun p => env.PointUsed p.1 p.2)) :
    PinMeanShape env pinned meanshape
      = .ok (env.JitterPointsAt00 (TransformShape meanshape
          (env.AlignmentMat
            (((pinned.zip meanshape).filter (fun r => env.PointUsed r.1.1 r.1.2)).map Prod.snd)
            (pinned.filter (fun p => env.PointUsed p.1 p.2))))) := by
  have hcount := countUsed_eq env pinned
  rw [hrows] at hcount
  have hlt : ¬ pinned.countP (fun p => env.PointUsed p.1 p.2) < 2 := by omega
  unfold PinMeanShape
  simp only [hrows, ne_eq, not_true_eq_false, if_false, hcount, hlt,
    copyUsed_eq env pinned meanshape hrows, if_true]
  rw [← hrows, mean_used_eq env pinned meanshape hrows]

theorem PinMeanShape_err_of_few (env : Env K) (pinned meanshape : Shape K)
    (hrows : pinned.length = meanshape.length)
    (hfew : pinned.countP (fun p => env.PointUsed p.1 p.2) < 2) :
    PinMeanShape env pinned meanshape = .error (.err "Need at least two pinned landmarks") := by
  have hcount := countUsed_eq env pinned
  rw [hrows] at hcount
  unfold PinMeanShape
  simp only [hrows, ne_eq, not_true_eq_false, if_false, hcount, hfew, if_true]

/-! ## C1 -/

/-- C1: for a pinned shape and a mean shape with the same number of rows,
`PinMeanShape` raises "Need at least two pinned landmarks" exactly when fewer
than 2 points of the pinned shape are used, and returns a shape when 2 or more
are used. -/
theorem PinMeanShape_error_iff (env : Env K) (pinned meanshape : Shape K)
    (hrows : pinned.length = meanshape.length) :
    (PinMeanShape env pinned meanshape = .error (.err "Need at least two pinned landmarks")
        ↔ pinned.countP (fun p => env.PointUsed p.1 p.2) < 2) ∧
    (2 ≤ pinned.countP (fun p => env.PointUsed p.1 p.2) →
        ∃ shape, PinMeanShape env pinned meanshape = .ok shape) := by
  have hcount := countUsed_eq env pinned
  have hidx := copyUsed_index env pinned meanshape hrows
    (Shape.create (PinMeanShape.countUsed env pinned meanshape.length),
      Shape.create (PinMeanShape.countUsed env pinned meanshape.length), 0)
  rw [hrows] at hcount
  rw [hcount] at hidx
  simp only [Nat.zero_add] at hidx
  unfold PinMeanShape
  simp only [hrows, ne_eq, not_true_eq_false, if_false, hcount, hidx]
  constructor
  · by_cases h : pinned.countP (fun p => env.PointUsed p.1 p.2) < 2 <;> simp [h]
  · intro h
    have h' : ¬ pinned.countP (fun p => env.PointUsed p.1 p.2) < 2 := by omega
    simp [h']

/-- Witness for `PinMeanShape_error_iff`: two of the three points are pinned
and a shape is returned. -/
theorem PinMeanShape_error_iff_witness :
    ([(1, 1), (0, 0), (3, 1)] : Shape ℚ).length = ([(0, 0), (1, 0), (2, 0)] : Shape ℚ).length ∧
    ∃ shape, PinMeanShape (refEnv evalCalibration) [(1, 1), (0, 0), (3, 1)]
      [(0, 0), (1, 0), (2, 0)] = .ok shape :=
  ⟨rfl, (PinMeanShape_error_iff (refEnv evalCalibration) [(1, 1), (0, 0), (3, 1)]
    [(0, 0), (1, 0), (2, 0)] rfl).2 (by simp [refEnv, PointUsed, List.countP_cons])⟩

/-! ## Facts about the least-squares similarity fit -/

theorem sums_foldl (f : K × K → K × K) (l : Shape K) (s : AlignmentMat.Sums K) :
    (List.zip l (l.map f)).foldl
      (fun (s : AlignmentMat.Sums K) (r : (K × K) × (K × K)) =>
        ({ W := s.W + 1,
           X1 := s.X1 + r.1.1,
           Y1 := s.Y1 + r.1.2,
           X2 := s.X2 + r.2.1,
           Y2 := s.Y2 + r.2.2,
           Z := s.Z + (r.1.1 * r.1.1 + r.1.2 * r.1.2),
           C1 := s.C1 + (r.2.1 * r.1.1 + r.2.2 * r.1.2),
           C2 := s.C2 + (r.2.2 * r.1.1 - r.2.1 * r.1.2) } : AlignmentMat.Sums K))
      s
    = { W := s.W + l.length,
        X1 := s.X1 + (l.map fun p => p.1).sum,
        Y1 := s.Y1 + (l.map fun p => p.2).sum,
        X2 := s.X2 + (l.map fun p => (f p).1).sum,
        Y2 := s.Y2 + (l.map fun p => (f p).2).sum,
        Z := s.Z + (l.map fun p => p.1 * p.1 + p.2 * p.2).sum,
        C1 := s.C1 + (l.map fun p => (f p).1 * p.1 + (f p).2 * p.2).sum,
        C2 := s.C2 + (l.map fun p => (f p).2 * p.1 - (f p).1 * p.2).sum } := by
  induction l generalizing s with
  | nil => simp
  | cons p l ih =>
    simp only [List.map_cons, List.zip_cons_cons, List.foldl_cons, ih, List.sum_cons,
      List.length_cons, Nat.cast_add, Nat.cast_one]
    congr 1 <;> ring

theorem sum_similarity_fst (a b tx ty : K) (l : Shape K) :
    (l.map fun p => (similarity a b tx ty p).1).sum
      = a * (l.map fun p => p.1).sum - b * (l.map fun p => p.2).sum + l.length * tx := by
  induction l with
  | nil => simp
  | cons p l ih =>
    rw [List.map_cons, List.sum_cons, ih]
    simp only [List.map_cons, List.sum_cons, List.length_cons, Nat.cast_add, Nat.cast_one,
      similarity]
    ring

theorem sum_similarity_snd (a b tx ty : K) (l : Shape K) :
    (l.map fun p => (similarity a b tx ty p).2).sum
      = b * (l.map fun p => p.1).sum + a * (l.map fun p => p.2).sum + l.length * ty := by
  induction l with
  | nil => simp
  | cons p l ih =>
    rw [List.map_cons, List.sum_cons, ih]
    simp only [List.map_cons, List.sum_cons, List.length_cons, Nat.cast_add, Nat.cast_one,
      similarity]
    ring

theorem sum_similarity_C1 (a b tx ty : K) (l : Shape K) :
    (l.map fun p => (similarity a b tx ty p).1 * p.1 + (similarity a b tx ty p).2 * p.2).sum
      = a * (l.map fun p => p.1 * p.1 + p.2 * p.2).sum + tx * (l.map fun p => p.1).sum
        + ty * (l.map fun p => p.2).sum := by
  induction l with
  | nil => simp
  | cons p l ih =>
    rw [List.map_cons, List.sum_cons, ih]
    simp only [List.map_cons, List.sum_cons, similarity]
    ring

theorem sum_similarity_C2 (a b tx ty : K) (l : Shape K) :
    (l.map fun p => (similarity a b tx ty p).2 * p.1 - (similarity a b tx ty p).1 * p.2).sum
      = b * (l.map fun p => p.1 * p.1 + p.2 * p.2).sum + ty * (l.map fun p => p.1).sum
        - tx * (l.map fun p => p.2).sum := by
  induction l with
  | nil => simp
  | cons p l ih =>
    rw [List.map_cons, List.sum_cons, ih]
    simp only [List.map_cons, List.sum_cons, similarity]
    ring

/-- The fit of a point list onto its image under a similarity is that
similarity, when the points are spread out. -/
theorem AlignmentMat_similarity (a b tx ty : K) (l : Shape K) (hd : spread l ≠ 0)
    (hl : l ≠ []) :
    AlignmentMat l (l.map (similarity a b tx ty))
      = { a00 := a, a01 := -b, a02 := tx, a10 := b, a11 := a, a12 := ty } := by
  have hW : (l.length : K) ≠ 0 := by
    have : l.length ≠ 0 := by simpa using hl
    exact_mod_cast this
  unfold spread at hd
  unfold AlignmentMat AlignmentMat.sums
  simp only [sums_foldl, zero_add, sum_similarity_fst, sum_similarity_snd, sum_similarity_C1,
    sum_similarity_C2]
  have ha : (↑l.length * (a * (l.map fun p => p.1 * p.1 + p.2 * p.2).sum
        + tx * (l.map fun p => p.1).sum + ty * (l.map fun p => p.2).sum)
      - (l.map fun p => p.1).sum
        * (a * (l.map fun p => p.1).sum - b * (l.map fun p => p.2).sum + ↑l.length * tx)
      - (l.map fun p => p.2).sum
        * (b * (l.map fun p => p.1).sum + a * (l.map fun p => p.2).sum + ↑l.length * ty))
      / (↑l.length * (l.map fun p => p.1 * p.1 + p.2 * p.2).sum
        - (l.map fun p => p.1).sum * (l.map fun p => p.1).sum
        - (l.map fun p => p.2).sum * (l.map fun p => p.2).sum) = a := by
    rw [div_eq_iff hd]; ring
  have hb : (↑l.length * (b * (l.map fun p => p.1 * p.1 + p.2 * p.2).sum
        + ty * (l.map fun p => p.1).sum - tx * (l.map fun p => p.2).sum)
      + (l.map fun p => p.2).sum
        * (a * (l.map fun p => p.1).sum - b * (l.map fun p => p.2).sum + ↑l.length * tx)
      - (l.map fun p => p.1).sum
        * (b * (l.map fun p => p.1).sum + a * (l.map fun p => p.2).sum + ↑l.length * ty))
      / (↑l.length * (l.map fun p => p.1 * p.1 + p.2 * p.2).sum
        - (l.map fun p => p.1).sum * (l.map fun p => p.1).sum
        - (l.map fun p => p.2).sum * (l.map fun p => p.2).sum) = b := by
    rw [div_eq_iff hd]; ring
  rw [ha, hb]
  congr 1
  · rw [div_eq_iff hW]; ring
  · rw [div_eq_iff hW]; ring

theorem sum_sq_dev (m c1 c2 : K) (l : Shape K) :
    (l.map fun p => (m * p.1 - c1) * (m * p.1 - c1) + (m * p.2 - c2) * (m * p.2 - c2)).sum
      = m * m * (l.map fun p => p.1 * p.1 + p.2 * p.2).sum
        - 2 * m * (c1 * (l.map fun p => p.1).sum + c2 * (l.map fun p => p.2).sum)
        + l.length * (c1 * c1 + c2 * c2) := by
  induction l with
  | nil => simp
  | cons p l ih =>
    rw [List.map_cons, List.sum_cons, ih]
    simp only [List.map_cons, List.sum_cons, List.length_cons, Nat.cast_add, Nat.cast_one]
    ring

theorem sum_nonneg_eq_zero {α : Type} (f : α → K) (hf : ∀ x, 0 ≤ f x) (l : List α)
    (h : (l.map f).sum = 0) : ∀ x ∈ l, f x = 0 := by
  induction l with
  | nil => simp
  | cons y l ih =>
    have hs : 0 ≤ (l.map f).sum := List.sum_nonneg (by simpa using fun a _ => hf a)
    rw [List.map_cons, List.sum_cons] at h
    have hy : f y = 0 := le_antisymm (by linarith) (hf y)
    have hl : (l.map f).sum = 0 := by linarith
    intro x hx
    rcases List.mem_cons.mp hx with rfl | hx
    · exact hy
    · exact ih hl x hx

/-- A point list with two different points is spread out. -/
theorem spread_ne_zero (l : Shape K) (p q : K × K) (hp : p ∈ l) (hq : q ∈ l) (hpq : p ≠ q) :
    spread l ≠ 0 := by
  intro h0
  have hn : (l.length : K) ≠ 0 := by
    have : l.length ≠ 0 := by
      intro h; rw [List.length_eq_zero] at h; simp [h] at hp
    exact_mod_cast this
  have hsum := sum_sq_dev (l.length : K) (l.map fun p => p.1).sum (l.map fun p => p.2).sum l
  have hzero : (l.map fun r : K × K =>
      ((l.length : K) * r.1 - (l.map fun p => p.1).sum)
          * ((l.length : K) * r.1 - (l.map fun p => p.1).sum)
        + ((l.length : K) * r.2 - (l.map fun p => p.2).sum)
          * ((l.length : K) * r.2 - (l.map fun p => p.2).sum)).sum = 0 := by
    rw [hsum]
    unfold spread at h0
    linear_combination (l.length : K) * h0
  have hall := sum_nonneg_eq_zero _
    (fun r : K × K => add_nonneg (mul_self_nonneg _) (mul_self_nonneg _)) l hzero
  have key : ∀ r ∈ l, (l.length : K) * r.1 = (l.map fun p => p.1).sum
      ∧ (l.length : K) * r.2 = (l.map fun p => p.2).sum := by
    intro r hr
    have h := hall r hr
    have h1 := mul_self_nonneg ((l.length : K) * r.1 - (l.map fun p => p.1).sum)
    have h2 := mul_self_nonneg ((l.length : K) * r.2 - (l.map fun p => p.2).sum)
    have e1 : ((l.length : K) * r.1 - (l.map fun p => p.1).sum)
        * ((l.length : K) * r.1 - (l.map fun p => p.1).sum) = 0 := by linarith
    have e2 : ((l.length : K) * r.2 - (l.map fun p => p.2).sum)
        * ((l.length : K) * r.2 - (l.map fun p => p.2).sum) = 0 := by linarith
    exact ⟨sub_eq_zero.mp (mul_self_eq_zero.mp e1), sub_eq_zero.mp (mul_self_eq_zero.mp e2)⟩
  apply hpq
  have hp' := key p hp
  have hq' := key q hq
  exact Prod.ext (mul_left_cancel₀ hn (hp'.1.trans hq'.1.symm))
    (mul_left_cancel₀ hn (hp'.2.trans hq'.2.symm))

theorem PinMeanShape_eq_index (env : Env K) (pinned meanshape : Shape K)
    (hrows : pinned.length = meanshape.length)
    (hused : 2 ≤ pinned.countP (fun p => env.PointUsed p.1 p.2)) :
    PinMeanShape env pinned meanshape
      = .ok (env.JitterPointsAt00 (TransformShape meanshape
          (env.AlignmentMat
            (((List.range pinned.length).filter (PointUsedAt env pinned)).map
              (fun i => (meanshape.x i, meanshape.y i)))
            (((List.range pinned.length).filter (PointUsedAt env pinned)).map
              (fun i => (pinned.x i, pinned.y i)))))) := by
  rw [PinMeanShape_eq env pinned meanshape hrows hused, filter_range_map,
    mean_used_eq env pinned meanshape hrows]

theorem getD_map_of_lt {α β : Type} (f : α → β) (l : List α) (k : Nat) (hk : k < l.length)
    (d : β) (d' : α) : (l.map f).getD k d = f (l.getD k d') := by
  simp [List.getD_eq_getElem?_getD, List.getElem?_eq_getElem hk]

/-- The least-squares fit recovers an exact similarity. -/
theorem PinMeanShape_exact_aux (c : Calibration K) (pinned meanshape : Shape K)
    (hrows : pinned.length = meanshape.length)
    (hused : 2 ≤ pinned.countP (fun p => PointUsed p.1 p.2))
    (a b tx ty : K)
    (hfit : ∀ k, k < pinned.length → PointUsedAt (refEnv c) pinned k = true →
      similarity a b tx ty (meanshape.x k, meanshape.y k) = (pinned.x k, pinned.y k))
    (i j : Nat) (hi : i < pinned.length) (hj : j < pinned.length)
    (hui : PointUsedAt (refEnv c) pinned i = true) (huj : PointUsedAt (refEnv c) pinned j = true)
    (hij : (meanshape.x i, meanshape.y i) ≠ (meanshape.x j, meanshape.y j)) :
    ∃ shape, PinMeanShape (refEnv c) pinned meanshape = .ok shape ∧
      ∀ k, k < pinned.length → PointUsedAt (refEnv c) pinned k = true →
        shape.x k = pinned.x k ∧ shape.y k = pinned.y k := by
  have hmemi : i ∈ (List.range pinned.length).filter (PointUsedAt (refEnv c) pinned) := by
    simp [hi, hui]
  have hmemj : j ∈ (List.range pinned.length).filter (PointUsedAt (refEnv c) pinned) := by
    simp [hj, huj]
  have hPU : ((List.range pinned.length).filter (PointUsedAt (refEnv c) pinned)).map
        (fun k => (pinned.x k, pinned.y k))
      = (((List.range pinned.length).filter (PointUsedAt (refEnv c) pinned)).map
          (fun k => (meanshape.x k, meanshape.y k))).map (similarity a b tx ty) := by
    rw [List.map_map]
    apply List.map_congr_left
    intro k hk
    rw [List.mem_filter, List.mem_range] at hk
    exact (hfit k hk.1 hk.2).symm
  have hspread := spread_ne_zero
    (((List.range pinned.length).filter (PointUsedAt (refEnv c) pinned)).map
      (fun k => (meanshape.x k, meanshape.y k)))
    _ _ (List.mem_map_of_mem _ hmemi) (List.mem_map_of_mem _ hmemj) hij
  have hne : ((List.range pinned.length).filter (PointUsedAt (refEnv c) pinned)).map
      (fun k => (meanshape.x k, meanshape.y k)) ≠ [] := by
    intro h
    have := List.mem_map_of_mem (fun k => (meanshape.x k, meanshape.y k)) hmemi
    rw [h] at this
    simp at this
  refine ⟨_, PinMeanShape_eq_index (refEnv c) pinned meanshape hrows hused, ?_⟩
  intro k hk huk
  rw [hPU, show (refEnv c).AlignmentMat = AlignmentMat from rfl,
    AlignmentMat_similarity a b tx ty _ hspread hne]
  have hkm : k < meanshape.length := hrows ▸ hk
  have hfk := hfit k hk huk
  have hrow : (TransformShape meanshape
      { a00 := a, a01 := -b, a02 := tx, a10 := b, a11 := a, a12 := ty }).getD k (0, 0)
      = (pinned.x k, pinned.y k) := by
    unfold TransformShape
    rw [getD_map_of_lt _ _ _ hkm _ (0, 0), ← hfk]
    rfl
  have hjit : ((refEnv c).JitterPointsAt00 (TransformShape meanshape
      { a00 := a, a01 := -b, a02 := tx, a10 := b, a11 := a, a12 := ty })).getD k (0, 0)
      = (pinned.x k, pinned.y k) := by
    show (JitterPointsAt00 c.XJITTER _).getD k (0, 0) = _
    unfold JitterPointsAt00
    rw [getD_map_of_lt _ _ _ (by simpa [TransformShape] using hkm) _ (0, 0), hrow]
    have : PointUsed (pinned.x k) (pinned.y k) = true := huk
    simp [this]
  exact ⟨congrArg Prod.fst hjit, congrArg Prod.snd hjit⟩

theorem exists_similarity_two (m1 m2 p1 p2 : K × K) (h : m1 ≠ m2) :
    ∃ a b tx ty, similarity a b tx ty m1 = p1 ∧ similarity a b tx ty m2 = p2 := by
  have hd : (m2.1 - m1.1) * (m2.1 - m1.1) + (m2.2 - m1.2) * (m2.2 - m1.2) ≠ 0 := by
    intro h0
    have h1 := mul_self_nonneg (m2.1 - m1.1)
    have h2 := mul_self_nonneg (m2.2 - m1.2)
    have e1 : (m2.1 - m1.1) * (m2.1 - m1.1) = 0 := by linarith
    have e2 : (m2.2 - m1.2) * (m2.2 - m1.2) = 0 := by linarith
    exact h (Prod.ext (sub_eq_zero.mp (mul_self_eq_zero.mp e1)).symm
      (sub_eq_zero.mp (mul_self_eq_zero.mp e2)).symm)
  refine ⟨((p2.1 - p1.1) * (m2.1 - m1.1) + (p2.2 - p1.2) * (m2.2 - m1.2))
      / ((m2.1 - m1.1) * (m2.1 - m1.1) + (m2.2 - m1.2) * (m2.2 - m1.2)),
    ((p2.2 - p1.2) * (m2.1 - m1.1) - (p2.1 - p1.1) * (m2.2 - m1.2))
      / ((m2.1 - m1.1) * (m2.1 - m1.1) + (m2.2 - m1.2) * (m2.2 - m1.2)),
    p1.1 - (((p2.1 - p1.1) * (m2.1 - m1.1) + (p2.2 - p1.2) * (m2.2 - m1.2))
        / ((m2.1 - m1.1) * (m2.1 - m1.1) + (m2.2 - m1.2) * (m2.2 - m1.2)) * m1.1
      - ((p2.2 - p1.2) * (m2.1 - m1.1) - (p2.1 - p1.1) * (m2.2 - m1.2))
        / ((m2.1 - m1.1) * (m2.1 - m1.1) + (m2.2 - m1.2) * (m2.2 - m1.2)) * m1.2),
    p1.2 - (((p2.2 - p1.2) * (m2.1 - m1.1) - (p2.1 - p1.1) * (m2.2 - m1.2))
        / ((m2.1 - m1.1) * (m2.1 - m1.1) + (m2.2 - m1.2) * (m2.2 - m1.2)) * m1.1
      + ((p2.1 - p1.1) * (m2.1 - m1.1) + (p2.2 - p1.2) * (m2.2 - m1.2))
        / ((m2.1 - m1.1) * (m2.1 - m1.1) + (m2.2 - m1.2) * (m2.2 - m1.2)) * m1.2),
    ?_, ?_⟩
  · apply Prod.ext <;> simp only [similarity] <;> ring
  · apply Prod.ext <;> simp only [similarity] <;> field_simp <;> ring

theorem two_le_length_of_mem {α : Type} (l : List α) (x y : α) (hx : x ∈ l) (hy : y ∈ l)
    (hxy : x ≠ y) : 2 ≤ l.length := by
  match l, hx, hy with
  | [], hx, _ => simp at hx
  | [z], hx, hy =>
    simp only [List.mem_singleton] at hx hy
    exact absurd (hx.trans hy.symm) hxy
  | _ :: _ :: _, _, _ => simp

/-- With exactly two pinned points whose mean shape points differ, the shape
returned by `PinMeanShape` has the pinned coordinates at both. -/
theorem PinMeanShape_exact_two_points (c : Calibration K) (pinned meanshape : Shape K)
    (hrows : pinned.length = meanshape.length)
    (i j : Nat) (hi : i < pinned.length) (hj : j < pinned.length)
    (hui : PointUsedAt (refEnv c) pinned i = true) (huj : PointUsedAt (refEnv c) pinned j = true)
    (honly : ∀ k, k < pinned.length → PointUsedAt (refEnv c) pinned k = true → k = i ∨ k = j)
    (hij : (meanshape.x i, meanshape.y i) ≠ (meanshape.x j, meanshape.y j)) :
    ∃ shape, PinMeanShape (refEnv c) pinned meanshape = .ok shape ∧
      shape.x i = pinned.x i ∧ shape.y i = pinned.y i ∧
      shape.x j = pinned.x j ∧ shape.y j = pinned.y j := by
  obtain ⟨a, b, tx, ty, h1, h2⟩ := exists_similarity_two (meanshape.x i, meanshape.y i)
    (meanshape.x j, meanshape.y j) (pinned.x i, pinned.y i) (pinned.x j, pinned.y j) hij
  have hne : i ≠ j := fun h => hij (by rw [h])
  have hused : 2 ≤ pinned.countP (fun p => PointUsed p.1 p.2) := by
    have e := countP_range_eq (refEnv c) pinned
    rw [List.countP_eq_length_filter] at e
    have h2 := two_le_length_of_mem
      ((List.range pinned.length).filter (PointUsedAt (refEnv c) pinned)) i j
      (by simp [hi, hui]) (by simp [hj, huj]) hne
    rw [e] at h2
    exact h2
  obtain ⟨shape, hs, hall⟩ := PinMeanShape_exact_aux c pinned meanshape hrows hused a b tx ty
    (by
      intro k hk hu
      rcases honly k hk hu with rfl | rfl
      · exact h1
      · exact h2)
    i j hi hj hui huj hij
  exact ⟨shape, hs, (hall i hi hui).1, (hall i hi hui).2, (hall j hj huj).1, (hall j hj huj).2⟩

/-! ## C2 -/

/-- C2, as amended: when some similarity takes the mean shape points at the
pinned indices exactly onto the pinned points, and two of those mean shape
points differ, the shape returned by `PinMeanShape` with the least-squares fit
has the pinned coordinates at every pinned index. -/
theorem PinMeanShape_exact_of_fit (c : Calibration K) (pinned meanshape : Shape K)
    (hrows : pinned.length = meanshape.length)
    (hused : 2 ≤ pinned.countP (fun p => PointUsed p.1 p.2))
    (a b tx ty : K)
    (hfit : ∀ k, k < pinned.length → PointUsedAt (refEnv c) pinned k = true →
      similarity a b tx ty (meanshape.x k, meanshape.y k) = (pinned.x k, pinned.y k))
    (i j : Nat) (hi : i < pinned.length) (hj : j < pinned.length)
    (hui : PointUsedAt (refEnv c) pinned i = true) (huj : PointUsedAt (refEnv c) pinned j = true)
    (hij : (meanshape.x i, meanshape.y i) ≠ (meanshape.x j, meanshape.y j)) :
    ∃ shape, PinMeanShape (refEnv c) pinned meanshape = .ok shape ∧
      ∀ k, k < pinned.length → PointUsedAt (refEnv c) pinned k = true →
        shape.x k = pinned.x k ∧ shape.y k = pinned.y k :=
  PinMeanShape_exact_aux c pinned meanshape hrows hused a b tx ty hfit i j hi hj hui huj hij

/-- Witness for `PinMeanShape_exact_of_fit`: two pinned points, taken from
the mean shape points `(1, 0)` and `(2, 0)` by `(x, y) ↦ (2 x - 1, 2 y + 1)`. -/
theorem PinMeanShape_exact_of_fit_witness :
    ∃ shape, PinMeanShape (refEnv evalCalibration) [(1, 1), (0, 0), (3, 1)]
        [(1, 0), (5, 5), (2, 0)] = .ok shape ∧
      ∀ k, k < ([(1, 1), (0, 0), (3, 1)] : Shape ℚ).length →
        PointUsedAt (refEnv evalCalibration) [(1, 1), (0, 0), (3, 1)] k = true →
        shape.x k = Shape.x [(1, 1), (0, 0), (3, 1)] k ∧
        shape.y k = Shape.y [(1, 1), (0, 0), (3, 1)] k :=
  PinMeanShape_exact_of_fit evalCalibration [(1, 1), (0, 0), (3, 1)] [(1, 0), (5, 5), (2, 0)]
    rfl (by simp [PointUsed, List.countP_cons]) 2 0 (-1) 1
    (by
      intro k hk hu
      simp only [List.length_cons, List.length_nil] at hk
      interval_cases k
      · simp [similarity, Shape.x, Shape.y]; norm_num
      · simp [PointUsedAt, refEnv, PointUsed, Shape.x, Shape.y] at hu
      · simp [similarity, Shape.x, Shape.y]; norm_num)
    0 2 (by simp) (by simp)
    (by simp [PointUsedAt, refEnv, PointUsed, Shape.x, Shape.y])
    (by simp [PointUsedAt, refEnv, PointUsed, Shape.x, Shape.y])
    (by simp [Shape.x, Shape.y])

/-- What `PinMeanShape` returns for three pinned points that are not in line
and a mean shape whose points are. -/
theorem PinMeanShape_three_points :
    PinMeanShape (refEnv evalCalibration) [(1, 1), (2, 2), (3, 1)] [(1, 1), (2, 1), (3, 1)]
      = .ok [(1, 4 / 3), (2, 4 / 3), (3, 4 / 3)] := by
  rw [PinMeanShape_eq (refEnv evalCalibration) [(1, 1), (2, 2), (3, 1)]
    [(1, 1), (2, 1), (3, 1)] rfl (by simp [refEnv, PointUsed, List.countP_cons])]
  simp [refEnv, PointUsed, AlignmentMat, AlignmentMat.sums, TransformShape, JitterPointsAt00]
  norm_num

/-- C2 fails as stated: with the three pinned points `(1, 1)`, `(2, 2)`,
`(3, 1)` and the mean shape `(1, 1)`, `(2, 1)`, `(3, 1)` the returned shape does
not have the pinned coordinates at the pinned indices. -/
theorem PinMeanShape_not_exact :
    ¬ ∀ shape, PinMeanShape (refEnv evalCalibration) [(1, 1), (2, 2), (3, 1)]
        [(1, 1), (2, 1), (3, 1)] = .ok shape →
      ∀ k, k < 3 → PointUsedAt (refEnv evalCalibration) [(1, 1), (2, 2), (3, 1)] k = true →
        shape.x k = Shape.x [(1, 1), (2, 2), (3, 1)] k ∧
        shape.y k = Shape.y [(1, 1), (2, 2), (3, 1)] k := by
  intro h
  have h0 := (h _ PinMeanShape_three_points 0 (by norm_num)
    (by simp [PointUsedAt, refEnv, PointUsed, Shape.x, Shape.y])).2
  simp [Shape.y] at h0
  norm_num at h0

/-- No similarity at all takes the mean shape `(1, 1)`, `(2, 1)`, `(3, 1)` onto
the pinned points `(1, 1)`, `(2, 2)`, `(3, 1)`, whatever fit `AlignmentMat` computes. -/
theorem no_similarity_fits :
    ¬ ∃ a b tx ty : ℚ, TransformShape [(1, 1), (2, 1), (3, 1)]
        { a00 := a, a01 := -b, a02 := tx, a10 := b, a11 := a, a12 := ty }
      = [(1, 1), (2, 2), (3, 1)] := by
  rintro ⟨a, b, tx, ty, h⟩
  simp [TransformShape] at h
  obtain ⟨⟨-, h1⟩, ⟨-, h2⟩, -, h3⟩ := h
  linarith

/-! ## C3 -/

theorem JitterPointsAt00_used (XJITTER : K) (hj : XJITTER ≠ 0) (shape : Shape K) :
    ∀ p ∈ JitterPointsAt00 XJITTER shape, PointUsed p.1 p.2 = true := by
  intro p hp
  unfold JitterPointsAt00 at hp
  rw [List.mem_map] at hp
  obtain ⟨q, -, rfl⟩ := hp
  by_cases hq : PointUsed q.1 q.2 = true
  · simp [hq]
  · rw [if_neg hq]
    simp [PointUsed, hj]

theorem PointUsedAt_of_forall (env : Env K) (shape : Shape K)
    (h : ∀ p ∈ shape, env.PointUsed p.1 p.2 = true) (k : Nat) (hk : k < shape.length) :
    PointUsedAt env shape k = true := by
  unfold PointUsedAt Shape.x Shape.y
  rw [List.getD_eq_getElem _ _ hk]
  exact h _ (List.getElem_mem hk)

/-- C3: with `PointUsed` and `JitterPointsAt00` as modelled from the spec and
a nonzero jitter, for a pinned shape with at least 2 used points and a mean
shape of the same number N of points, `PinMeanShape` returns the jittered
transform of the whole mean shape: a shape of exactly N points, none unused. -/
theorem PinMeanShape_full_shape (env : Env K) (XJITTER : K) (hj : XJITTER ≠ 0)
    (hP : env.PointUsed = PointUsed) (hJ : env.JitterPointsAt00 = JitterPointsAt00 XJITTER)
    (pinned meanshape : Shape K) (hrows : pinned.length = meanshape.length)
    (hused : 2 ≤ pinned.countP (fun p => env.PointUsed p.1 p.2)) :
    ∃ shape mat, PinMeanShape env pinned meanshape = .ok shape ∧
      shape = JitterPointsAt00 XJITTER (TransformShape meanshape mat) ∧
      shape.length = meanshape.length ∧
      ∀ k, k < shape.length → PointUsedAt env shape k = true := by
  refine ⟨_, _, PinMeanShape_eq env pinned meanshape hrows hused, by rw [hJ], ?_, ?_⟩
  · rw [hJ]; simp [JitterPointsAt00, TransformShape]
  · intro k hk
    apply PointUsedAt_of_forall env _ _ k hk
    rw [hJ, hP]
    exact JitterPointsAt00_used XJITTER hj _

/-- Witness for `PinMeanShape_full_shape`: only the two outer eye corners
are pinned. -/
theorem PinMeanShape_full_shape_witness :
    ∃ shape mat, PinMeanShape (refEnv evalCalibration) examplePinnedEyes17 exampleMeanShape17
        = .ok shape ∧
      shape = JitterPointsAt00 0.1 (TransformShape (exampleMeanShape17 : Shape ℚ) mat) ∧
      shape.length = (exampleMeanShape17 : Shape ℚ).length ∧
      ∀ k, k < shape.length → PointUsedAt (refEnv evalCalibration) shape k = true :=
  PinMeanShape_full_shape (refEnv evalCalibration) 0.1 (by norm_num) rfl rfl
    examplePinnedEyes17 exampleMeanShape17 rfl
    (by simp [refEnv, PointUsed, List.countP_cons, examplePinnedEyes17])

/-! ## C4 -/

theorem Shape5_error_of_few_canonical (env : Env K) (pinned meanshape : Shape K)
    (hm17 : (env.Shape17 meanshape).length = 17)
    (hno5 : HaveCanonical5Points env (env.Shape17 pinned) = .ok false)
    (hfew : (env.Shape17 pinned).countP (fun p => env.PointUsed p.1 p.2) < 2) :
    Shape5 env pinned meanshape = .error (.err "Need at least two pinned landmarks") := by
  have h17 : (env.Shape17 pinned).length = 17 := by
    by_contra h
    simp [HaveCanonical5Points, h] at hno5
  have herr := PinMeanShape_err_of_few env (env.Shape17 pinned) (env.Shape17 meanshape)
    (h17.trans hm17.symm) hfew
  unfold Shape5
  simp only [hno5, Bool.not_false, if_true, herr]

theorem Shape17_length (shape : Shape K) : (Shape17 shape).length = 17 := by
  unfold Shape17
  split <;> simp [Shape17.table77]

theorem Shape17_examplePinnedJaw77 :
    Shape17 examplePinnedJaw77 = List.replicate 17 (0, 0) := rfl

/-- C4 fails on the code: two points of a 77 point shape are pinned, neither
is one of the 17 canonical points, and `Shape5` raises an error. -/
theorem Shape5_fails_on_two_jaw_points :
    examplePinnedJaw77.countP (fun p => (refEnv evalCalibration).PointUsed p.1 p.2) = 2 ∧
    Shape5 (refEnv evalCalibration) examplePinnedJaw77 exampleMeanShape77
      = .error (.err "Need at least two pinned landmarks") := by
  constructor
  · simp [examplePinnedJaw77, refEnv, PointUsed, List.countP_cons, List.countP_replicate]
  · apply Shape5_error_of_few_canonical
    · exact Shape17_length exampleMeanShape77
    · show HaveCanonical5Points (refEnv evalCalibration) (Shape17 examplePinnedJaw77) = _
      rw [Shape17_examplePinnedJaw77]
      simp [HaveCanonical5Points, PointUsedAt, refEnv, PointUsed, Shape.x, Shape.y]
    · show (Shape17 examplePinnedJaw77).countP _ < 2
      rw [Shape17_examplePinnedJaw77]
      simp [refEnv, PointUsed, List.countP_replicate]

/-! ## C5 and C6 -/

theorem Shape17_of_length_17 (shape : Shape K) (h : shape.length = 17) :
    Shape17 shape = shape := by
  unfold Shape17
  rw [if_neg (by omega)]
  apply List.ext_getElem
  · simp [h]
  · intro n h₁ h₂
    simp [List.getElem?_eq_getElem (show n < shape.length by simpa [h] using h₁)]

/-- C5: for a start shape whose canonical left pupil, right pupil and
bottom-of-bottom-lip points are used, `PseudoDetParFromStartShape` returns a
detector parameter with `x = 0.7 xeye + 0.3 mouthx`, `y = 0.7 yeye + 0.3 mouthy`
and `width = height = 2 sqrt((xeye - mouthx)^2 + (yeye - mouthy)^2)`, where
`(xeye, yeye)` is the average of the two pupils. -/
theorem PseudoDetParFromStartShape_position_size (env : Env K) (startshape : Shape K)
    (rot yaw : K) (nmods : Int)
    (hl : PointUsedAt env (env.Shape17 startshape) env.L17_LPupil = true)
    (hr : PointUsedAt env (env.Shape17 startshape) env.L17_RPupil = true)
    (hm : PointUsedAt env (env.Shape17 startshape) env.L17_CBotOfBotLip = true) :
    ∃ detpar, PseudoDetParFromStartShape env startshape rot yaw nmods = .ok detpar ∧
      detpar.x = 0.7 * (((env.Shape17 startshape).x env.L17_LPupil
            + (env.Shape17 startshape).x env.L17_RPupil) / 2)
          + 0.3 * (env.Shape17 startshape).x env.L17_CBotOfBotLip ∧
      detpar.y = 0.7 * (((env.Shape17 startshape).y env.L17_LPupil
            + (env.Shape17 startshape).y env.L17_RPupil) / 2)
          + 0.3 * (env.Shape17 startshape).y env.L17_CBotOfBotLip ∧
      detpar.width = 2 * env.sqrt
        ((((env.Shape17 startshape).x env.L17_LPupil
              + (env.Shape17 startshape).x env.L17_RPupil) / 2
            - (env.Shape17 startshape).x env.L17_CBotOfBotLip) ^ 2
          + (((env.Shape17 startshape).y env.L17_LPupil
              + (env.Shape17 startshape).y env.L17_RPupil) / 2
            - (env.Shape17 startshape).y env.L17_CBotOfBotLip) ^ 2) ∧
      detpar.height = detpar.width := by
  unfold PointUsedAt at hl hr hm
  refine ⟨_, by unfold PseudoDetParFromStartShape; simp only [hl, hr, hm]; rfl, rfl, rfl, ?_, rfl⟩
  simp only [PointDist, pow_two]
  norm_num

/-- Witness for `PseudoDetParFromStartShape_position_size`, over the reals. -/
theorem PseudoDetParFromStartShape_position_size_witness :
    ∃ detpar, PseudoDetParFromStartShape
        (refEnv (Calibration.standard (fun y x => Complex.arg ⟨x, y⟩) Real.sqrt
          (fun a => Real.cos (a * Real.pi / 180)) (fun a => Real.sin (a * Real.pi / 180))
          Real.pi))
        exampleMeanShape17 0 0 1 = .ok detpar ∧
      detpar.x = 50 ∧ detpar.y = 50.5 ∧ detpar.width = 70 ∧ detpar.height = 70 := by
  obtain ⟨detpar, h, hx, hy, hw, hh⟩ := PseudoDetParFromStartShape_position_size
    (refEnv (Calibration.standard (fun y x => Complex.arg ⟨x, y⟩) Real.sqrt
      (fun a => Real.cos (a * Real.pi / 180)) (fun a => Real.sin (a * Real.pi / 180))
      Real.pi))
    exampleMeanShape17 0 0 1
    (by simp [PointUsedAt, refEnv, Shape17_of_length_17, exampleMeanShape17, PointUsed,
      Shape.x, Shape.y])
    (by simp [PointUsedAt, refEnv, Shape17_of_length_17, exampleMeanShape17, PointUsed,
      Shape.x, Shape.y])
    (by simp [PointUsedAt, refEnv, Shape17_of_length_17, exampleMeanShape17, PointUsed,
      Shape.x, Shape.y])
  have h35 : Real.sqrt 1225 = 35 := by
    rw [show (1225 : ℝ) = 35 ^ 2 by norm_num]
    exact Real.sqrt_sq (by norm_num)
  simp only [refEnv, Calibration.standard, Shape17_of_length_17, exampleMeanShape17,
    List.length_cons, List.length_nil, Shape.x, Shape.y, List.getD_cons_succ, List.getD_cons_zero]
    at hx hy hw
  refine ⟨detpar, h, ?_, ?_, ?_, ?_⟩
  · rw [hx]; norm_num
  · rw [hy]; norm_num
  · rw [hw]; norm_num; rw [h35]; norm_num
  · rw [hh, hw]; norm_num; rw [h35]; norm_num

/-- C6: `PseudoDetParFromStartShape` stops at a failed assertion exactly
when at least one of the canonical left pupil, right pupil and
bottom-of-bottom-lip points of the start shape is unused; when all three are
used it returns a detector parameter. -/
theorem PseudoDetParFromStartShape_fails_iff (env : Env K) (startshape : Shape K)
    (rot yaw : K) (nmods : Int) :
    ((∃ expr, PseudoDetParFromStartShape env startshape rot yaw nmods
          = .error (.assertion expr)) ↔
        (PointUsedAt env (env.Shape17 startshape) env.L17_LPupil = false ∨
          PointUsedAt env (env.Shape17 startshape) env.L17_RPupil = false ∨
          PointUsedAt env (env.Shape17 startshape) env.L17_CBotOfBotLip = false)) ∧
    ((∃ detpar, PseudoDetParFromStartShape env startshape rot yaw nmods = .ok detpar) ↔
        (PointUsedAt env (env.Shape17 startshape) env.L17_LPupil = true ∧
          PointUsedAt env (env.Shape17 startshape) env.L17_RPupil = true ∧
          PointUsedAt env (env.Shape17 startshape) env.L17_CBotOfBotLip = true)) := by
  unfold PointUsedAt
  cases hl : env.PointUsed ((env.Shape17 startshape).x env.L17_LPupil)
      ((env.Shape17 startshape).y env.L17_LPupil) <;>
    cases hr : env.PointUsed ((env.Shape17 startshape).x env.L17_RPupil)
      ((env.Shape17 startshape).y env.L17_RPupil) <;>
    cases hm : env.PointUsed ((env.Shape17 startshape).x env.L17_CBotOfBotLip)
      ((env.Shape17 startshape).y env.L17_CBotOfBotLip) <;>
    simp [PseudoDetParFromStartShape, hl, hr, hm]

/-! ## C7 -/

theorem CopyPoint_five (old : Shape K) (i0 i1 i2 i3 i4 : Nat) :
    CopyPoint (CopyPoint (CopyPoint (CopyPoint (CopyPoint (Shape.create 5) old 0 i0) old 1 i1)
      old 2 i2) old 3 i3) old 4 i4
    = [(old.x i0, old.y i0), (old.x i1, old.y i1), (old.x i2, old.y i2), (old.x i3, old.y i3),
        (old.x i4, old.y i4)] := by
  simp [CopyPoint, Shape.setX, Shape.setY, Shape.create, List.replicate, Shape.x, Shape.y]

theorem Shape5_of_have5 (env : Env K) (pinned meanshape : Shape K)
    (h17 : (env.Shape17 pinned).length = 17)
    (h5 : (PointUsedAt env (env.Shape17 pinned) env.L17_LEyeOuter &&
      PointUsedAt env (env.Shape17 pinned) env.L17_REyeOuter &&
      PointUsedAt env (env.Shape17 pinned) env.L17_CNoseTip &&
      PointUsedAt env (env.Shape17 pinned) env.L17_LMouthCorner &&
      PointUsedAt env (env.Shape17 pinned) env.L17_RMouthCorner) = true) :
    Shape5 env pinned meanshape =
      .ok [((env.Shape17 pinned).x env.L17_LEyeOuter, (env.Shape17 pinned).y env.L17_LEyeOuter),
           ((env.Shape17 pinned).x env.L17_REyeOuter, (env.Shape17 pinned).y env.L17_REyeOuter),
           ((env.Shape17 pinned).x env.L17_CNoseTip, (env.Shape17 pinned).y env.L17_CNoseTip),
           ((env.Shape17 pinned).x env.L17_LMouthCorner,
             (env.Shape17 pinned).y env.L17_LMouthCorner),
           ((env.Shape17 pinned).x env.L17_RMouthCorner,
             (env.Shape17 pinned).y env.L17_RMouthCorner)] := by
  unfold Shape5 HaveCanonical5Points
  simp only [h17, ne_eq, not_true_eq_false, if_false, h5, Bool.not_true, Bool.false_eq_true,
    CopyPoint_five]

/-- C7: when `Shape17` of the pinned shape has 17 rows, `Shape5` returns the
points LEyeOuter, REyeOuter, CNoseTip, LMouthCorner, RMouthCorner as rows 0 to 4,
read from `Shape17(pinned)` when all five are used there and otherwise from
the result of `PinMeanShape(Shape17(pinned), Shape17(meanshape))`, whose error,
if it raises one, is the outcome of `Shape5`. -/
theorem Shape5_eq (env : Env K) (pinned meanshape : Shape K)
    (h17 : (env.Shape17 pinned).length = 17) :
    Shape5 env pinned meanshape =
      match (if (PointUsedAt env (env.Shape17 pinned) env.L17_LEyeOuter &&
                PointUsedAt env (env.Shape17 pinned) env.L17_REyeOuter &&
                PointUsedAt env (env.Shape17 pinned) env.L17_CNoseTip &&
                PointUsedAt env (env.Shape17 pinned) env.L17_LMouthCorner &&
                PointUsedAt env (env.Shape17 pinned) env.L17_RMouthCorner) = true
             then Except.ok (env.Shape17 pinned)
             else PinMeanShape env (env.Shape17 pinned) (env.Shape17 meanshape)) with
      | .ok s =>
        .ok [(s.x env.L17_LEyeOuter, s.y env.L17_LEyeOuter),
             (s.x env.L17_REyeOuter, s.y env.L17_REyeOuter),
             (s.x env.L17_CNoseTip, s.y env.L17_CNoseTip),
             (s.x env.L17_LMouthCorner, s.y env.L17_LMouthCorner),
             (s.x env.L17_RMouthCorner, s.y env.L17_RMouthCorner)]
      | .error e => .error e := by
  unfold Shape5 HaveCanonical5Points
  simp only [h17, ne_eq, not_true_eq_false, if_false]
  cases h5 : (PointUsedAt env (env.Shape17 pinned) env.L17_LEyeOuter &&
      PointUsedAt env (env.Shape17 pinned) env.L17_REyeOuter &&
      PointUsedAt env (env.Shape17 pinned) env.L17_CNoseTip &&
      PointUsedAt env (env.Shape17 pinned) env.L17_LMouthCorner &&
      PointUsedAt env (env.Shape17 pinned) env.L17_RMouthCorner)
  · simp only [Bool.not_false, if_true, Bool.false_eq_true, if_false]
    cases PinMeanShape env (env.Shape17 pinned) (env.Shape17 meanshape) with
    | error e => rfl
    | ok s => simp only [CopyPoint_five]
  · simp only [Bool.not_true, Bool.false_eq_true, if_false, if_true, CopyPoint_five]

/-- Witness for `Shape5_eq`: a shape of the 17 point scheme with all five
canonical points pinned. -/
theorem Shape5_eq_witness :
    Shape5 (refEnv evalCalibration) exampleMeanShape17 exampleMeanShape17
      = .ok [(28, 40), (72, 40), (50, 55), (38, 70), (62, 70)] := by
  rw [Shape5_eq (refEnv evalCalibration) exampleMeanShape17 exampleMeanShape17
    (Shape17_length (exampleMeanShape17 : Shape ℚ))]
  have h : (refEnv evalCalibration).Shape17 exampleMeanShape17 = exampleMeanShape17 :=
    Shape17_of_length_17 (exampleMeanShape17 : Shape ℚ) (by simp [exampleMeanShape17])
  rw [h]
  simp [PointUsedAt, refEnv, PointUsed, exampleMeanShape17, Shape.x, Shape.y]

/-! ## C8 -/

theorem norm_eq_sum (shape : Shape K) (h : shape.length = 5) :
    EstRotAndYawFrom5PointShape.norm shape
      = (shape.map fun p => p.1 * p.1 + p.2 * p.2).sum := by
  match shape, h with
  | [a, b, c, d, e], _ =>
    simp [EstRotAndYawFrom5PointShape.norm, show List.range 5 = [0, 1, 2, 3, 4] from rfl,
      Shape.x, Shape.y, add_assoc]

theorem center_eq (shape : Shape K) :
    EstRotAndYawFrom5PointShape.center shape
      = shape.map fun p => (p.1 - SumElemsX shape / 5, p.2 - SumElemsY shape / 5) := by
  simp [EstRotAndYawFrom5PointShape.center, SumElemsY, List.map_map, Function.comp_def]

theorem sum_map_sub_const {α : Type} (f : α → K) (m : K) (l : List α) :
    (l.map fun p => f p - m).sum = (l.map f).sum - l.length * m := by
  induction l with
  | nil => simp
  | cons p l ih =>
    simp only [List.map_cons, List.sum_cons, ih, List.length_cons, Nat.cast_add, Nat.cast_one]
    ring

theorem sum_map_div_const {α : Type} (f : α → K) (s : K) (l : List α) :
    (l.map fun p => f p / s).sum = (l.map f).sum / s := by
  induction l with
  | nil => simp
  | cons p l ih => simp only [List.map_cons, List.sum_cons, ih]; ring

theorem SumElems_center (shape : Shape K) (h : shape.length = 5) :
    SumElemsX (EstRotAndYawFrom5PointShape.center shape) = 0 ∧
    SumElemsY (EstRotAndYawFrom5PointShape.center shape) = 0 := by
  rw [center_eq]
  unfold SumElemsX SumElemsY
  simp only [List.map_map, Function.comp_def]
  rw [sum_map_sub_const (fun p : K × K => p.1), sum_map_sub_const (fun p : K × K => p.2), h]
  constructor <;> (push_cast; ring)

theorem norm_center_ne_zero (shape : Shape K) (h : shape.length = 5)
    (hne : ∃ p ∈ shape, ∃ q ∈ shape, p ≠ q) :
    EstRotAndYawFrom5PointShape.norm (EstRotAndYawFrom5PointShape.center shape) ≠ 0 := by
  intro h0
  rw [norm_eq_sum _ (by rw [center_eq]; simpa using h), center_eq, List.map_map] at h0
  have hall := sum_nonneg_eq_zero _
    (fun p : K × K => add_nonneg (mul_self_nonneg _) (mul_self_nonneg _)) shape h0
  have key : ∀ p ∈ shape, p = (SumElemsX shape / 5, SumElemsY shape / 5) := by
    intro p hp
    have hp0 := hall p hp
    simp only [Function.comp_apply] at hp0
    have h1 := mul_self_nonneg (p.1 - SumElemsX shape / 5)
    have h2 := mul_self_nonneg (p.2 - SumElemsY shape / 5)
    have e1 : (p.1 - SumElemsX shape / 5) * (p.1 - SumElemsX shape / 5) = 0 := by linarith
    have e2 : (p.2 - SumElemsY shape / 5) * (p.2 - SumElemsY shape / 5) = 0 := by linarith
    exact Prod.ext (sub_eq_zero.mp (mul_self_eq_zero.mp e1))
      (sub_eq_zero.mp (mul_self_eq_zero.mp e2))
  obtain ⟨p, hp, q, hq, hpq⟩ := hne
  exact hpq ((key p hp).trans (key q hq).symm)

theorem sum_sq_Buf (shape : Shape K) :
    ((Buf shape).map fun v => v * v).sum = (shape.map fun p => p.1 * p.1 + p.2 * p.2).sum := by
  induction shape with
  | nil => simp [Buf]
  | cons p l ih =>
    simp only [Buf, List.flatMap_cons, List.map_append, List.sum_append, List.map_cons,
      List.map_nil, List.sum_cons, List.sum_nil] at ih ⊢
    rw [ih]; ring

theorem Buf_five_sums (shape : Shape K) (h : shape.length = 5) :
    (Buf shape).length = 10 ∧
    Buf.at (Buf shape) 0 + Buf.at (Buf shape) 2 + Buf.at (Buf shape) 4 + Buf.at (Buf shape) 6
      + Buf.at (Buf shape) 8 = SumElemsX shape ∧
    Buf.at (Buf shape) 1 + Buf.at (Buf shape) 3 + Buf.at (Buf shape) 5 + Buf.at (Buf shape) 7
      + Buf.at (Buf shape) 9 = SumElemsY shape := by
  match shape, h with
  | [a, b, c, d, e], _ => simp [Buf, Buf.at, SumElemsX, SumElemsY, add_assoc]

/-- The normalised, centred shape: its columns sum to 0 and the squares of
its elements sum to 1. -/
theorem normalize_center (env : Env K) (shape : Shape K) (h : shape.length = 5)
    (hsqrt : ∀ v, 0 ≤ v → env.sqrt v * env.sqrt v = v)
    (hne : ∃ p ∈ shape, ∃ q ∈ shape, p ≠ q) :
    SumElemsX (EstRotAndYawFrom5PointShape.normalize env
      (EstRotAndYawFrom5PointShape.center shape)) = 0 ∧
    SumElemsY (EstRotAndYawFrom5PointShape.normalize env
      (EstRotAndYawFrom5PointShape.center shape)) = 0 ∧
    ((EstRotAndYawFrom5PointShape.normalize env
      (EstRotAndYawFrom5PointShape.center shape)).map fun p => p.1 * p.1 + p.2 * p.2).sum = 1 := by
  have hc5 : (EstRotAndYawFrom5PointShape.center shape).length = 5 := by
    rw [center_eq]; simpa using h
  have hn0 := norm_center_ne_zero shape h hne
  have hnn : 0 ≤ EstRotAndYawFrom5PointShape.norm (EstRotAndYawFrom5PointShape.center shape) := by
    rw [norm_eq_sum _ hc5]
    exact List.sum_nonneg (by
      intro v hv
      rw [List.mem_map] at hv
      obtain ⟨p, -, rfl⟩ := hv
      exact add_nonneg (mul_self_nonneg _) (mul_self_nonneg _))
  have hs := hsqrt _ hnn
  obtain ⟨hx, hy⟩ := SumElems_center shape h
  simp only [SumElemsX, SumElemsY] at hx hy ⊢
  unfold EstRotAndYawFrom5PointShape.normalize
  simp only [List.map_map, Function.comp_def]
  refine ⟨?_, ?_, ?_⟩
  · rw [sum_map_div_const (fun p : K × K => p.1), hx, zero_div]
  · rw [sum_map_div_const (fun p : K × K => p.2), hy, zero_div]
  · have e : ∀ p : K × K,
        p.1 / env.sqrt (EstRotAndYawFrom5PointShape.norm
              (EstRotAndYawFrom5PointShape.center shape))
            * (p.1 / env.sqrt (EstRotAndYawFrom5PointShape.norm
              (EstRotAndYawFrom5PointShape.center shape)))
          + p.2 / env.sqrt (EstRotAndYawFrom5PointShape.norm
              (EstRotAndYawFrom5PointShape.center shape))
            * (p.2 / env.sqrt (EstRotAndYawFrom5PointShape.norm
              (EstRotAndYawFrom5PointShape.center shape)))
        = (p.1 * p.1 + p.2 * p.2)
          / EstRotAndYawFrom5PointShape.norm (EstRotAndYawFrom5PointShape.center shape) := by
      intro p
      rw [div_mul_div_comm, div_mul_div_comm, hs, add_div]
    simp only [e]
    rw [sum_map_div_const (fun p : K × K => p.1 * p.1 + p.2 * p.2), ← norm_eq_sum _ hc5,
      div_self hn0]

theorem TransformShape_rotation_injective (env : Env K) (cx cy angle : K)
    (hrot : env.cosDeg angle * env.cosDeg angle + env.sinDeg angle * env.sinDeg angle = 1)
    (shape : Shape K) (hne : ∃ p ∈ shape, ∃ q ∈ shape, p ≠ q) :
    ∃ p ∈ TransformShape shape (getRotationMatrix2D env cx cy angle 1),
      ∃ q ∈ TransformShape shape (getRotationMatrix2D env cx cy angle 1), p ≠ q := by
  obtain ⟨p, hp, q, hq, hpq⟩ := hne
  refine ⟨_, List.mem_map_of_mem _ hp, _, List.mem_map_of_mem _ hq, ?_⟩
  intro h
  apply hpq
  simp only [getRotationMatrix2D, one_mul, Prod.mk.injEq] at h
  obtain ⟨h1, h2⟩ := h
  have e1 : (env.cosDeg angle * env.cosDeg angle + env.sinDeg angle * env.sinDeg angle)
      * (p.1 - q.1) = 0 := by
    linear_combination env.cosDeg angle * h1 - env.sinDeg angle * h2
  have e2 : (env.cosDeg angle * env.cosDeg angle + env.sinDeg angle * env.sinDeg angle)
      * (p.2 - q.2) = 0 := by
    linear_combination env.sinDeg angle * h1 + env.cosDeg angle * h2
  rw [hrot, one_mul] at e1 e2
  exact Prod.ext (sub_eq_zero.mp e1) (sub_eq_zero.mp e2)

theorem derotate_ok (env : Env K) (shape : Shape K) (rot : K)
    (hrot : ∀ a, env.cosDeg a * env.cosDeg a + env.sinDeg a * env.sinDeg a = 1)
    (hrange : -360 ≤ rot ∧ rot ≤ 360)
    (hne : ∃ p ∈ shape, ∃ q ∈ shape, p ≠ q) :
    ∃ workshape, EstRotAndYawFrom5PointShape.derotate env shape rot = .ok workshape ∧
      workshape.length = shape.length ∧ ∃ p ∈ workshape, ∃ q ∈ workshape, p ≠ q := by
  unfold EstRotAndYawFrom5PointShape.derotate
  by_cases h0 : rot = 0
  · exact ⟨shape, by simp [h0], rfl, hne⟩
  · have hr : -rot ≥ -360 ∧ -rot ≤ 360 := ⟨by linarith [hrange.2], by linarith [hrange.1]⟩
    refine ⟨_, by rw [if_pos h0]; unfold RotShapeInPlace; rw [if_pos hr], ?_, ?_⟩
    · simp [TransformShape]
    · exact TransformShape_rotation_injective env _ _ _ (hrot _) shape hne

/-- C8, as amended: computed over the reals (in exact arithmetic, over any
ordered field), for a shape of 5 points that are not all identical, with `sqrt`
a square root, `cos^2 + sin^2 = 1` and rotation estimates within the sanity
bound of `RotShapeInPlace`, `EstRotAndYawFrom5PointShape` returns, and the 10
values it passes to the yaw regression are mean-centred (the five x values sum
to 0, the five y values sum to 0) and the sum of their squares is 1. -/
theorem EstRotAndYawFrom5PointShape_yawInput (env : Env K) (shape5 : Shape K)
    (h5 : shape5.length = 5)
    (hsqrt : ∀ v, 0 ≤ v → env.sqrt v * env.sqrt v = v)
    (hrot : ∀ a, env.cosDeg a * env.cosDeg a + env.sinDeg a * env.sinDeg a = 1)
    (hrange : ∀ y x, -360 ≤ env.PossiblySetRotToZero (env.RadsToDegrees (-env.atan2 y x)) ∧
      env.PossiblySetRotToZero (env.RadsToDegrees (-env.atan2 y x)) ≤ 360)
    (hne : ∃ p ∈ shape5, ∃ q ∈ shape5, p ≠ q) :
    ∃ x, EstRotAndYawFrom5PointShape.yawInput env shape5
          (EstRotAndYawFrom5PointShape.rot env shape5) = .ok x ∧
      EstRotAndYawFrom5PointShape env shape5
        = .ok (EstRotAndYawFrom5PointShape.rot env shape5, EstYawFrom5PointShape x) ∧
      x.length = 10 ∧
      Buf.at x 0 + Buf.at x 2 + Buf.at x 4 + Buf.at x 6 + Buf.at x 8 = 0 ∧
      Buf.at x 1 + Buf.at x 3 + Buf.at x 5 + Buf.at x 7 + Buf.at x 9 = 0 ∧
      (x.map fun v => v * v).sum = 1 := by
  obtain ⟨workshape, hw, hlen, hne'⟩ := derotate_ok env shape5
    (EstRotAndYawFrom5PointShape.rot env shape5) hrot (hrange _ _) hne
  have hw5 : workshape.length = 5 := hlen.trans h5
  have hn5 : (EstRotAndYawFrom5PointShape.normalize env
      (EstRotAndYawFrom5PointShape.center workshape)).length = 5 := by
    simp [EstRotAndYawFrom5PointShape.normalize, center_eq, hw5]
  obtain ⟨hx, hy, hsq⟩ := normalize_center env workshape hw5 hsqrt hne'
  obtain ⟨hl, hbx, hby⟩ := Buf_five_sums _ hn5
  have hin : EstRotAndYawFrom5PointShape.yawInput env shape5
      (EstRotAndYawFrom5PointShape.rot env shape5)
      = .ok (Buf (EstRotAndYawFrom5PointShape.normalize env
          (EstRotAndYawFrom5PointShape.center workshape))) := by
    unfold EstRotAndYawFrom5PointShape.yawInput
    rw [hw]
  refine ⟨_, hin, ?_, hl, hbx.trans hx, hby.trans hy, (sum_sq_Buf _).trans hsq⟩
  unfold EstRotAndYawFrom5PointShape
  rw [if_neg (by simp [h5])]
  simp only [hin]

theorem rot_of_level (env : Env K) (shape5 : Shape K)
    (hatan2 : ∀ x, 0 < x → env.atan2 0 x = 0)
    (hdeg : env.RadsToDegrees 0 = 0)
    (hsnap : env.PossiblySetRotToZero 0 = 0)
    (hlevel : shape5.y 1 = shape5.y 0) (hright : shape5.x 0 < shape5.x 1) :
    EstRotAndYawFrom5PointShape.rot env shape5 = 0 := by
  unfold EstRotAndYawFrom5PointShape.rot
  rw [hlevel, sub_self, hatan2 _ (sub_pos.mpr hright), neg_zero, hdeg, hsnap]

theorem real_atan2_zero (x : ℝ) (hx : 0 < x) : Complex.arg ⟨x, 0⟩ = 0 := by
  have h : (⟨x, 0⟩ : ℂ) = ((x : ℝ) : ℂ) := Complex.ext rfl rfl
  rw [h]
  exact Complex.arg_ofReal_of_nonneg hx.le

theorem real_cos_sin (a : ℝ) :
    Real.cos (a * Real.pi / 180) * Real.cos (a * Real.pi / 180)
      + Real.sin (a * Real.pi / 180) * Real.sin (a * Real.pi / 180) = 1 := by
  have h := Real.cos_sq_add_sin_sq (a * Real.pi / 180)
  rw [pow_two, pow_two] at h
  exact h

theorem real_rot_bound (y x : ℝ) :
    -360 ≤ PossiblySetRotToZero 5 (RadsToDegrees Real.pi (-Complex.arg ⟨x, y⟩)) ∧
    PossiblySetRotToZero 5 (RadsToDegrees Real.pi (-Complex.arg ⟨x, y⟩)) ≤ 360 := by
  have hpi := Real.pi_pos
  have h1 := Complex.neg_pi_lt_arg ⟨x, y⟩
  have h2 := Complex.arg_le_pi ⟨x, y⟩
  have e : RadsToDegrees Real.pi (-Complex.arg ⟨x, y⟩)
      = -(180 * (Complex.arg ⟨x, y⟩ / Real.pi)) := by
    unfold RadsToDegrees; field_simp
  have b1 : Complex.arg ⟨x, y⟩ / Real.pi ≤ 1 := (div_le_one hpi).mpr h2
  have b2 : -1 ≤ Complex.arg ⟨x, y⟩ / Real.pi := by
    rw [le_div_iff₀ hpi]; linarith
  unfold PossiblySetRotToZero
  split
  · constructor <;> norm_num
  · rw [e]; constructor <;> linarith

theorem refEnv_deg_zero (c : Calibration K) : (refEnv c).RadsToDegrees 0 = 0 := by
  simp [refEnv, RadsToDegrees]

theorem refEnv_snap_zero (c : Calibration K) : (refEnv c).PossiblySetRotToZero 0 = 0 := by
  simp [refEnv, PossiblySetRotToZero]

/-- Witness for `EstRotAndYawFrom5PointShape_yawInput`, over the reals: the
five canonical points of an upright frontal face. -/
theorem EstRotAndYawFrom5PointShape_yawInput_witness :
    ∃ x, EstRotAndYawFrom5PointShape
          (refEnv (Calibration.standard (fun y x => Complex.arg ⟨x, y⟩) Real.sqrt
            (fun a => Real.cos (a * Real.pi / 180)) (fun a => Real.sin (a * Real.pi / 180))
            Real.pi))
          [(28, 40), (72, 40), (50, 55), (38, 70), (62, 70)]
        = .ok (0, EstYawFrom5PointShape x) ∧
      x.length = 10 ∧
      Buf.at x 0 + Buf.at x 2 + Buf.at x 4 + Buf.at x 6 + Buf.at x 8 = 0 ∧
      Buf.at x 1 + Buf.at x 3 + Buf.at x 5 + Buf.at x 7 + Buf.at x 9 = 0 ∧
      (x.map fun v => v * v).sum = 1 := by
  have hrot0 : EstRotAndYawFrom5PointShape.rot
      (refEnv (Calibration.standard (fun y x => Complex.arg ⟨x, y⟩) Real.sqrt
        (fun a => Real.cos (a * Real.pi / 180)) (fun a => Real.sin (a * Real.pi / 180))
        Real.pi))
      [(28, 40), (72, 40), (50, 55), (38, 70), (62, 70)] = 0 :=
    rot_of_level _ _ (fun x hx => real_atan2_zero x hx) (refEnv_deg_zero _)
      (refEnv_snap_zero _) (by simp [Shape.y]) (by simp [Shape.x]; norm_num)
  obtain ⟨x, -, h, hl, hx, hy, hsq⟩ := EstRotAndYawFrom5PointShape_yawInput
    (refEnv (Calibration.standard (fun y x => Complex.arg ⟨x, y⟩) Real.sqrt
      (fun a => Real.cos (a * Real.pi / 180)) (fun a => Real.sin (a * Real.pi / 180))
      Real.pi))
    [(28, 40), (72, 40), (50, 55), (38, 70), (62, 70)] rfl
    (fun v hv => Real.mul_self_sqrt hv) real_cos_sin
    (fun y x => real_rot_bound y x)
    ⟨(28, 40), by simp, (72, 40), by simp, by simp⟩
  rw [hrot0] at h
  exact ⟨x, h, hl, hx, hy, hsq⟩

set_option maxRecDepth 100000 in
/-- C8 fails as stated: for the five points `(20, 40), (70, 40), (35, 55),
(40, 70), (60, 70)`, whose eye corners are level so that `rot` is 0 and the
shape is not rotated, lines 78 to 87 in double arithmetic pass the doubles
nearest to `-0.5, -0.3, 0.5, -0.3, -0.2, 0, -0.1, 0.3, 0.3, 0.3` to the yaw
regression.  Their five x values do not sum to 0 and the squares of the 10
values do not sum to 1, neither added exactly nor added in double arithmetic
(which gives `0.9999999999999999`).  The centred points, `norm = 2500` and
`sqrt(norm) = 50` are exact at this input, whatever the order of addition, and
the 10 values are the same when line 85 multiplies by the rounded reciprocal
of `sqrt(norm)` instead of dividing. -/
theorem EstRotAndYawFrom5PointShape_yawInput_double :
    EstRotAndYawFrom5PointShape.center.double
        [(20, 40), (70, 40), (35, 55), (40, 70), (60, 70)]
      = [(-25, -15), (25, -15), (-10, 0), (-5, 15), (15, 15)] ∧
    EstRotAndYawFrom5PointShape.norm.double
        [(-25, -15), (25, -15), (-10, 0), (-5, 15), (15, 15)] = 2500 ∧
    Double.sqrt 2500 = 50 ∧
    EstRotAndYawFrom5PointShape.yawInput.double
        [(20, 40), (70, 40), (35, 55), (40, 70), (60, 70)]
      = [{ m := -4503599627370496, e := -53 }, { m := -5404319552844595, e := -54 },
         { m := 4503599627370496, e := -53 }, { m := -5404319552844595, e := -54 },
         { m := -7205759403792794, e := -55 }, { m := 0, e := 0 },
         { m := -7205759403792794, e := -56 }, { m := 5404319552844595, e := -54 },
         { m := 5404319552844595, e := -54 }, { m := 5404319552844595, e := -54 }] ∧
    Double.toRat (Buf.at.double (EstRotAndYawFrom5PointShape.yawInput.double
        [(20, 40), (70, 40), (35, 55), (40, 70), (60, 70)]) 0)
      + Double.toRat (Buf.at.double (EstRotAndYawFrom5PointShape.yawInput.double
        [(20, 40), (70, 40), (35, 55), (40, 70), (60, 70)]) 2)
      + Double.toRat (Buf.at.double (EstRotAndYawFrom5PointShape.yawInput.double
        [(20, 40), (70, 40), (35, 55), (40, 70), (60, 70)]) 4)
      + Double.toRat (Buf.at.double (EstRotAndYawFrom5PointShape.yawInput.double
        [(20, 40), (70, 40), (35, 55), (40, 70), (60, 70)]) 6)
      + Double.toRat (Buf.at.double (EstRotAndYawFrom5PointShape.yawInput.double
        [(20, 40), (70, 40), (35, 55), (40, 70), (60, 70)]) 8) ≠ 0 ∧
    ((EstRotAndYawFrom5PointShape.yawInput.double
        [(20, 40), (70, 40), (35, 55), (40, 70), (60, 70)]).map
      fun v => Double.toRat v * Double.toRat v).sum ≠ 1 ∧
    (EstRotAndYawFrom5PointShape.yawInput.double
        [(20, 40), (70, 40), (35, 55), (40, 70), (60, 70)]).foldl
      (fun sum v => sum + v * v) 0 = { m := 9007199254740991, e := -53 } ∧
    Buf.double ((EstRotAndYawFrom5PointShape.center.double
        [(20, 40), (70, 40), (35, 55), (40, 70), (60, 70)]).map fun p =>
      (p.1 * (1 / Double.sqrt (EstRotAndYawFrom5PointShape.norm.double
          (EstRotAndYawFrom5PointShape.center.double
            [(20, 40), (70, 40), (35, 55), (40, 70), (60, 70)]))),
        p.2 * (1 / Double.sqrt (EstRotAndYawFrom5PointShape.norm.double
          (EstRotAndYawFrom5PointShape.center.double
            [(20, 40), (70, 40), (35, 55), (40, 70), (60, 70)])))))
      = EstRotAndYawFrom5PointShape.yawInput.double
        [(20, 40), (70, 40), (35, 55), (40, 70), (60, 70)] := by
  have h : EstRotAndYawFrom5PointShape.yawInput.double
      [(20, 40), (70, 40), (35, 55), (40, 70), (60, 70)]
      = [{ m := -4503599627370496, e := -53 }, { m := -5404319552844595, e := -54 },
         { m := 4503599627370496, e := -53 }, { m := -5404319552844595, e := -54 },
         { m := -7205759403792794, e := -55 }, { m := 0, e := 0 },
         { m := -7205759403792794, e := -56 }, { m := 5404319552844595, e := -54 },
         { m := 5404319552844595, e := -54 }, { m := 5404319552844595, e := -54 }] := by
    decide
  refine ⟨by decide, by decide, by decide, h, ?_, ?_, by decide, by decide⟩
  · rw [h]
    simp only [Buf.at.double, List.getD_cons_succ, List.getD_cons_zero, Double.toRat]
    norm_num
  · rw [h]
    simp only [List.map_cons, List.map_nil, List.sum_cons, List.sum_nil, Double.toRat]
    norm_num

theorem EstRotAndYawFrom5PointShape_level (env : Env K) (shape5 : Shape K)
    (h5 : shape5.length = 5)
    (hatan2 : ∀ x, 0 < x → env.atan2 0 x = 0)
    (hdeg : env.RadsToDegrees 0 = 0)
    (hsnap : env.PossiblySetRotToZero 0 = 0)
    (hlevel : shape5.y 1 = shape5.y 0) (hright : shape5.x 0 < shape5.x 1) :
    EstRotAndYawFrom5PointShape env shape5
      = .ok (0, EstYawFrom5PointShape (Buf (EstRotAndYawFrom5PointShape.normalize env
          (EstRotAndYawFrom5PointShape.center shape5)))) := by
  have h0 := rot_of_level env shape5 hatan2 hdeg hsnap hlevel hright
  unfold EstRotAndYawFrom5PointShape
  rw [if_neg (by simp [h5])]
  simp [h0, EstRotAndYawFrom5PointShape.yawInput, EstRotAndYawFrom5PointShape.derotate]

/-! ## C9 -/

/-- C9: `EstRotAndYawFrom5PointShape` reports as `rot` minus the `atan2` angle of
the vector from LEyeOuter to REyeOuter, converted to degrees and passed through
`PossiblySetRotToZero`; when the two outer eye corners are level and REyeOuter
lies to the right of LEyeOuter, it returns `rot = 0` exactly and the yaw of the
centred, normalised points of `shape5`, not rotated. -/
theorem EstRotAndYawFrom5PointShape_rot (env : Env K) (shape5 : Shape K)
    (h5 : shape5.length = 5)
    (hatan2 : ∀ x, 0 < x → env.atan2 0 x = 0)
    (hdeg : env.RadsToDegrees 0 = 0)
    (hsnap : env.PossiblySetRotToZero 0 = 0) :
    (EstRotAndYawFrom5PointShape env shape5 =
      match EstRotAndYawFrom5PointShape.yawInput env shape5
        (env.PossiblySetRotToZero (env.RadsToDegrees
          (-env.atan2 (shape5.y 1 - shape5.y 0) (shape5.x 1 - shape5.x 0)))) with
      | .error e => .error e
      | .ok x =>
        .ok (env.PossiblySetRotToZero (env.RadsToDegrees
              (-env.atan2 (shape5.y 1 - shape5.y 0) (shape5.x 1 - shape5.x 0))),
            EstYawFrom5PointShape x)) ∧
    (shape5.y 1 = shape5.y 0 → shape5.x 0 < shape5.x 1 →
      EstRotAndYawFrom5PointShape env shape5
        = .ok (0, EstYawFrom5PointShape (Buf (EstRotAndYawFrom5PointShape.normalize env
            (EstRotAndYawFrom5PointShape.center shape5))))) := by
  constructor
  · unfold EstRotAndYawFrom5PointShape
    rw [if_neg (by simp [h5])]
    simp only [EstRotAndYawFrom5PointShape.rot]
  · intro hlevel hright
    exact EstRotAndYawFrom5PointShape_level env shape5 h5 hatan2 hdeg hsnap hlevel hright

/-- Witness for `EstRotAndYawFrom5PointShape_rot`, over the reals: level eye
corners. -/
theorem EstRotAndYawFrom5PointShape_rot_witness :
    EstRotAndYawFrom5PointShape
        (refEnv (Calibration.standard (fun y x => Complex.arg ⟨x, y⟩) Real.sqrt
          (fun a => Real.cos (a * Real.pi / 180)) (fun a => Real.sin (a * Real.pi / 180))
          Real.pi))
        [(28, 40), (72, 40), (50, 55), (38, 70), (62, 70)]
      = .ok (0, EstYawFrom5PointShape (Buf (EstRotAndYawFrom5PointShape.normalize
          (refEnv (Calibration.standard (fun y x => Complex.arg ⟨x, y⟩) Real.sqrt
            (fun a => Real.cos (a * Real.pi / 180)) (fun a => Real.sin (a * Real.pi / 180))
            Real.pi))
          (EstRotAndYawFrom5PointShape.center
            [(28, 40), (72, 40), (50, 55), (38, 70), (62, 70)])))) :=
  (EstRotAndYawFrom5PointShape_rot
    (refEnv (Calibration.standard (fun y x => Complex.arg ⟨x, y⟩) Real.sqrt
      (fun a => Real.cos (a * Real.pi / 180)) (fun a => Real.sin (a * Real.pi / 180))
      Real.pi))
    [(28, 40), (72, 40), (50, 55), (38, 70), (62, 70)] rfl
    (fun x hx => real_atan2_zero x hx) (refEnv_deg_zero _) (refEnv_snap_zero _)).2
    (by simp [Shape.y]) (by simp [Shape.x]; norm_num)

/-! ## C10 -/

/-- C10 fails on the code: after a call of `PinnedStartShapeAndRoi` that
reaches the test of `IsLeftFacing` with a left-facing pose, the pixel buffer of
the caller's `img`, which `workimg` refers to as well, holds the mirror image
of what it held before the call. -/
theorem PinnedStartShapeAndRoi_flips_img (env : Env K) (heap : Heap) (img : Image)
    (mods : List (Mod K)) (pinned : Shape K) (mod0 : Mod K) (shape5 : Shape K) (rot yaw : K)
    (hmods : mods.get? 0 = some mod0)
    (h5 : Shape5 env pinned mod0.MeanShape_ = .ok shape5)
    (hest : EstRotAndYawFrom5PointShape env shape5 = .ok (rot, yaw))
    (hleft : env.IsLeftFacing (env.DegreesAsEyaw yaw mods.length) = true) :
    (PinnedStartShapeAndRoi env heap img mods pinned).2 img.data
      = (heap img.data).map List.reverse := by
  unfold PinnedStartShapeAndRoi
  simp only [hmods, h5, hest, hleft, if_true]
  simp [FlipImgInPlace]

/-- The pixel buffers are as before the call when the pose is not
left-facing. -/
theorem PinnedStartShapeAndRoi_keeps_img (env : Env K) (heap : Heap) (img : Image)
    (mods : List (Mod K)) (pinned : Shape K) (mod0 : Mod K) (shape5 : Shape K) (rot yaw : K)
    (hmods : mods.get? 0 = some mod0)
    (h5 : Shape5 env pinned mod0.MeanShape_ = .ok shape5)
    (hest : EstRotAndYawFrom5PointShape env shape5 = .ok (rot, yaw))
    (hright : env.IsLeftFacing (env.DegreesAsEyaw yaw mods.length) = false) :
    (PinnedStartShapeAndRoi env heap img mods pinned).2 = heap := by
  unfold PinnedStartShapeAndRoi
  simp only [hmods, h5, hest, hright, Bool.false_eq_true, if_false]

theorem example_yawInput :
    Buf (EstRotAndYawFrom5PointShape.normalize
        (refEnv (Calibration.standard (fun y x => Complex.arg ⟨x, y⟩) Real.sqrt
          (fun a => Real.cos (a * Real.pi / 180)) (fun a => Real.sin (a * Real.pi / 180))
          Real.pi))
        (EstRotAndYawFrom5PointShape.center [(20, 40), (70, 40), (35, 55), (40, 70), (60, 70)]))
      = [-1 / 2, -3 / 10, 1 / 2, -3 / 10, -1 / 5, 0, -1 / 10, 3 / 10, 3 / 10, 3 / 10] := by
  have hs : Real.sqrt 2500 = 50 := by
    rw [show (2500 : ℝ) = 50 ^ 2 by norm_num]
    exact Real.sqrt_sq (by norm_num)
  have hc : EstRotAndYawFrom5PointShape.center
      ([(20, 40), (70, 40), (35, 55), (40, 70), (60, 70)] : Shape ℝ)
      = [(-25, -15), (25, -15), (-10, 0), (-5, 15), (15, 15)] := by
    simp [center_eq, SumElemsX, SumElemsY]
    norm_num
  have hn : EstRotAndYawFrom5PointShape.norm
      ([(-25, -15), (25, -15), (-10, 0), (-5, 15), (15, 15)] : Shape ℝ) = 2500 := by
    rw [norm_eq_sum ([(-25, -15), (25, -15), (-10, 0), (-5, 15), (15, 15)] : Shape ℝ) rfl]
    simp
    norm_num
  rw [hc]
  simp only [EstRotAndYawFrom5PointShape.normalize, hn, refEnv, Calibration.standard, hs, Buf,
    List.map_cons, List.map_nil, List.flatMap_cons, List.flatMap_nil, List.cons_append,
    List.nil_append, List.append_nil]
  norm_num

theorem example_yaw_lt :
    EstYawFrom5PointShape
      ([-1 / 2, -3 / 10, 1 / 2, -3 / 10, -1 / 5, 0, -1 / 10, 3 / 10, 3 / 10, 3 / 10] : List ℝ)
      < -14 := by
  simp only [EstYawFrom5PointShape, Buf.at, List.getD_cons_succ, List.getD_cons_zero]
  norm_num [max_def]

theorem DegreesAsEyaw_left (bound1 bound2 yaw : K) (nmods : Int) (hn : nmods ≠ 1)
    (hyaw : yaw < -bound1) :
    IsLeftFacing (DegreesAsEyaw bound1 bound2 yaw nmods) = true := by
  unfold DegreesAsEyaw IsLeftFacing
  rw [if_neg hn]
  split_ifs <;> simp

theorem example_Shape5 :
    Shape5
        (refEnv (Calibration.standard (fun y x => Complex.arg ⟨x, y⟩) Real.sqrt
          (fun a => Real.cos (a * Real.pi / 180)) (fun a => Real.sin (a * Real.pi / 180))
          Real.pi))
        examplePinnedLeft17 exampleMeanShape17
      = .ok [(20, 40), (70, 40), (35, 55), (40, 70), (60, 70)] := by
  have h17 : (refEnv (Calibration.standard (fun y x => Complex.arg ⟨x, y⟩) Real.sqrt
      (fun a => Real.cos (a * Real.pi / 180)) (fun a => Real.sin (a * Real.pi / 180))
      Real.pi)).Shape17 examplePinnedLeft17 = examplePinnedLeft17 :=
    Shape17_of_length_17 (examplePinnedLeft17 : Shape ℝ) (by simp [examplePinnedLeft17])
  have e := Shape5_of_have5
    (refEnv (Calibration.standard (fun y x => Complex.arg ⟨x, y⟩) Real.sqrt
      (fun a => Real.cos (a * Real.pi / 180)) (fun a => Real.sin (a * Real.pi / 180))
      Real.pi))
    examplePinnedLeft17 exampleMeanShape17
  rw [h17] at e
  rw [e (by simp [examplePinnedLeft17])
    (by simp [PointUsedAt, refEnv, PointUsed, examplePinnedLeft17, Shape.x, Shape.y])]
  simp [refEnv, examplePinnedLeft17, Shape.x, Shape.y]

/-- Witness for `PinnedStartShapeAndRoi_flips_img`, over the reals: the five
canonical points of a face turned to the left are pinned in a 100 by 100
image, and the call leaves the mirror image in the caller's buffer. -/
theorem PinnedStartShapeAndRoi_flips_img_witness :
    (PinnedStartShapeAndRoi
        (refEnv (Calibration.standard (fun y x => Complex.arg ⟨x, y⟩) Real.sqrt
          (fun a => Real.cos (a * Real.pi / 180)) (fun a => Real.sin (a * Real.pi / 180))
          Real.pi))
        exampleHeap exampleImage
        [refMod exampleMeanShape17, refMod exampleMeanShape17, refMod exampleMeanShape17]
        examplePinnedLeft17).2 exampleImage.data
      = List.replicate 100 (List.range 100).reverse ∧
    List.replicate 100 (List.range 100).reverse ≠ exampleHeap exampleImage.data := by
  constructor
  · rw [PinnedStartShapeAndRoi_flips_img
      (refEnv (Calibration.standard (fun y x => Complex.arg ⟨x, y⟩) Real.sqrt
        (fun a => Real.cos (a * Real.pi / 180)) (fun a => Real.sin (a * Real.pi / 180))
        Real.pi))
      exampleHeap exampleImage
      [refMod exampleMeanShape17, refMod exampleMeanShape17, refMod exampleMeanShape17]
      examplePinnedLeft17 (refMod exampleMeanShape17)
      [(20, 40), (70, 40), (35, 55), (40, 70), (60, 70)] 0
      (EstYawFrom5PointShape
        [-1 / 2, -3 / 10, 1 / 2, -3 / 10, -1 / 5, 0, -1 / 10, 3 / 10, 3 / 10, 3 / 10])
      rfl example_Shape5
      (by
        rw [EstRotAndYawFrom5PointShape_level _
          ([(20, 40), (70, 40), (35, 55), (40, 70), (60, 70)] : Shape ℝ) rfl
          (fun x hx => real_atan2_zero x hx)
          (refEnv_deg_zero _) (refEnv_snap_zero _) (by simp [Shape.y])
          (by simp [Shape.x]; norm_num), example_yawInput])
      (by
        simp only [refEnv, Calibration.standard]
        exact DegreesAsEyaw_left _ _ _ _ (by decide) (by simpa using example_yaw_lt))]
    simp [exampleHeap]
  · intro h
    have h0 := congrArg (fun l => (l.headD []).headD 0) h
    simp [exampleHeap, List.replicate, List.range_succ] at h0

/-! ## C14 -/

theorem EstRotAndYawFrom5PointShape_assert (env : Env K) (shape5 : Shape K)
    (h : shape5.length ≠ 5) :
    EstRotAndYawFrom5PointShape env shape5 = .error (.assertion "shape5.rows == 5") := by
  unfold EstRotAndYawFrom5PointShape
  rw [if_pos h]

/-- C14 fails as stated: for a shape of 4 points `EstRotAndYawFrom5PointShape`
stops at the failed assertion `shape5.rows == 5`; it does not return a `rot`
and a `yaw` of 0. -/
theorem EstRotAndYawFrom5PointShape_four_points :
    EstRotAndYawFrom5PointShape (refEnv evalCalibration)
        [(28, 40), (72, 40), (50, 55), (38, 70)]
      = .error (.assertion "shape5.rows == 5") ∧
    EstRotAndYawFrom5PointShape (refEnv evalCalibration)
        [(28, 40), (72, 40), (50, 55), (38, 70)]
      ≠ .ok (0, 0) := by
  have h := EstRotAndYawFrom5PointShape_assert (refEnv evalCalibration)
    [(28, 40), (72, 40), (50, 55), (38, 70)] (by simp)
  exact ⟨h, by rw [h]; simp⟩

/-- A shape returned by `Shape5` has 5 rows (`Shape shape5(5, 2)`, line 166). -/
theorem Shape5_rows (env : Env K) (pinned meanshape shape5 : Shape K)
    (h : Shape5 env pinned meanshape = .ok shape5) : shape5.length = 5 := by
  unfold Shape5 at h
  cases hc : HaveCanonical5Points env (env.Shape17 pinned) with
  | error e => simp [hc] at h
  | ok have5 =>
    simp only [hc] at h
    cases have5 with
    | false =>
      simp only [Bool.not_false, if_true] at h
      cases hp : PinMeanShape env (env.Shape17 pinned) (env.Shape17 meanshape) with
      | error e => simp [hp] at h
      | ok newpinned17 =>
        simp only [hp, CopyPoint_five] at h
        cases h
        rfl
    | true =>
      simp only [Bool.not_true, Bool.false_eq_true, if_false, CopyPoint_five] at h
      cases h
      rfl

theorem PinMeanShape_not_rows_assertion (env : Env K) (pinned meanshape : Shape K) :
    PinMeanShape env pinned meanshape ≠ .error (.assertion "shape5.rows == 5") := by
  intro h
  unfold PinMeanShape at h
  simp only [] at h
  split_ifs at h
  all_goals simp at h

theorem Shape5_not_rows_assertion (env : Env K) (pinned meanshape : Shape K) :
    Shape5 env pinned meanshape ≠ .error (.assertion "shape5.rows == 5") := by
  intro h
  unfold Shape5 at h
  cases hc : HaveCanonical5Points env (env.Shape17 pinned) with
  | error e =>
    unfold HaveCanonical5Points at hc
    split_ifs at hc
    · cases hc
      simp [HaveCanonical5Points, *] at h
  | ok have5 =>
    simp only [hc] at h
    cases have5 with
    | false =>
      simp only [Bool.not_false, if_true] at h
      cases hp : PinMeanShape env (env.Shape17 pinned) (env.Shape17 meanshape) with
      | error e =>
        rw [hp] at h
        simp only [Except.error.injEq] at h
        exact PinMeanShape_not_rows_assertion env _ _ (hp.trans (congrArg Except.error h))
      | ok newpinned17 => simp [hp] at h
    | true => simp at h

theorem PseudoDetParFromStartShape_not_rows_assertion (env : Env K) (startshape : Shape K)
    (rot yaw : K) (nmods : Int) :
    PseudoDetParFromStartShape env startshape rot yaw nmods
      ≠ .error (.assertion "shape5.rows == 5") := by
  unfold PseudoDetParFromStartShape
  intro h
  simp only [] at h
  split_ifs at h <;> simp at h

theorem finish_not_rows_assertion (env : Env K) (heap : Heap) (img workimg : Image)
    (mods : List (Mod K)) (pinned_roi : Shape K) (rot yaw : K) (eyaw imod : Int) :
    PinnedStartShapeAndRoi.finish env heap img workimg mods pinned_roi rot yaw eyaw imod
      ≠ .error (.assertion "shape5.rows == 5") := by
  unfold PinnedStartShapeAndRoi.finish
  intro h
  cases hm : mods.get? imod.natAbs with
  | none =>
    simp only [hm] at h
    simp at h
  | some mod =>
    simp only [hm] at h
    cases hp : PinMeanShape env pinned_roi mod.MeanShape_ with
    | error e =>
      rw [hp] at h
      simp only [Except.error.injEq] at h
      exact PinMeanShape_not_rows_assertion env _ _ (hp.trans (congrArg Except.error h))
    | ok startshape =>
      simp only [hp] at h
      cases hd : PseudoDetParFromStartShape env
          (mod.ConformShapeToMod_Pinned_ startshape pinned_roi) rot yaw mods.length with
      | error e =>
        rw [hd] at h
        simp only [Except.error.injEq] at h
        exact PseudoDetParFromStartShape_not_rows_assertion env _ _ _ _
          (hd.trans (congrArg Except.error h))
      | ok detpar =>
        simp only [hd] at h
        split_ifs at h

theorem EstRotAndYawFrom5PointShape_not_rows_assertion (env : Env K) (shape5 : Shape K)
    (h5 : shape5.length = 5) :
    EstRotAndYawFrom5PointShape env shape5 ≠ .error (.assertion "shape5.rows == 5") := by
  unfold EstRotAndYawFrom5PointShape
  rw [if_neg (by simp [h5])]
  unfold EstRotAndYawFrom5PointShape.yawInput EstRotAndYawFrom5PointShape.derotate
    RotShapeInPlace
  intro h
  simp only [] at h
  split_ifs at h
  simp at h

/-- C14, as amended: when `shape5` does not have 5 points,
`EstRotAndYawFrom5PointShape` fails the assertion `shape5.rows == 5` and returns
no `rot` and `yaw`.  The shape that `PinnedStartShapeAndRoi`, its only caller,
passes to it is a result of `Shape5`, which always has 5 points, so that no
call of `PinnedStartShapeAndRoi` fails this assertion. -/
theorem EstRotAndYawFrom5PointShape_rows (env : Env K) (shape5 : Shape K)
    (h : shape5.length ≠ 5) :
    EstRotAndYawFrom5PointShape env shape5 = .error (.assertion "shape5.rows == 5") ∧
    (∀ rot yaw, EstRotAndYawFrom5PointShape env shape5 ≠ .ok (rot, yaw)) ∧
    (∀ pinned meanshape s, Shape5 env pinned meanshape = .ok s → s.length = 5) ∧
    (∀ heap img mods pinned, (PinnedStartShapeAndRoi env heap img mods pinned).1
      ≠ .error (.assertion "shape5.rows == 5")) := by
  have ha := EstRotAndYawFrom5PointShape_assert env shape5 h
  refine ⟨ha, fun rot yaw => by rw [ha]; simp,
    fun pinned meanshape s hs => Shape5_rows env pinned meanshape s hs, ?_⟩
  intro heap img mods pinned
  unfold PinnedStartShapeAndRoi
  cases hm : mods.get? 0 with
  | none => simp
  | some mod0 =>
    simp only []
    cases hs : Shape5 env pinned mod0.MeanShape_ with
    | error e =>
      simp only [Except.error.injEq, ne_eq]
      intro he
      exact Shape5_not_rows_assertion env _ _ (hs.trans (congrArg Except.error he))
    | ok s =>
      simp only []
      have h5 := Shape5_rows env pinned mod0.MeanShape_ s hs
      cases he : EstRotAndYawFrom5PointShape env s with
      | error e =>
        simp only [Except.error.injEq, ne_eq]
        intro hee
        exact EstRotAndYawFrom5PointShape_not_rows_assertion env s h5
          (he.trans (congrArg Except.error hee))
      | ok ry =>
        simp only []
        split_ifs <;> exact finish_not_rows_assertion env _ _ _ _ _ _ _ _ _

/-- Witness for `EstRotAndYawFrom5PointShape_rows`: a shape of 6 points. -/
theorem EstRotAndYawFrom5PointShape_rows_witness :
    EstRotAndYawFrom5PointShape (refEnv evalCalibration)
        [(28, 40), (72, 40), (50, 55), (38, 70), (62, 70), (50, 90)]
      = .error (.assertion "shape5.rows == 5") :=
  (EstRotAndYawFrom5PointShape_rows (refEnv evalCalibration)
    [(28, 40), (72, 40), (50, 55), (38, 70), (62, 70), (50, 90)] (by simp)).1

/-! ## C15 -/

/-- C15: `InitDetParEyeMouthFromShape` sets `(lex, ley)`, `(rex, rey)` and
`(mouthx, mouthy)` to the coordinates of the canonical left pupil, right pupil
and bottom-of-bottom-lip point when that point is used, leaves the pair at its
previous value when the point is unused, and leaves `x`, `y`, `width`,
`height`, `rot`, `yaw` and `eyaw` unchanged. -/
theorem InitDetParEyeMouthFromShape_fields (env : Env K) (detpar : DetectorParameter K)
    (shape : Shape K) :
    ((InitDetParEyeMouthFromShape env detpar shape).lex,
        (InitDetParEyeMouthFromShape env detpar shape).ley)
      = (if PointUsedAt env (env.Shape17 shape) env.L17_LPupil = true
          then ((env.Shape17 shape).x env.L17_LPupil, (env.Shape17 shape).y env.L17_LPupil)
          else (detpar.lex, detpar.ley)) ∧
    ((InitDetParEyeMouthFromShape env detpar shape).rex,
        (InitDetParEyeMouthFromShape env detpar shape).rey)
      = (if PointUsedAt env (env.Shape17 shape) env.L17_RPupil = true
          then ((env.Shape17 shape).x env.L17_RPupil, (env.Shape17 shape).y env.L17_RPupil)
          else (detpar.rex, detpar.rey)) ∧
    ((InitDetParEyeMouthFromShape env detpar shape).mouthx,
        (InitDetParEyeMouthFromShape env detpar shape).mouthy)
      = (if PointUsedAt env (env.Shape17 shape) env.L17_CBotOfBotLip = true
          then ((env.Shape17 shape).x env.L17_CBotOfBotLip,
            (env.Shape17 shape).y env.L17_CBotOfBotLip)
          else (detpar.mouthx, detpar.mouthy)) ∧
    (InitDetParEyeMouthFromShape env detpar shape).x = detpar.x ∧
    (InitDetParEyeMouthFromShape env detpar shape).y = detpar.y ∧
    (InitDetParEyeMouthFromShape env detpar shape).width = detpar.width ∧
    (InitDetParEyeMouthFromShape env detpar shape).height = detpar.height ∧
    (InitDetParEyeMouthFromShape env detpar shape).rot = detpar.rot ∧
    (InitDetParEyeMouthFromShape env detpar shape).yaw = detpar.yaw ∧
    (InitDetParEyeMouthFromShape env detpar shape).eyaw = detpar.eyaw := by
  cases h1 : PointUsedAt env (env.Shape17 shape) env.L17_LPupil <;>
    cases h2 : PointUsedAt env (env.Shape17 shape) env.L17_RPupil <;>
    cases h3 : PointUsedAt env (env.Shape17 shape) env.L17_CBotOfBotLip <;>
    simp [InitDetParEyeMouthFromShape, h1, h2, h3]

/-! ## C18 -/

theorem hinge_pair_strict (a b t : K) (hab : a < b) :
    116.29 * max 0 (a - t) - 159.56 * max 0 (t - a)
      < 116.29 * max 0 (b - t) - 159.56 * max 0 (t - b) := by
  rcases le_total a t with hat | hat <;> rcases le_total b t with hbt | hbt
  · rw [max_eq_left (sub_nonpos.mpr hat), max_eq_right (sub_nonneg.mpr hat),
      max_eq_left (sub_nonpos.mpr hbt), max_eq_right (sub_nonneg.mpr hbt)]
    norm_num
    linarith
  · rw [max_eq_left (sub_nonpos.mpr hat), max_eq_right (sub_nonneg.mpr hat),
      max_eq_right (sub_nonneg.mpr hbt), max_eq_left (sub_nonpos.mpr hbt)]
    norm_num
    linarith
  · have : b = t := le_antisymm hbt (le_trans hat hab.le)
    have : a = t := le_antisymm (le_trans hab.le hbt) hat
    linarith
  · rw [max_eq_right (sub_nonneg.mpr hat), max_eq_left (sub_nonpos.mpr hat),
      max_eq_right (sub_nonneg.mpr hbt), max_eq_left (sub_nonpos.mpr hbt)]
    norm_num
    linarith

/-- C18, as amended: `EstYawFrom5PointShape` depends only on the elements 3,
4, 5 and 7 of its input, in exact arithmetic and in double arithmetic alike,
and, computed over the reals (in exact arithmetic, over any ordered field), is
strictly increasing in element 4: of two inputs that agree in the elements 3,
5 and 7, the one with the larger element 4 yields the strictly larger yaw. -/
theorem EstYawFrom5PointShape_x4 (x x' : List K)
    (h3 : Buf.at x 3 = Buf.at x' 3) (h5 : Buf.at x 5 = Buf.at x' 5)
    (h7 : Buf.at x 7 = Buf.at x' 7) :
    (Buf.at x 4 = Buf.at x' 4 → EstYawFrom5PointShape x = EstYawFrom5PointShape x') ∧
    (Buf.at x 4 < Buf.at x' 4 → EstYawFrom5PointShape x < EstYawFrom5PointShape x') ∧
    (∀ d d' : List Double, Buf.at.double d 3 = Buf.at.double d' 3 →
      Buf.at.double d 4 = Buf.at.double d' 4 → Buf.at.double d 5 = Buf.at.double d' 5 →
      Buf.at.double d 7 = Buf.at.double d' 7 →
      EstYawFrom5PointShape.double d = EstYawFrom5PointShape.double d') := by
  refine ⟨?_, ?_, ?_⟩
  · intro h4
    simp only [EstYawFrom5PointShape, h3, h4, h5, h7]
  · intro h4
    have key := hinge_pair_strict (Buf.at x 4) (Buf.at x' 4) 0.21454 h4
    simp only [EstYawFrom5PointShape, h3, h5, h7]
    linarith
  · intro d d' g3 g4 g5 g7
    simp only [EstYawFrom5PointShape.double, g3, g4, g5, g7]

/-- Witness for `EstYawFrom5PointShape_x4`: two inputs that differ in element
4 only. -/
theorem EstYawFrom5PointShape_x4_witness :
    EstYawFrom5PointShape
        ([-1 / 2, -3 / 10, 1 / 2, -3 / 10, -1 / 5, 0, -1 / 10, 3 / 10, 3 / 10, 3 / 10] : List ℚ)
      < EstYawFrom5PointShape
        [-1 / 2, -3 / 10, 1 / 2, -3 / 10, 1 / 5, 0, -1 / 10, 3 / 10, 3 / 10, 3 / 10] :=
  (EstYawFrom5PointShape_x4
    ([-1 / 2, -3 / 10, 1 / 2, -3 / 10, -1 / 5, 0, -1 / 10, 3 / 10, 3 / 10, 3 / 10] : List ℚ)
    [-1 / 2, -3 / 10, 1 / 2, -3 / 10, 1 / 5, 0, -1 / 10, 3 / 10, 3 / 10, 3 / 10]
    rfl rfl rfl).2.1 (by simp [Buf.at]; norm_num)

set_option maxRecDepth 100000 in
/-- C18 fails as stated: in the double arithmetic of the source the inputs
`(0, 0, 0, -0.3, 0.3, 0, 0, 0.3, 0, 0)` and the same with element 4 replaced by
the next larger double agree everywhere except in element 4, and
`EstYawFrom5PointShape` returns the same yaw `44.3614773498256` for both: the
larger element 4 does not yield a strictly larger yaw. -/
theorem EstYawFrom5PointShape_double_not_strict :
    (0.3 : Double) = { m := 5404319552844595, e := -54 } ∧
    Double.toRat { m := 5404319552844595, e := -54 }
      < Double.toRat { m := 5404319552844596, e := -54 } ∧
    EstYawFrom5PointShape.double
        [0, 0, 0, -0.3, { m := 5404319552844595, e := -54 }, 0, 0, 0.3, 0, 0]
      = { m := 6243322901946227, e := -47 } ∧
    EstYawFrom5PointShape.double
        [0, 0, 0, -0.3, { m := 5404319552844596, e := -54 }, 0, 0, 0.3, 0, 0]
      = { m := 6243322901946227, e := -47 } ∧
    ¬ Double.toRat (EstYawFrom5PointShape.double
          [0, 0, 0, -0.3, { m := 5404319552844595, e := -54 }, 0, 0, 0.3, 0, 0])
        < Double.toRat (EstYawFrom5PointShape.double
          [0, 0, 0, -0.3, { m := 5404319552844596, e := -54 }, 0, 0, 0.3, 0, 0]) := by
  have h1 : EstYawFrom5PointShape.double
      [0, 0, 0, -0.3, { m := 5404319552844595, e := -54 }, 0, 0, 0.3, 0, 0]
      = { m := 6243322901946227, e := -47 } := by decide
  have h2 : EstYawFrom5PointShape.double
      [0, 0, 0, -0.3, { m := 5404319552844596, e := -54 }, 0, 0, 0.3, 0, 0]
      = { m := 6243322901946227, e := -47 } := by decide
  refine ⟨by decide, ?_, h1, h2, ?_⟩
  · simp only [Double.toRat]
    norm_num
  · rw [h1, h2]
    exact lt_irrefl _

/-! ## C16 -/

theorem PinMeanShape_no_index_assertion (env : Env K) (pinned meanshape : Shape K)
    (hrows : pinned.length = meanshape.length) :
    PinMeanShape env pinned meanshape ≠ .error (.assertion "i == nused") := by
  by_cases hfew : pinned.countP (fun p => env.PointUsed p.1 p.2) < 2
  · rw [PinMeanShape_err_of_few env pinned meanshape hrows hfew]
    simp
  · rw [PinMeanShape_eq env pinned meanshape hrows (by omega)]
    simp

/-- C16: in `PinMeanShape`, for a pinned and a mean shape of equal point
count, the used indices taken in increasing order are `nused` many, the two
reduced point sets have `nused` rows each, row k of them holds the pinned and
the mean shape coordinates of the k-th used index, the final value of `i` is
`nused`, and the assertion `i == nused` does not fail. -/
theorem PinMeanShape_reduced_sets (env : Env K) (pinned meanshape : Shape K)
    (hrows : pinned.length = meanshape.length) :
    let nused := PinMeanShape.countUsed env pinned meanshape.length
    let r := PinMeanShape.copyUsed env pinned meanshape
      (Shape.create nused, Shape.create nused, 0)
    let used := (List.range meanshape.length).filter (PointUsedAt env pinned)
    used.Pairwise (fun i j => i < j) ∧
    (∀ i, i ∈ used ↔ i < meanshape.length ∧ PointUsedAt env pinned i = true) ∧
    used.length = nused ∧
    r.1.length = nused ∧ r.2.1.length = nused ∧
    r.1 = used.map (fun i => (pinned.x i, pinned.y i)) ∧
    r.2.1 = used.map (fun i => (meanshape.x i, meanshape.y i)) ∧
    r.2.2 = nused ∧
    PinMeanShape env pinned meanshape ≠ .error (.assertion "i == nused") := by
  intro nused r used
  have hn : nused = pinned.countP (fun p => env.PointUsed p.1 p.2) := by
    show PinMeanShape.countUsed env pinned meanshape.length = _
    rw [← hrows, countUsed_eq]
  have hr : r = (used.map (fun i => (pinned.x i, pinned.y i)),
      used.map (fun i => (meanshape.x i, meanshape.y i)), nused) := by
    show PinMeanShape.copyUsed env pinned meanshape
      (Shape.create nused, Shape.create nused, 0) = _
    rw [hn, copyUsed_eq env pinned meanshape hrows, ← filter_range_map env pinned, hrows]
  have hlen : used.length = nused := by
    show ((List.range meanshape.length).filter (PointUsedAt env pinned)).length = _
    rw [hn, ← List.countP_eq_length_filter, ← hrows, countP_range_eq]
  refine ⟨List.Pairwise.filter _ (List.pairwise_lt_range _), ?_, hlen, ?_, ?_, ?_, ?_, ?_,
    PinMeanShape_no_index_assertion env pinned meanshape hrows⟩
  · intro i
    simp [used, List.mem_filter]
  · rw [hr]; simp [hlen]
  · rw [hr]; simp [hlen]
  · rw [hr]
  · rw [hr]
  · rw [hr]

/-- Witness for `PinMeanShape_reduced_sets`: rows 0 and 2 of three are pinned. -/
theorem PinMeanShape_reduced_sets_witness :
    PinMeanShape.copyUsed (refEnv evalCalibration) [(1, 1), (0, 0), (3, 1)]
        [(1, 0), (5, 5), (2, 0)]
        (Shape.create (PinMeanShape.countUsed (refEnv evalCalibration) [(1, 1), (0, 0), (3, 1)] 3),
          Shape.create (PinMeanShape.countUsed (refEnv evalCalibration) [(1, 1), (0, 0), (3, 1)] 3),
          0)
      = ([(1, 1), (3, 1)], [(1, 0), (2, 0)], 2) := by
  obtain ⟨-, -, hlen, -, -, h1, h2, h3, -⟩ := PinMeanShape_reduced_sets
    (refEnv evalCalibration) [(1, 1), (0, 0), (3, 1)] [(1, 0), (5, 5), (2, 0)] rfl
  have hused : (List.range 3).filter
      (PointUsedAt (refEnv evalCalibration) [(1, 1), (0, 0), (3, 1)]) = [0, 2] := by
    simp [List.range_succ, List.filter_cons, PointUsedAt, refEnv, PointUsed, Shape.x, Shape.y]
  simp only [List.length_cons, List.length_nil, Nat.zero_add, Nat.reduceAdd, hused] at hlen h1 h2 h3
  refine Prod.ext h1 (Prod.ext h2 ?_)
  rw [h3, ← hlen]

/-! ## C13 -/

theorem rot_bound (env : Env K) (pi : K) (hpi : 0 < pi)
    (hatan2 : ∀ y x, -pi ≤ env.atan2 y x ∧ env.atan2 y x ≤ pi)
    (hdeg : ∀ r, env.RadsToDegrees r = 180 / pi * r)
    (hsnap : ∀ r, env.PossiblySetRotToZero r = 0 ∨ env.PossiblySetRotToZero r = r)
    (y x : K) :
    -180 ≤ env.PossiblySetRotToZero (env.RadsToDegrees (-env.atan2 y x)) ∧
    env.PossiblySetRotToZero (env.RadsToDegrees (-env.atan2 y x)) ≤ 180 := by
  have e : env.RadsToDegrees (-env.atan2 y x) = -(180 * (env.atan2 y x / pi)) := by
    rw [hdeg]; field_simp
  have b1 : env.atan2 y x / pi ≤ 1 := (div_le_one hpi).mpr (hatan2 y x).2
  have b2 : -1 ≤ env.atan2 y x / pi := by
    rw [le_div_iff₀ hpi]; linarith [(hatan2 y x).1]
  rcases hsnap (env.RadsToDegrees (-env.atan2 y x)) with h | h
  · rw [h]; constructor <;> norm_num
  · rw [h, e]; constructor <;> linarith

theorem refEnv_snap_cases (c : Calibration K) (r : K) :
    (refEnv c).PossiblySetRotToZero r = 0 ∨ (refEnv c).PossiblySetRotToZero r = r := by
  show PossiblySetRotToZero c.ROT_TREAT_AS_ZERO r = 0 ∨ PossiblySetRotToZero c.ROT_TREAT_AS_ZERO r = r
  unfold PossiblySetRotToZero
  split
  · exact Or.inl rfl
  · exact Or.inr rfl

/-- C13: with `atan2` between `-pi` and `pi`, `RadsToDegrees` the
multiplication by `180 / pi` and `PossiblySetRotToZero` returning 0 or its
argument, for every shape of 5 points the estimated `rot` lies in [-180, 180],
the call of `RotShapeInPlace` with `-rot` passes its sanity assertion, and
`EstRotAndYawFrom5PointShape` returns. -/
theorem EstRotAndYawFrom5PointShape_no_error (env : Env K) (pi : K) (hpi : 0 < pi)
    (hatan2 : ∀ y x, -pi ≤ env.atan2 y x ∧ env.atan2 y x ≤ pi)
    (hdeg : ∀ r, env.RadsToDegrees r = 180 / pi * r)
    (hsnap : ∀ r, env.PossiblySetRotToZero r = 0 ∨ env.PossiblySetRotToZero r = r)
    (shape5 : Shape K) (h5 : shape5.length = 5) :
    -180 ≤ EstRotAndYawFrom5PointShape.rot env shape5 ∧
    EstRotAndYawFrom5PointShape.rot env shape5 ≤ 180 ∧
    (∀ shape x y, ∃ rotated,
      RotShapeInPlace env shape (-EstRotAndYawFrom5PointShape.rot env shape5) x y
        = .ok rotated) ∧
    ∃ yaw, EstRotAndYawFrom5PointShape env shape5
      = .ok (EstRotAndYawFrom5PointShape.rot env shape5, yaw) := by
  have hb : -180 ≤ EstRotAndYawFrom5PointShape.rot env shape5 ∧
      EstRotAndYawFrom5PointShape.rot env shape5 ≤ 180 :=
    rot_bound env pi hpi hatan2 hdeg hsnap _ _
  have hrotate : ∀ shape x y, ∃ rotated,
      RotShapeInPlace env shape (-EstRotAndYawFrom5PointShape.rot env shape5) x y
        = .ok rotated := by
    intro shape x y
    unfold RotShapeInPlace
    rw [if_pos ⟨by linarith [hb.2], by linarith [hb.1]⟩]
    exact ⟨_, rfl⟩
  refine ⟨hb.1, hb.2, hrotate, ?_⟩
  unfold EstRotAndYawFrom5PointShape
  rw [if_neg (by simp [h5])]
  unfold EstRotAndYawFrom5PointShape.yawInput EstRotAndYawFrom5PointShape.derotate
  by_cases h0 : EstRotAndYawFrom5PointShape.rot env shape5 = 0
  · simp [h0]
  · obtain ⟨rotated, hr⟩ := hrotate shape5 (SumElemsX shape5 / 5) (SumElemsY shape5 / 5)
    simp [h0, hr]

/-- Witness for `EstRotAndYawFrom5PointShape_no_error`, over the reals: a
five point shape whose eye corners are not level. -/
theorem EstRotAndYawFrom5PointShape_no_error_witness :
    ∃ yaw, EstRotAndYawFrom5PointShape
        (refEnv (Calibration.standard (fun y x => Complex.arg ⟨x, y⟩) Real.sqrt
          (fun a => Real.cos (a * Real.pi / 180)) (fun a => Real.sin (a * Real.pi / 180))
          Real.pi))
        [(28, 40), (72, 60), (50, 55), (38, 70), (62, 80)]
      = .ok (EstRotAndYawFrom5PointShape.rot
          (refEnv (Calibration.standard (fun y x => Complex.arg ⟨x, y⟩) Real.sqrt
            (fun a => Real.cos (a * Real.pi / 180)) (fun a => Real.sin (a * Real.pi / 180))
            Real.pi))
          [(28, 40), (72, 60), (50, 55), (38, 70), (62, 80)], yaw) :=
  (EstRotAndYawFrom5PointShape_no_error
    (refEnv (Calibration.standard (fun y x => Complex.arg ⟨x, y⟩) Real.sqrt
      (fun a => Real.cos (a * Real.pi / 180)) (fun a => Real.sin (a * Real.pi / 180))
      Real.pi))
    Real.pi Real.pi_pos
    (fun y x => ⟨(Complex.neg_pi_lt_arg ⟨x, y⟩).le, Complex.arg_le_pi ⟨x, y⟩⟩)
    (fun _ => rfl) (refEnv_snap_cases _)
    [(28, 40), (72, 60), (50, 55), (38, 70), (62, 80)] rfl).2.2.2

/-! ## Facts about PinnedStartShapeAndRoi -/

theorem InitDetParEyeMouthFromShape_x (env : Env K) (detpar : DetectorParameter K)
    (shape : Shape K) : (InitDetParEyeMouthFromShape env detpar shape).x = detpar.x := by
  cases h1 : PointUsedAt env (env.Shape17 shape) env.L17_LPupil <;>
    cases h2 : PointUsedAt env (env.Shape17 shape) env.L17_RPupil <;>
    cases h3 : PointUsedAt env (env.Shape17 shape) env.L17_CBotOfBotLip <;>
    simp [InitDetParEyeMouthFromShape, h1, h2, h3]

theorem PseudoDetParFromStartShape_ok (env : Env K) (startshape : Shape K) (rot yaw : K)
    (nmods : Int)
    (hl : PointUsedAt env (env.Shape17 startshape) env.L17_LPupil = true)
    (hr : PointUsedAt env (env.Shape17 startshape) env.L17_RPupil = true)
    (hm : PointUsedAt env (env.Shape17 startshape) env.L17_CBotOfBotLip = true) :
    PseudoDetParFromStartShape env startshape rot yaw nmods
      = .ok (PseudoDetParFromStartShape.detpar env startshape rot yaw nmods) := by
  unfold PointUsedAt at hl hr hm
  unfold PseudoDetParFromStartShape
  simp only [hl, hr, hm]
  rfl

/-- What lines 275 to 291 of `PinnedStartShapeAndRoi` return when the model
exists, the mean shape is aligned and the detector parameter is generated. -/
theorem finish_eq (env : Env K) (heap : Heap) (img workimg : Image) (mods : List (Mod K))
    (pinned_roi : Shape K) (rot yaw : K) (eyaw imod : Int) (mod : Mod K) (aligned : Shape K)
    (detpar : DetectorParameter K)
    (hmod : mods.get? imod.natAbs = some mod)
    (hpin : PinMeanShape env pinned_roi mod.MeanShape_ = .ok aligned)
    (hdet : PseudoDetParFromStartShape env (mod.ConformShapeToMod_Pinned_ aligned pinned_roi)
      rot yaw mods.length = .ok detpar) :
    PinnedStartShapeAndRoi.finish env heap img workimg mods pinned_roi rot yaw eyaw imod
      = .ok
        { startshape := env.ImgShapeToRoiFrame (mod.ConformShapeToMod_Pinned_ aligned pinned_roi)
            (PinnedStartShapeAndRoi.roi env heap workimg detpar eyaw).2
            (if env.IsLeftFacing eyaw then { detpar with rot := detpar.rot * -1 } else detpar),
          face_roi := (PinnedStartShapeAndRoi.roi env heap workimg detpar eyaw).1,
          detpar_roi :=
            if env.IsLeftFacing eyaw then
              { InitDetParEyeMouthFromShape env
                  (PinnedStartShapeAndRoi.roi env heap workimg detpar eyaw).2
                  (env.ImgShapeToRoiFrame (mod.ConformShapeToMod_Pinned_ aligned pinned_roi)
                    (PinnedStartShapeAndRoi.roi env heap workimg detpar eyaw).2
                    { detpar with rot := detpar.rot * -1 }) with
                x := (PinnedStartShapeAndRoi.roi env heap workimg detpar eyaw).2.x
                  + 2 * (((PinnedStartShapeAndRoi.roi env heap workimg detpar eyaw).1.cols : K) / 2
                    - (PinnedStartShapeAndRoi.roi env heap workimg detpar eyaw).2.x) }
            else
              InitDetParEyeMouthFromShape env
                (PinnedStartShapeAndRoi.roi env heap workimg detpar eyaw).2
                (env.ImgShapeToRoiFrame (mod.ConformShapeToMod_Pinned_ aligned pinned_roi)
                  (PinnedStartShapeAndRoi.roi env heap workimg detpar eyaw).2 detpar),
          detpar :=
            if env.IsLeftFacing eyaw then
              { env.FlipDetPar { detpar with rot := detpar.rot * -1 } img.cols with
                rot := -(env.FlipDetPar { detpar with rot := detpar.rot * -1 } img.cols).rot }
            else detpar,
          pinned_roi := env.ImgShapeToRoiFrame pinned_roi
            (PinnedStartShapeAndRoi.roi env heap workimg detpar eyaw).2
            (if env.IsLeftFacing eyaw then { detpar with rot := detpar.rot * -1 } else detpar) } := by
  unfold PinnedStartShapeAndRoi.finish PinnedStartShapeAndRoi.roi
  simp only [hmod, hpin, hdet]
  cases hleft : env.IsLeftFacing eyaw
  · simp
  · simp [(InitDetParEyeMouthFromShape_x env _ _)]

/-- The outcome of `PinnedStartShapeAndRoi` once the pose has been estimated:
that of lines 275 to 291 on the possibly flipped image and pinned shape. -/
theorem PinnedStartShapeAndRoi_fst (env : Env K) (heap : Heap) (img : Image)
    (mods : List (Mod K)) (pinned : Shape K) (mod0 : Mod K) (shape5 : Shape K) (rot yaw : K)
    (hmods : mods.get? 0 = some mod0)
    (h5 : Shape5 env pinned mod0.MeanShape_ = .ok shape5)
    (hest : EstRotAndYawFrom5PointShape env shape5 = .ok (rot, yaw)) :
    (PinnedStartShapeAndRoi env heap img mods pinned).1
      = PinnedStartShapeAndRoi.finish env
          (if env.IsLeftFacing (env.DegreesAsEyaw yaw mods.length) then FlipImgInPlace heap img
            else heap)
          img img mods
          (if env.IsLeftFacing (env.DegreesAsEyaw yaw mods.length) then
            env.FlipShape pinned img.cols else pinned)
          rot yaw (env.DegreesAsEyaw yaw mods.length)
          (env.EyawAsModIndex (env.DegreesAsEyaw yaw mods.length) mods) := by
  unfold PinnedStartShapeAndRoi
  simp only [hmods, h5, hest]
  cases env.IsLeftFacing (env.DegreesAsEyaw yaw mods.length) <;> simp

/-! ## C12 -/

/-- C12: for a start shape whose three required landmarks are used, the
detector parameter returned by `PseudoDetParFromStartShape(startshape, rot,
yaw, nmods)` has `rot` and `yaw` equal to the arguments, `eyaw` equal to
`DegreesAsEyaw(yaw, nmods)`, and the eye and mouth fields equal to the
canonical left pupil, right pupil and bottom-of-bottom-lip coordinates; in a
call of `PinnedStartShapeAndRoi` with a pose that is not left-facing this is
the returned `detpar`, and its `eyaw` is the bucket that selected the model. -/
theorem PseudoDetParFromStartShape_pose_fields (env : Env K) (startshape : Shape K)
    (rot yaw : K) (nmods : Int)
    (hl : PointUsedAt env (env.Shape17 startshape) env.L17_LPupil = true)
    (hr : PointUsedAt env (env.Shape17 startshape) env.L17_RPupil = true)
    (hm : PointUsedAt env (env.Shape17 startshape) env.L17_CBotOfBotLip = true) :
    (∃ detpar, PseudoDetParFromStartShape env startshape rot yaw nmods = .ok detpar ∧
      detpar.rot = rot ∧ detpar.yaw = yaw ∧ detpar.eyaw = env.DegreesAsEyaw yaw nmods ∧
      detpar.lex = (env.Shape17 startshape).x env.L17_LPupil ∧
      detpar.ley = (env.Shape17 startshape).y env.L17_LPupil ∧
      detpar.rex = (env.Shape17 startshape).x env.L17_RPupil ∧
      detpar.rey = (env.Shape17 startshape).y env.L17_RPupil ∧
      detpar.mouthx = (env.Shape17 startshape).x env.L17_CBotOfBotLip ∧
      detpar.mouthy = (env.Shape17 startshape).y env.L17_CBotOfBotLip) ∧
    (∀ (heap : Heap) (img : Image) (mods : List (Mod K)) (pinned : Shape K) (mod0 mod : Mod K)
        (shape5 aligned : Shape K),
      nmods = mods.length →
      mods.get? 0 = some mod0 →
      Shape5 env pinned mod0.MeanShape_ = .ok shape5 →
      EstRotAndYawFrom5PointShape env shape5 = .ok (rot, yaw) →
      env.IsLeftFacing (env.DegreesAsEyaw yaw nmods) = false →
      mods.get? (env.EyawAsModIndex (env.DegreesAsEyaw yaw nmods) mods).natAbs = some mod →
      PinMeanShape env pinned mod.MeanShape_ = .ok aligned →
      mod.ConformShapeToMod_Pinned_ aligned pinned = startshape →
      ∃ out, (PinnedStartShapeAndRoi env heap img mods pinned).1 = .ok out ∧
        PseudoDetParFromStartShape env startshape rot yaw nmods = .ok out.detpar ∧
        out.detpar.eyaw = env.DegreesAsEyaw yaw nmods) := by
  have hok := PseudoDetParFromStartShape_ok env startshape rot yaw nmods hl hr hm
  constructor
  · exact ⟨_, hok, rfl, rfl, rfl, rfl, rfl, rfl, rfl, rfl, rfl⟩
  · intro heap img mods pinned mod0 mod shape5 aligned hn hmods h5 hest hleft hmod hpin hconf
    subst hn
    rw [PinnedStartShapeAndRoi_fst env heap img mods pinned mod0 shape5 rot yaw hmods h5 hest]
    simp only [hleft, Bool.false_eq_true, if_false]
    rw [finish_eq env heap img img mods pinned rot yaw _ _ mod aligned _ hmod hpin
      (by rw [hconf]; exact hok)]
    simp only [hleft, Bool.false_eq_true, if_false]
    exact ⟨_, rfl, hok, rfl⟩

/-- Witness for `PseudoDetParFromStartShape_pose_fields`, over the reals. -/
theorem PseudoDetParFromStartShape_pose_fields_witness :
    ∃ detpar, PseudoDetParFromStartShape
        (refEnv (Calibration.standard (fun y x => Complex.arg ⟨x, y⟩) Real.sqrt
          (fun a => Real.cos (a * Real.pi / 180)) (fun a => Real.sin (a * Real.pi / 180))
          Real.pi))
        exampleMeanShape17 7 20 3 = .ok detpar ∧
      detpar.rot = 7 ∧ detpar.yaw = 20 ∧ detpar.eyaw = 2 ∧
      detpar.lex = 35 ∧ detpar.ley = 40 ∧ detpar.rex = 65 ∧ detpar.rey = 40 ∧
      detpar.mouthx = 50 ∧ detpar.mouthy = 75 := by
  obtain ⟨detpar, h, h1, h2, h3, h4, h5, h6, h7, h8, h9⟩ :=
    (PseudoDetParFromStartShape_pose_fields
      (refEnv (Calibration.standard (fun y x => Complex.arg ⟨x, y⟩) Real.sqrt
        (fun a => Real.cos (a * Real.pi / 180)) (fun a => Real.sin (a * Real.pi / 180))
        Real.pi))
      exampleMeanShape17 7 20 3
      (by simp [PointUsedAt, refEnv, Shape17_of_length_17, exampleMeanShape17, PointUsed,
        Shape.x, Shape.y])
      (by simp [PointUsedAt, refEnv, Shape17_of_length_17, exampleMeanShape17, PointUsed,
        Shape.x, Shape.y])
      (by simp [PointUsedAt, refEnv, Shape17_of_length_17, exampleMeanShape17, PointUsed,
        Shape.x, Shape.y])).1
  simp only [refEnv, Calibration.standard, Shape17_of_length_17, exampleMeanShape17,
    List.length_cons, List.length_nil, Shape.x, Shape.y, List.getD_cons_succ,
    List.getD_cons_zero] at h4 h5 h6 h7 h8 h9
  refine ⟨detpar, h, h1, h2, ?_, h4, h5, h6, h7, h8, h9⟩
  rw [h3]
  simp only [refEnv, Calibration.standard, DegreesAsEyaw]
  norm_num

/-! ## C11 -/

/-- C11, as amended: computed over the reals (in exact arithmetic, over any
ordered field), in a call of `PinnedStartShapeAndRoi` that selects a model,
aligns the mean shape and generates the detector parameter, the returned
`detpar_roi.x` is `face_roi.cols` minus the x value of the ROI step when the
pose is left-facing, a reflection that applied once more gives that x value
back, and is the x value of the ROI step unchanged when the pose is not
left-facing. -/
theorem PinnedStartShapeAndRoi_detpar_roi_x (env : Env K) (heap : Heap) (img : Image)
    (mods : List (Mod K)) (pinned : Shape K) (mod0 mod : Mod K) (shape5 aligned : Shape K)
    (rot yaw : K) (detpar : DetectorParameter K)
    (hmods : mods.get? 0 = some mod0)
    (h5 : Shape5 env pinned mod0.MeanShape_ = .ok shape5)
    (hest : EstRotAndYawFrom5PointShape env shape5 = .ok (rot, yaw))
    (hmod : mods.get? (env.EyawAsModIndex (env.DegreesAsEyaw yaw mods.length) mods).natAbs
      = some mod)
    (hpin : PinMeanShape env
      (if env.IsLeftFacing (env.DegreesAsEyaw yaw mods.length) then env.FlipShape pinned img.cols
        else pinned) mod.MeanShape_ = .ok aligned)
    (hdet : PseudoDetParFromStartShape env
      (mod.ConformShapeToMod_Pinned_ aligned
        (if env.IsLeftFacing (env.DegreesAsEyaw yaw mods.length) then
          env.FlipShape pinned img.cols else pinned))
      rot yaw mods.length = .ok detpar) :
    ∃ out, (PinnedStartShapeAndRoi env heap img mods pinned).1 = .ok out ∧
      out.face_roi = (PinnedStartShapeAndRoi.roi env
        (if env.IsLeftFacing (env.DegreesAsEyaw yaw mods.length) then FlipImgInPlace heap img
          else heap) img detpar (env.DegreesAsEyaw yaw mods.length)).1 ∧
      out.detpar_roi.x
        = (if env.IsLeftFacing (env.DegreesAsEyaw yaw mods.length) then
            (out.face_roi.cols : K) - (PinnedStartShapeAndRoi.roi env
              (if env.IsLeftFacing (env.DegreesAsEyaw yaw mods.length) then
                FlipImgInPlace heap img else heap) img detpar
              (env.DegreesAsEyaw yaw mods.length)).2.x
          else (PinnedStartShapeAndRoi.roi env
              (if env.IsLeftFacing (env.DegreesAsEyaw yaw mods.length) then
                FlipImgInPlace heap img else heap) img detpar
              (env.DegreesAsEyaw yaw mods.length)).2.x) ∧
      (env.IsLeftFacing (env.DegreesAsEyaw yaw mods.length) = true →
        out.detpar_roi.x + 2 * ((out.face_roi.cols : K) / 2 - out.detpar_roi.x)
          = (PinnedStartShapeAndRoi.roi env (FlipImgInPlace heap img) img detpar
              (env.DegreesAsEyaw yaw mods.length)).2.x) := by
  rw [PinnedStartShapeAndRoi_fst env heap img mods pinned mod0 shape5 rot yaw hmods h5 hest,
    finish_eq env _ img img mods _ rot yaw _ _ mod aligned detpar hmod hpin hdet]
  refine ⟨_, rfl, rfl, ?_, ?_⟩
  · cases hleft : env.IsLeftFacing (env.DegreesAsEyaw yaw mods.length)
    · simp [InitDetParEyeMouthFromShape_x]
    · simp only [if_true]
      ring
  · intro hleft
    simp only [hleft, if_true]
    ring

theorem ConformShapeToMod_Pinned_used (aligned pinned : Shape K)
    (h : ∀ q ∈ aligned, PointUsed q.1 q.2 = true) :
    ∀ q ∈ ConformShapeToMod_Pinned_ aligned pinned, PointUsed q.1 q.2 = true := by
  induction aligned generalizing pinned with
  | nil => intro q hq; simp [ConformShapeToMod_Pinned_] at hq
  | cons a l ih =>
    cases pinned with
    | nil => intro q hq; simp [ConformShapeToMod_Pinned_] at hq
    | cons p ps =>
      intro q hq
      simp only [ConformShapeToMod_Pinned_, List.zipWith_cons_cons, List.mem_cons] at hq
      rcases hq with rfl | hq
      · by_cases hp : PointUsed p.1 p.2 = true
        · rw [if_pos hp]; exact hp
        · rw [if_neg hp]; exact h a (List.mem_cons_self _ _)
      · exact ih ps (fun q hq => h q (List.mem_cons_of_mem _ hq)) q hq

/-- With the collaborators modelled from the spec, a nonzero jitter and
shapes of the 17 point scheme of which at least two points are pinned, the mean
shape is aligned and the detector parameter is generated. -/
theorem refEnv_align_and_detpar (c : Calibration K) (hj : c.XJITTER ≠ 0)
    (pinned meanshape : Shape K) (hp17 : pinned.length = 17) (hm17 : meanshape.length = 17)
    (hused : 2 ≤ pinned.countP (fun p => PointUsed p.1 p.2)) (rot yaw : K) (nmods : Int) :
    ∃ aligned detpar, PinMeanShape (refEnv c) pinned meanshape = .ok aligned ∧
      PseudoDetParFromStartShape (refEnv c) (ConformShapeToMod_Pinned_ aligned pinned)
        rot yaw nmods = .ok detpar := by
  obtain ⟨aligned, hal, hall, hlen⟩ : ∃ aligned,
      PinMeanShape (refEnv c) pinned meanshape = .ok aligned ∧
      (∀ q ∈ aligned, PointUsed q.1 q.2 = true) ∧ aligned.length = 17 :=
    ⟨_, PinMeanShape_eq (refEnv c) pinned meanshape (hp17.trans hm17.symm) hused,
      JitterPointsAt00_used c.XJITTER hj _, by
        show (JitterPointsAt00 c.XJITTER _).length = 17
        simp [JitterPointsAt00, TransformShape, hm17]⟩
  refine ⟨aligned, PseudoDetParFromStartShape.detpar (refEnv c)
    (ConformShapeToMod_Pinned_ aligned pinned) rot yaw nmods, hal, ?_⟩
  have hclen : (ConformShapeToMod_Pinned_ aligned pinned).length = 17 := by
    simp [ConformShapeToMod_Pinned_, hlen, hp17]
  have h17 : (refEnv c).Shape17 (ConformShapeToMod_Pinned_ aligned pinned)
      = ConformShapeToMod_Pinned_ aligned pinned := Shape17_of_length_17 _ hclen
  have hu := ConformShapeToMod_Pinned_used aligned pinned hall
  apply PseudoDetParFromStartShape_ok
  · rw [h17]; exact PointUsedAt_of_forall (refEnv c) _ hu _ (by rw [hclen]; simp [refEnv])
  · rw [h17]; exact PointUsedAt_of_forall (refEnv c) _ hu _ (by rw [hclen]; simp [refEnv])
  · rw [h17]; exact PointUsedAt_of_forall (refEnv c) _ hu _ (by rw [hclen]; simp [refEnv])

theorem example_yaw_ge :
    -35 ≤ EstYawFrom5PointShape
      ([-1 / 2, -3 / 10, 1 / 2, -3 / 10, -1 / 5, 0, -1 / 10, 3 / 10, 3 / 10, 3 / 10] : List ℝ) := by
  simp only [EstYawFrom5PointShape, Buf.at, List.getD_cons_succ, List.getD_cons_zero]
  norm_num [max_def]

theorem example_eyaw :
    DegreesAsEyaw (14 : ℝ) 35 (EstYawFrom5PointShape
      [-1 / 2, -3 / 10, 1 / 2, -3 / 10, -1 / 5, 0, -1 / 10, 3 / 10, 3 / 10, 3 / 10]) 3 = -2 := by
  have h1 := example_yaw_lt
  have h2 := example_yaw_ge
  unfold DegreesAsEyaw
  rw [if_neg (by decide), if_neg (by linarith), if_pos h1]

/-- Witness for `PinnedStartShapeAndRoi_detpar_roi_x`, over the reals: a
left-facing pose in a 100 by 100 image. -/
theorem PinnedStartShapeAndRoi_detpar_roi_x_witness :
    ∃ (out : PinnedStartShapeAndRoi.Out ℝ) (detpar : DetectorParameter ℝ),
      (PinnedStartShapeAndRoi
          (refEnv (Calibration.standard (fun y x => Complex.arg ⟨x, y⟩) Real.sqrt
            (fun a => Real.cos (a * Real.pi / 180)) (fun a => Real.sin (a * Real.pi / 180))
            Real.pi))
          exampleHeap exampleImage
          [refMod exampleMeanShape17, refMod exampleMeanShape17, refMod exampleMeanShape17]
          examplePinnedLeft17).1 = .ok out ∧
      out.face_roi.cols = 100 ∧
      out.detpar_roi.x = 100 - detpar.x ∧
      out.detpar_roi.x + 2 * ((out.face_roi.cols : ℝ) / 2 - out.detpar_roi.x) = detpar.x := by
  have heyaw : (refEnv (Calibration.standard (fun y x => Complex.arg ⟨x, y⟩) Real.sqrt
      (fun a => Real.cos (a * Real.pi / 180)) (fun a => Real.sin (a * Real.pi / 180))
      Real.pi)).DegreesAsEyaw (EstYawFrom5PointShape
        [-1 / 2, -3 / 10, 1 / 2, -3 / 10, -1 / 5, 0, -1 / 10, 3 / 10, 3 / 10, 3 / 10])
      (([refMod exampleMeanShape17, refMod exampleMeanShape17,
        refMod exampleMeanShape17] : List (Mod ℝ)).length : Int) = -2 := by
    simp only [refEnv, Calibration.standard, List.length_cons, List.length_nil]
    exact example_eyaw
  obtain ⟨aligned, detpar, hpin, hdet⟩ := refEnv_align_and_detpar
    (Calibration.standard (fun y x => Complex.arg ⟨x, y⟩) Real.sqrt
      (fun a => Real.cos (a * Real.pi / 180)) (fun a => Real.sin (a * Real.pi / 180)) Real.pi)
    (by norm_num [Calibration.standard])
    (FlipShape (examplePinnedLeft17 : Shape ℝ) 100) exampleMeanShape17
    (by simp [FlipShape, examplePinnedLeft17]) (by simp [exampleMeanShape17])
    (by simp [FlipShape, examplePinnedLeft17, PointUsed, List.countP_cons])
    0 (EstYawFrom5PointShape
      [-1 / 2, -3 / 10, 1 / 2, -3 / 10, -1 / 5, 0, -1 / 10, 3 / 10, 3 / 10, 3 / 10]) 3
  obtain ⟨out, hout, hface, hx, hback⟩ := PinnedStartShapeAndRoi_detpar_roi_x
    (refEnv (Calibration.standard (fun y x => Complex.arg ⟨x, y⟩) Real.sqrt
      (fun a => Real.cos (a * Real.pi / 180)) (fun a => Real.sin (a * Real.pi / 180))
      Real.pi))
    exampleHeap exampleImage
    [refMod exampleMeanShape17, refMod exampleMeanShape17, refMod exampleMeanShape17]
    examplePinnedLeft17 (refMod exampleMeanShape17) (refMod exampleMeanShape17)
    [(20, 40), (70, 40), (35, 55), (40, 70), (60, 70)] aligned 0
    (EstYawFrom5PointShape
      [-1 / 2, -3 / 10, 1 / 2, -3 / 10, -1 / 5, 0, -1 / 10, 3 / 10, 3 / 10, 3 / 10])
    detpar rfl example_Shape5
    (by
      rw [EstRotAndYawFrom5PointShape_level _
        ([(20, 40), (70, 40), (35, 55), (40, 70), (60, 70)] : Shape ℝ) rfl
        (fun x hx => real_atan2_zero x hx)
        (refEnv_deg_zero _) (refEnv_snap_zero _) (by simp [Shape.y])
        (by simp [Shape.x]; norm_num), example_yawInput])
    (by rw [heyaw]; rfl)
    (by rw [heyaw]; exact hpin)
    (by rw [heyaw]; exact hdet)
  rw [heyaw] at hface hx hback
  refine ⟨out, detpar, hout, ?_, ?_, ?_⟩
  · rw [hface]; rfl
  · rw [hx, hface]
    simp [refEnv, IsLeftFacing, PinnedStartShapeAndRoi.roi, FaceRoiAndDetectorParameter,
      Image.value, exampleImage]
  · rw [hback (by rfl)]
    simp [refEnv, IsLeftFacing, PinnedStartShapeAndRoi.roi, FaceRoiAndDetectorParameter]

set_option maxRecDepth 100000 in
/-- C11 fails as stated: for `face_roi.cols = 100` and an x value `0.1` of the
ROI step, line 290 in double arithmetic gives `99.89999999999999`, which is
neither the double `99.9` that `face_roi.cols - x` gives nor exactly 100 minus
the x value; applied to its own result it gives `0.10000000000000853`, not the
x value it started from. -/
theorem PinnedStartShapeAndRoi_detpar_roi_x_double :
    (0.1 : Double) = { m := 7205759403792794, e := -56 } ∧
    PinnedStartShapeAndRoi.detpar_roi_x.double 100 0.1
      = { m := 7029837543348633, e := -46 } ∧
    (100 : Double) - 0.1 = { m := 7029837543348634, e := -46 } ∧
    Double.toRat (PinnedStartShapeAndRoi.detpar_roi_x.double 100 0.1)
      ≠ 100 - Double.toRat 0.1 ∧
    PinnedStartShapeAndRoi.detpar_roi_x.double 100
        (PinnedStartShapeAndRoi.detpar_roi_x.double 100 0.1)
      = { m := 7205759403793408, e := -56 } := by
  have h0 : (0.1 : Double) = { m := 7205759403792794, e := -56 } := by decide
  have h1 : PinnedStartShapeAndRoi.detpar_roi_x.double 100 0.1
      = { m := 7029837543348633, e := -46 } := by decide
  refine ⟨h0, h1, by decide, ?_, by decide⟩
  rw [h1, h0]
  simp only [Double.toRat]
  norm_num

/-! ## C17 -/

theorem sum_affine (a b c : K) (l : Shape K) :
    (l.map fun p => a * p.1 + b * p.2 + c).sum
      = a * (l.map Prod.fst).sum + b * (l.map Prod.snd).sum + l.length * c := by
  induction l with
  | nil => simp
  | cons p l ih =>
    simp only [List.map_cons, List.sum_cons, ih, List.length_cons, Nat.cast_add, Nat.cast_one]
    ring

/-- Centring after an affine map of five points: the translation drops out. -/
theorem center_TransformShape (mat : MAT K) (shape : Shape K) (h5 : shape.length = 5) :
    EstRotAndYawFrom5PointShape.center (TransformShape shape mat)
      = (EstRotAndYawFrom5PointShape.center shape).map
          (fun p => (mat.a00 * p.1 + mat.a01 * p.2, mat.a10 * p.1 + mat.a11 * p.2)) := by
  have hx : SumElemsX (TransformShape shape mat)
      = mat.a00 * SumElemsX shape + mat.a01 * SumElemsY shape + 5 * mat.a02 := by
    simp only [SumElemsX, SumElemsY, TransformShape, List.map_map, Function.comp_def]
    rw [sum_affine, h5]; norm_num
  have hy : SumElemsY (TransformShape shape mat)
      = mat.a10 * SumElemsX shape + mat.a11 * SumElemsY shape + 5 * mat.a12 := by
    simp only [SumElemsX, SumElemsY, TransformShape, List.map_map, Function.comp_def]
    rw [sum_affine, h5]; norm_num
  rw [center_eq, center_eq, hx, hy]
  simp only [TransformShape, List.map_map]
  apply List.map_congr_left
  intro p _
  simp only [Function.comp_apply]
  apply Prod.ext <;> simp only <;> ring

theorem sqrt_scale (env : Env K)
    (hsqrt : ∀ v, 0 ≤ v → 0 ≤ env.sqrt v ∧ env.sqrt v * env.sqrt v = v)
    (s n : K) (hs : 0 < s) (hn : 0 ≤ n) : env.sqrt (s * s * n) = s * env.sqrt n := by
  have h1 := hsqrt (s * s * n) (by positivity)
  have h2 := hsqrt n hn
  apply (mul_self_inj h1.1 (mul_nonneg hs.le h2.1)).mp
  rw [h1.2]
  linear_combination (-(s * s)) * h2.2

/-- Normalising a scaled shape of five points gives the normalised shape. -/
theorem normalize_scale (env : Env K)
    (hsqrt : ∀ v, 0 ≤ v → 0 ≤ env.sqrt v ∧ env.sqrt v * env.sqrt v = v)
    (s : K) (hs : 0 < s) (shape : Shape K) (h5 : shape.length = 5) :
    EstRotAndYawFrom5PointShape.normalize env (shape.map fun p => (s * p.1, s * p.2))
      = EstRotAndYawFrom5PointShape.normalize env shape := by
  have hn : EstRotAndYawFrom5PointShape.norm (shape.map fun p => (s * p.1, s * p.2))
      = s * s * EstRotAndYawFrom5PointShape.norm shape := by
    rw [norm_eq_sum _ (by simpa using h5), norm_eq_sum _ h5, List.map_map,
      ← List.sum_map_mul_left]
    congr 1
    apply List.map_congr_left
    intro p _
    simp only [Function.comp_apply]
    ring
  have hnn : 0 ≤ EstRotAndYawFrom5PointShape.norm shape := by
    rw [norm_eq_sum _ h5]
    exact List.sum_nonneg (by
      intro v hv
      rw [List.mem_map] at hv
      obtain ⟨p, -, rfl⟩ := hv
      exact add_nonneg (mul_self_nonneg _) (mul_self_nonneg _))
  unfold EstRotAndYawFrom5PointShape.normalize
  simp only [hn, sqrt_scale env hsqrt s _ hs hnn, List.map_map]
  apply List.map_congr_left
  intro p _
  simp only [Function.comp_apply]
  rw [mul_div_mul_left _ _ hs.ne', mul_div_mul_left _ _ hs.ne']

theorem Shape_xy_map (f : K × K → K × K) (shape : Shape K) (i : Nat) (hi : i < shape.length) :
    Shape.x (shape.map f) i = (f (shape.x i, shape.y i)).1 ∧
    Shape.y (shape.map f) i = (f (shape.x i, shape.y i)).2 := by
  unfold Shape.x Shape.y
  rw [getD_map_of_lt f shape i hi (0, 0) (0, 0)]
  exact ⟨rfl, rfl⟩

theorem rot_scale_translate (env : Env K)
    (hatan2 : ∀ s y x, 0 < s → env.atan2 (s * y) (s * x) = env.atan2 y x)
    (shape5 : Shape K) (h5 : shape5.length = 5) (s : K) (hs : 0 < s) (t : K × K) :
    EstRotAndYawFrom5PointShape.rot env (shape5.map fun p => (s * p.1 + t.1, s * p.2 + t.2))
      = EstRotAndYawFrom5PointShape.rot env shape5 := by
  unfold EstRotAndYawFrom5PointShape.rot
  rw [(Shape_xy_map _ shape5 0 (by omega)).1, (Shape_xy_map _ shape5 0 (by omega)).2,
    (Shape_xy_map _ shape5 1 (by omega)).1, (Shape_xy_map _ shape5 1 (by omega)).2]
  simp only
  rw [show s * shape5.y 1 + t.2 - (s * shape5.y 0 + t.2) = s * (shape5.y 1 - shape5.y 0) by ring,
    show s * shape5.x 1 + t.1 - (s * shape5.x 0 + t.1) = s * (shape5.x 1 - shape5.x 0) by ring,
    hatan2 s _ _ hs]

theorem center_scale_translate (shape5 : Shape K) (h5 : shape5.length = 5) (s : K)
    (t : K × K) :
    EstRotAndYawFrom5PointShape.center (TransformShape shape5
      { a00 := s, a01 := 0, a02 := t.1, a10 := 0, a11 := s, a12 := t.2 })
      = (EstRotAndYawFrom5PointShape.center shape5).map fun p => (s * p.1, s * p.2) := by
  rw [center_TransformShape _ _ h5]
  apply List.map_congr_left
  intro p _
  apply Prod.ext <;> simp

/-- Two affine maps with the same linear part, one applied to a shape of five
points and one to its scaled and translated image, give the same normalised
centred shape. -/
theorem normalize_center_affine (env : Env K)
    (hsqrt : ∀ v, 0 ≤ v → 0 ≤ env.sqrt v ∧ env.sqrt v * env.sqrt v = v)
    (shape5 : Shape K) (h5 : shape5.length = 5) (s : K) (hs : 0 < s) (t : K × K)
    (mat mat' : MAT K) (h00 : mat'.a00 = mat.a00) (h01 : mat'.a01 = mat.a01)
    (h10 : mat'.a10 = mat.a10) (h11 : mat'.a11 = mat.a11) :
    EstRotAndYawFrom5PointShape.normalize env (EstRotAndYawFrom5PointShape.center
        (TransformShape (TransformShape shape5
          { a00 := s, a01 := 0, a02 := t.1, a10 := 0, a11 := s, a12 := t.2 }) mat'))
      = EstRotAndYawFrom5PointShape.normalize env (EstRotAndYawFrom5PointShape.center
        (TransformShape shape5 mat)) := by
  have h5' : (TransformShape shape5
      { a00 := s, a01 := 0, a02 := t.1, a10 := 0, a11 := s, a12 := t.2 }).length = 5 := by
    simpa [TransformShape] using h5
  have hc5 : (EstRotAndYawFrom5PointShape.center shape5).length = 5 := by
    rw [center_eq]; simpa using h5
  rw [center_TransformShape mat' _ h5', center_scale_translate shape5 h5 s t,
    center_TransformShape mat shape5 h5]
  have hcomm : ((EstRotAndYawFrom5PointShape.center shape5).map
        fun p => (s * p.1, s * p.2)).map
        (fun p => (mat'.a00 * p.1 + mat'.a01 * p.2, mat'.a10 * p.1 + mat'.a11 * p.2))
      = ((EstRotAndYawFrom5PointShape.center shape5).map
          (fun p => (mat.a00 * p.1 + mat.a01 * p.2, mat.a10 * p.1 + mat.a11 * p.2))).map
          fun p => (s * p.1, s * p.2) := by
    rw [List.map_map, List.map_map]
    apply List.map_congr_left
    intro p _
    simp only [Function.comp_apply, h00, h01, h10, h11]
    apply Prod.ext <;> simp only <;> ring
  rw [hcomm, normalize_scale env hsqrt s hs _ (by simpa using hc5)]

theorem yawInput_scale_translate (env : Env K)
    (hsqrt : ∀ v, 0 ≤ v → 0 ≤ env.sqrt v ∧ env.sqrt v * env.sqrt v = v)
    (shape5 : Shape K) (h5 : shape5.length = 5) (s : K) (hs : 0 < s) (t : K × K) (rot : K) :
    EstRotAndYawFrom5PointShape.yawInput env
        (shape5.map fun p => (s * p.1 + t.1, s * p.2 + t.2)) rot
      = EstRotAndYawFrom5PointShape.yawInput env shape5 rot := by
  have hmap : (shape5.map fun p => (s * p.1 + t.1, s * p.2 + t.2))
      = TransformShape shape5 { a00 := s, a01 := 0, a02 := t.1, a10 := 0, a11 := s, a12 := t.2 } := by
    unfold TransformShape
    apply List.map_congr_left
    intro p _
    apply Prod.ext <;> simp
  have hc5 : (EstRotAndYawFrom5PointShape.center shape5).length = 5 := by
    rw [center_eq]; simpa using h5
  rw [hmap]
  unfold EstRotAndYawFrom5PointShape.yawInput EstRotAndYawFrom5PointShape.derotate
  by_cases h0 : rot = 0
  · simp only [h0, ne_eq, not_true_eq_false, if_false]
    rw [center_scale_translate shape5 h5 s t, normalize_scale env hsqrt s hs _ hc5]
  · simp only [ne_eq, h0, not_false_eq_true, if_true]
    unfold RotShapeInPlace
    by_cases hr : -rot ≥ -360 ∧ -rot ≤ 360
    · simp only [hr, and_self, if_true]
      rw [normalize_center_affine env hsqrt shape5 h5 s hs t
        (getRotationMatrix2D env (env.toFloat (SumElemsX shape5 / 5))
          (env.toFloat (SumElemsY shape5 / 5)) (-rot) 1)
        (getRotationMatrix2D env
          (env.toFloat (SumElemsX (TransformShape shape5
            { a00 := s, a01 := 0, a02 := t.1, a10 := 0, a11 := s, a12 := t.2 }) / 5))
          (env.toFloat (SumElemsY (TransformShape shape5
            { a00 := s, a01 := 0, a02 := t.1, a10 := 0, a11 := s, a12 := t.2 }) / 5))
          (-rot) 1) rfl rfl rfl rfl]
    · simp only [hr, if_false]

theorem EstRotAndYawFrom5PointShape_returns (env : Env K) (shape5 : Shape K)
    (h5 : shape5.length = 5)
    (hrange : ∀ y x, -360 ≤ env.PossiblySetRotToZero (env.RadsToDegrees (-env.atan2 y x)) ∧
      env.PossiblySetRotToZero (env.RadsToDegrees (-env.atan2 y x)) ≤ 360) :
    ∃ yaw, EstRotAndYawFrom5PointShape env shape5
      = .ok (EstRotAndYawFrom5PointShape.rot env shape5, yaw) := by
  have hb : -360 ≤ EstRotAndYawFrom5PointShape.rot env shape5 ∧
      EstRotAndYawFrom5PointShape.rot env shape5 ≤ 360 := hrange _ _
  unfold EstRotAndYawFrom5PointShape
  rw [if_neg (by simp [h5])]
  unfold EstRotAndYawFrom5PointShape.yawInput EstRotAndYawFrom5PointShape.derotate
  by_cases h0 : EstRotAndYawFrom5PointShape.rot env shape5 = 0
  · simp [h0]
  · have hr : -EstRotAndYawFrom5PointShape.rot env shape5 ≥ -360 ∧
        -EstRotAndYawFrom5PointShape.rot env shape5 ≤ 360 :=
      ⟨by linarith [hb.2], by linarith [hb.1]⟩
    simp [h0, RotShapeInPlace, hr]

/-- C17: in exact arithmetic, with `sqrt` the nonnegative square root,
`atan2` unchanged when both arguments are multiplied by a positive number and
rotation estimates within the sanity bound of `RotShapeInPlace`, for every
shape of 5 points, every scale `s > 0` and every translation `t`,
`EstRotAndYawFrom5PointShape` returns a `rot` and a `yaw`, and returns the same
for the shape with every point `p` replaced by `s * p + t`. -/
theorem EstRotAndYawFrom5PointShape_invariant (env : Env K)
    (hsqrt : ∀ v, 0 ≤ v → 0 ≤ env.sqrt v ∧ env.sqrt v * env.sqrt v = v)
    (hatan2 : ∀ s y x, 0 < s → env.atan2 (s * y) (s * x) = env.atan2 y x)
    (hrange : ∀ y x, -360 ≤ env.PossiblySetRotToZero (env.RadsToDegrees (-env.atan2 y x)) ∧
      env.PossiblySetRotToZero (env.RadsToDegrees (-env.atan2 y x)) ≤ 360)
    (shape5 : Shape K) (h5 : shape5.length = 5) (s : K) (hs : 0 < s) (t : K × K) :
    ∃ rot yaw, EstRotAndYawFrom5PointShape env shape5 = .ok (rot, yaw) ∧
      EstRotAndYawFrom5PointShape env (shape5.map fun p => (s * p.1 + t.1, s * p.2 + t.2))
        = .ok (rot, yaw) := by
  obtain ⟨yaw, hy⟩ := EstRotAndYawFrom5PointShape_returns env shape5 h5 hrange
  refine ⟨_, yaw, hy, ?_⟩
  rw [← hy]
  unfold EstRotAndYawFrom5PointShape
  rw [if_neg (by simp [h5]), if_neg (by simp [h5])]
  simp only [rot_scale_translate env hatan2 shape5 h5 s hs t,
    yawInput_scale_translate env hsqrt shape5 h5 s hs t]

theorem real_atan2_scale (s y x : ℝ) (hs : 0 < s) :
    Complex.arg ⟨s * x, s * y⟩ = Complex.arg ⟨x, y⟩ := by
  have h : (⟨s * x, s * y⟩ : ℂ) = (s : ℂ) * ⟨x, y⟩ := by
    apply Complex.ext <;> simp
  rw [h, Complex.arg_real_mul _ hs]

/-- Witness for `EstRotAndYawFrom5PointShape_invariant`, over the reals: a
shape with tilted eye corners, doubled and moved by `(10, -3)`. -/
theorem EstRotAndYawFrom5PointShape_invariant_witness :
    ∃ rot yaw,
      EstRotAndYawFrom5PointShape
          (refEnv (Calibration.standard (fun y x => Complex.arg ⟨x, y⟩) Real.sqrt
            (fun a => Real.cos (a * Real.pi / 180)) (fun a => Real.sin (a * Real.pi / 180))
            Real.pi))
          [(28, 40), (72, 60), (50, 55), (38, 70), (62, 80)] = .ok (rot, yaw) ∧
      EstRotAndYawFrom5PointShape
          (refEnv (Calibration.standard (fun y x => Complex.arg ⟨x, y⟩) Real.sqrt
            (fun a => Real.cos (a * Real.pi / 180)) (fun a => Real.sin (a * Real.pi / 180))
            Real.pi))
          [(66, 77), (154, 117), (110, 107), (86, 137), (134, 157)] = .ok (rot, yaw) := by
  obtain ⟨rot, yaw, h1, h2⟩ := EstRotAndYawFrom5PointShape_invariant
    (refEnv (Calibration.standard (fun y x => Complex.arg ⟨x, y⟩) Real.sqrt
      (fun a => Real.cos (a * Real.pi / 180)) (fun a => Real.sin (a * Real.pi / 180))
      Real.pi))
    (fun v hv => ⟨Real.sqrt_nonneg v, Real.mul_self_sqrt hv⟩)
    (fun s y x hs => real_atan2_scale s y x hs)
    (fun y x => real_rot_bound y x)
    [(28, 40), (72, 60), (50, 55), (38, 70), (62, 80)] rfl 2 (by norm_num) (10, -3)
  refine ⟨rot, yaw, h1, ?_⟩
  rw [← h2]
  congr 1
  simp only [List.map_cons, List.map_nil]
  norm_num

end Stasm
